import Mathlib

/-!
# StagefrightDecoder: `Frame`, `BufferQueue`, `Decoder` and `StagefrightContext`

A shallow embedding of the frame value type, of the output slot pool, of the
decoder with its worker and of the context of `StagefrightDecoder.cpp`, with
the properties of the specification proved about it.

* Pointers are natural numbers, `0` being the null pointer.
* Heap effects (`new[]`, `delete[]`, `memcpy`, `MediaBuffer::release`) act on
  an explicit `World`, which also records the order of the `delete[]` and
  `release()` calls.
* Every `BufferQueue` method runs under `mLock`, so each one is an atomic
  function of the queue state; signalling a condition variable has no effect
  on that state.
* `uint32_t` arithmetic is arithmetic modulo `2 ^ 32`; `size_t` and `int` are
  32 bits wide, as on the 32-bit Android targets the source is written for.
* A call that waits on a condition variable is a separate outcome of the
  method (`PushResult.blocked`, `PushResult.parked`, `Outcome.waiting`), never
  a returned value; undefined behaviour is `none` or `Outcome.fault`.
* What the code gets from outside the file enters as an argument: the
  constants of the Android headers (`Codes`), the results of
  `OMXCodec::Create`, of `Thread::run` and of `mDecoderSource->read`, the
  clock readings of the timed waits.
* The worker's `decode()` runs in steps, each from one call in which the
  thread can wait to the next one (`Decoder.workerStep`); the calls of other
  threads happen between the steps.
-/

set_option autoImplicit false

namespace Stagefright

/-! ## Memory -/

/-- Machine address, `0` is the null pointer. -/
abbrev Ptr := Nat

/-- The heap together with the trace of deallocations and handle releases. -/
structure World where
  /-- Live byte arrays: address and contents. -/
  heap : List (Ptr × List Nat)
  /-- Highest address handed out so far by `new[]`. -/
  brk : Nat
  /-- Addresses passed to `delete[]`, oldest first. -/
  freed : List Ptr
  /-- Handles on which `MediaBuffer::release()` was called, oldest first. -/
  released : List Ptr
deriving DecidableEq, Repr

/-- Contents of the live array at `p`, if any. -/
def World.read (w : World) (p : Ptr) : Option (List Nat) :=
  (w.heap.find? (fun c => c.1 == p)).map Prod.snd

/-- Allocation `new uint8_t[n]`: a fresh non-null address; the contents are
indeterminate in C++ and are taken to be zero here. -/
def World.newArr (w : World) (n : Nat) : Ptr × World :=
  (w.brk + 1, { w with heap := (w.brk + 1, List.replicate n 0) :: w.heap, brk := w.brk + 1 })

/-- Deallocation `delete[] p`. -/
def World.deleteArr (w : World) (p : Ptr) : World :=
  { w with heap := w.heap.filter (fun c => c.1 != p), freed := w.freed ++ [p] }

/-- Call of `MediaBuffer::release()` on the handle `h`. -/
def World.release (w : World) (h : Ptr) : World :=
  { w with released := w.released ++ [h] }

/-- Copy `memcpy(dst, src, n)`. A copy of zero bytes touches no memory; a copy
of `n > 0` bytes needs `n` readable bytes at `src` and `n` writable bytes at
`dst`, and is undefined (`none`) otherwise, in particular for a null `src`. -/
def World.memcpy (w : World) (dst src : Ptr) (n : Nat) : Option World :=
  if n = 0 then some w
  else
    match w.read src, w.read dst with
    | some s, some d =>
      if n ≤ s.length ∧ n ≤ d.length then
        some { w with heap := (dst, s.take n ++ d.drop n) :: w.heap.filter (fun c => c.1 != dst) }
      else none
    | _, _ => none

/-! ## Status codes and constants -/

/-- Status `OK`. -/
def OK : Int := 0

/-- Return code `INFO_TRY_AGAIN_LATER`. -/
def INFO_TRY_AGAIN_LATER : Int := -1

/-- Default pool capacity `OUT_BUFFER_COUNT`. -/
def OUT_BUFFER_COUNT : Int := 10

/-- Slot state `BufferQueue::FREE`. -/
def FREE : Nat := 0xFFFFFFF0

/-- Slot state `BufferQueue::HOLDED`, the enumerator after `FREE`. -/
def HOLDED : Nat := 0xFFFFFFF1

/-- Conversion of a `size_t` (32 bit) to `int`. -/
def toInt32 (n : Nat) : Int :=
  if n % 2 ^ 32 < 2 ^ 31 then ((n % 2 ^ 32 : Nat) : Int) else ((n % 2 ^ 32 : Nat) : Int) - 2 ^ 32

/-- Conversion of an `int` to `size_t` (32 bit). -/
def toSizeT (i : Int) : Nat := (i % 2 ^ 32).toNat

/-- Wrap-around of `int` arithmetic: the value of an integer as an `int`. -/
def wrap32 (i : Int) : Int := toInt32 (toSizeT i)

/-- High-water mark `MAX_HOLDED_FRAMES`. -/
def MAX_HOLDED_FRAMES : Nat := 3

/-! ## Frame -/

/-- The fields of `class Frame`. -/
structure Frame where
  mStatus : Int
  mPts : Int
  mSize : Int
  mBuffer : Ptr
  mFlags : Nat
  mMediaBuffer : Ptr
deriving DecidableEq, Repr

namespace Frame

/-- Constructor `Frame()`. -/
def new : Frame :=
  { mStatus := OK, mPts := 0, mSize := 0, mBuffer := 0, mMediaBuffer := 0, mFlags := 0 }

/-- Constructor `Frame(status, data, size, pts, flags)`: copies `size` bytes
from `data` into a new array when `size > 0` and `data` is not null. -/
def ofBytes (w : World) (status : Int) (data : Ptr) (size : Nat) (pts : Int) (flags : Nat) :
    Option (Frame × World) :=
  let f : Frame :=
    { mStatus := status, mPts := pts, mSize := toInt32 size, mBuffer := 0, mMediaBuffer := 0,
      mFlags := flags }
  if size > 0 ∧ data ≠ 0 then
    let (p, w1) := w.newArr size
    (w1.memcpy p data size).map (fun w2 => ({ f with mBuffer := p }, w2))
  else some (f, w)

/-- Constructor `Frame(status, mediaBuffer, pts, flags)`. -/
def ofMedia (status : Int) (mediaBuffer : Ptr) (pts : Int) (flags : Nat) : Frame :=
  { mStatus := status, mPts := pts, mSize := 0, mBuffer := 0, mMediaBuffer := mediaBuffer,
    mFlags := flags }

/-- Copy assignment `self = other` for two distinct objects (`this != &other`);
returns the new value of `self`. -/
def assign (self other : Frame) (w : World) : Option (Frame × World) :=
  let oldSize : Int := self.mSize
  let s1 : Frame :=
    { self with mStatus := other.mStatus, mSize := other.mSize, mPts := other.mPts,
                mFlags := other.mFlags, mMediaBuffer := other.mMediaBuffer }
  if oldSize > 0 ∧ s1.mSize ≤ oldSize ∧ s1.mBuffer ≠ 0 then
    -- reuse frame allocated memory
    (w.memcpy s1.mBuffer other.mBuffer (toSizeT s1.mSize)).map (fun w1 => (s1, w1))
  else
    let (s2, w1) :=
      if s1.mBuffer ≠ 0 then ({ s1 with mBuffer := 0 }, w.deleteArr s1.mBuffer) else (s1, w)
    if s2.mSize > 0 ∧ other.mBuffer ≠ 0 then
      let (p, w2) := w1.newArr (toSizeT s2.mSize)
      (w2.memcpy p other.mBuffer (toSizeT s2.mSize)).map (fun w3 => ({ s2 with mBuffer := p }, w3))
    else some (s2, w1)

/-- Copy constructor `Frame(const Frame& other)`. -/
def copy (other : Frame) (w : World) : Option (Frame × World) :=
  assign new other w

/-- Method `self.swap(other)` for two distinct objects (`this != &other`);
returns the new values of `self` and of `other`. -/
def swap (self other : Frame) : Frame × Frame :=
  let status := self.mStatus
  let pts := self.mPts
  let size := self.mSize
  let buffer := self.mBuffer
  let flags := self.mFlags
  let mediaBuffer := self.mMediaBuffer
  ({ mStatus := other.mStatus, mPts := other.mPts, mSize := other.mSize,
     mBuffer := other.mBuffer, mFlags := other.mFlags, mMediaBuffer := other.mMediaBuffer },
   { mStatus := status, mPts := pts, mSize := size, mBuffer := buffer, mFlags := flags,
     mMediaBuffer := mediaBuffer })

/-- Method `empty()`. -/
def empty (f : Frame) : Bool := f.mBuffer == 0 && f.mMediaBuffer == 0

/-- Method `clearBuffers(mediaQueue)`; `mediaQueue = none` is the null pointer.
Returns the frame, the list behind `mediaQueue` and the world afterwards. -/
def clearBuffers (f : Frame) (mediaQueue : Option (List Ptr)) (w : World) :
    Frame × Option (List Ptr) × World :=
  let (f1, w1) :=
    if f.mBuffer ≠ 0 then ({ f with mBuffer := 0, mSize := 0 }, w.deleteArr f.mBuffer)
    else (f, w)
  if f1.mMediaBuffer ≠ 0 then
    match mediaQueue with
    | some mq => ({ f1 with mMediaBuffer := 0 }, some (mq ++ [f1.mMediaBuffer]), w1)
    | none => ({ f1 with mMediaBuffer := 0 }, none, w1.release f1.mMediaBuffer)
  else (f1, mediaQueue, w1)

/-- The invariant of the data model: not both an owned byte buffer and an
externally-owned handle. -/
def exclusive (f : Frame) : Prop := ¬ (f.mBuffer ≠ 0 ∧ f.mMediaBuffer ≠ 0)

instance (f : Frame) : Decidable f.exclusive := by
  unfold exclusive; infer_instance

end Frame

/-- Function `releaseMediaBufferQueue`: releases every non-null handle. -/
def releaseMediaBufferQueue : List Ptr → World → World
  | [], w => w
  | h :: hs, w => releaseMediaBufferQueue hs (if h ≠ 0 then w.release h else w)

/-! ## BufferQueue -/

/-- The fields of `BufferQueue::DataElement`. -/
structure DataElement where
  mData : Frame
  mStatus : Nat
deriving DecidableEq, Repr

/-- Constructor `DataElement()`. -/
def DataElement.new : DataElement := { mData := Frame.new, mStatus := FREE }

/-- The data members of `class BufferQueue` (lock and conditions left out). -/
structure BufferQueue where
  mMediaQueue : List Ptr
  mElements : List DataElement
  mCount : Nat
deriving DecidableEq, Repr

/-- Outcome of `BufferQueue::push`. -/
inductive PushResult where
  /-- The pool is full: the call waits on `mNotFull`. -/
  | blocked
  /-- Called with `wait = true`: the slot `index` is filled and the call waits
  on `mHoldCondition` before it returns `index`. -/
  | parked (index : Int) (q : BufferQueue) (data : Frame)
  /-- The call returned `ret`, leaving the queue `q` and the caller's frame `data`. -/
  | returned (ret : Int) (q : BufferQueue) (data : Frame)
deriving DecidableEq, Repr

/-- Outcome of `BufferQueue::holdNext`: return value, queue, caller's frame, and
the values stored through `buffer` and `size` (`none`: nothing stored). -/
structure HoldResult where
  ret : Int
  q : BufferQueue
  data : Frame
  buffer : Option Ptr
  size : Option Nat
deriving DecidableEq, Repr

namespace BufferQueue

/-- Constructor `BufferQueue(capacity)`. -/
def new (capacity : Int) : BufferQueue :=
  { mMediaQueue := [], mElements := List.replicate capacity.toNat DataElement.new, mCount := 0 }

/-- Method `isFull()`, as a loop over the slots. -/
def isFull : List DataElement → Bool
  | [] => true
  | e :: es => if e.mStatus = FREE then false else isFull es

/-- The loop of `push` from position `i` on: the first `FREE` slot swaps its
frame with `data` and takes the arrival number `count`. Returns the index, the
slots and the caller's frame, or `none` when the loop ends without a hit. -/
def pushLoop (data : Frame) (count : Nat) :
    List DataElement → Nat → Option (Nat × List DataElement × Frame)
  | [], _ => none
  | e :: es, i =>
    if e.mStatus = FREE then
      let r := e.mData.swap data
      some (i, { mData := r.1, mStatus := count } :: es, r.2)
    else (pushLoop data count es (i + 1)).map (fun r => (r.1, e :: r.2.1, r.2.2))

/-- Method `push(data, wait)`. -/
def push (q : BufferQueue) (data : Frame) (wait : Bool) : PushResult :=
  if isFull q.mElements then .blocked
  else
    match pushLoop data q.mCount q.mElements 0 with
    | some (i, es, d) =>
      let q1 : BufferQueue := { q with mElements := es, mCount := (q.mCount + 1) % 2 ^ 32 }
      if wait then .parked i q1 d else .returned i q1 d
    | none => .returned INFO_TRY_AGAIN_LATER q data

/-- Method `pull(data, index)`. The result `none` is an access past the end of
the slot array (undefined behaviour). -/
def pull (q : BufferQueue) (data : Frame) (index : Int) : Option (BufferQueue × Frame) :=
  if index < 0 ∨ index > q.mElements.length then some (q, data)
  else
    match q.mElements[index.toNat]? with
    | none => none
    | some e =>
      if e.mStatus ≠ HOLDED then some (q, data)
      else
        let r := data.swap e.mData
        some ({ q with mElements := q.mElements.set index.toNat { mData := r.2, mStatus := FREE } },
              r.1)

/-- Method `get(mediaBuffer, index)`: the value of `mediaBuffer` afterwards. -/
def get (q : BufferQueue) (mediaBuffer : Ptr) (index : Int) : Option Ptr :=
  if index < 0 ∨ index > q.mElements.length then some mediaBuffer
  else
    match q.mElements[index.toNat]? with
    | none => none
    | some e => if e.mStatus ≠ HOLDED then some 0 else some e.mData.mMediaBuffer

/-- Method `free(index)`. -/
def free (q : BufferQueue) (w : World) (index : Int) : Option (BufferQueue × World) :=
  if index < 0 ∨ index > q.mElements.length then some (q, w)
  else
    match q.mElements[index.toNat]? with
    | none => none
    | some e =>
      if e.mStatus ≠ HOLDED then some (q, w)
      else
        let r := e.mData.clearBuffers (some q.mMediaQueue) w
        some ({ q with mElements := q.mElements.set index.toNat { mData := r.1, mStatus := FREE },
                       mMediaQueue := r.2.1.getD q.mMediaQueue },
              r.2.2)

/-- Method `clearBuffer(index)`. -/
def clearBuffer (q : BufferQueue) (w : World) (index : Int) : Option (BufferQueue × World) :=
  if index < 0 ∨ index > q.mElements.length then some (q, w)
  else
    match q.mElements[index.toNat]? with
    | none => none
    | some e =>
      let r := e.mData.clearBuffers (some q.mMediaQueue) w
      let mediaQueue := r.2.1.getD q.mMediaQueue
      some ({ q with mElements := q.mElements.set index.toNat { e with mData := r.1 },
                     mMediaQueue := [] },
            releaseMediaBufferQueue mediaQueue r.2.2)

/-- The scan of `holdNext` from position `i` on, with the running minimum `min`
and the running choice `next` (`none` is `mElements.end()`). -/
def holdScan : List DataElement → Nat → Nat → Option Nat → Nat × Option Nat
  | [], _, min, next => (min, next)
  | e :: es, i, min, next =>
    if e.mStatus < min then holdScan es (i + 1) e.mStatus (some i)
    else holdScan es (i + 1) min next

/-- Method `holdNext(data, buffer, size)`; `wantBuffer` and `wantSize` say
whether `buffer` and `size` are non-null. -/
def holdNext (q : BufferQueue) (data : Frame) (wantBuffer wantSize : Bool) : HoldResult :=
  match (holdScan q.mElements 0 FREE none).2 with
  | none => { ret := INFO_TRY_AGAIN_LATER, q := q, data := data, buffer := none, size := none }
  | some j =>
    match q.mElements[j]? with
    | none => { ret := INFO_TRY_AGAIN_LATER, q := q, data := data, buffer := none, size := none }
    | some e =>
      -- copy only metadata, and mark as holded
      { ret := j,
        q := { q with mElements := q.mElements.set j { e with mStatus := HOLDED } },
        data := { data with mStatus := e.mData.mStatus, mPts := e.mData.mPts },
        buffer :=
          if wantBuffer then
            some (if e.mData.mMediaBuffer ≠ 0 then e.mData.mMediaBuffer else e.mData.mBuffer)
          else none,
        size := if wantSize then some (toSizeT e.mData.mSize) else none }

/-- Method `size()`. -/
def size (q : BufferQueue) : Nat := (q.mElements.filter (fun e => e.mStatus != FREE)).length

/-- Method `filledCount()`. -/
def filledCount (q : BufferQueue) : Nat := (q.mElements.filter (fun e => !e.mData.empty)).length

/-- Method `readyCount()`. -/
def readyCount (q : BufferQueue) : Nat :=
  (q.mElements.filter (fun e => e.mStatus != FREE && e.mStatus != HOLDED)).length

/-- Method `capacity()`. -/
def capacity (q : BufferQueue) : Nat := q.mElements.length

/-- The loop of `clearAll`: every slot's frame is cleared into the deferred
list; the state becomes `FREE` unless it is `HOLDED`. -/
def clearAllLoop : List DataElement → List Ptr → World → List DataElement × List Ptr × World
  | [], mq, w => ([], mq, w)
  | e :: es, mq, w =>
    let r := e.mData.clearBuffers (some mq) w
    let rest := clearAllLoop es (r.2.1.getD mq) r.2.2
    ({ mData := r.1, mStatus := if e.mStatus ≠ HOLDED then FREE else e.mStatus } :: rest.1,
     rest.2.1, rest.2.2)

/-- Method `clearAll()`. -/
def clearAll (q : BufferQueue) (w : World) : BufferQueue × World :=
  let r := clearAllLoop q.mElements q.mMediaQueue w
  ({ q with mElements := r.1, mMediaQueue := [] }, releaseMediaBufferQueue r.2.1 r.2.2)

/-- Method `releaseBuffers()`. -/
def releaseBuffers (q : BufferQueue) (w : World) : BufferQueue × World :=
  ({ q with mMediaQueue := [] }, releaseMediaBufferQueue q.mMediaQueue w)

/-- The wait loop of `waitRelease`, entered with the number `count` of
non-empty slots. `periods` lists the successive values of
`getPeriodMs(startTime)`, one for each pass; `none` means the call is still
waiting when the list is used up. While the method waits in `waitRelative` the
pool is taken to be left alone, so each recount gives `filledCount` again. -/
def waitReleaseLoop (q : BufferQueue) (waitTime : Int) : List Int → Nat → Option Nat
  | [], count => if count ≥ MAX_HOLDED_FRAMES then none else some count
  | p :: ps, count =>
    if count ≥ MAX_HOLDED_FRAMES then
      let sleep := wrap32 (waitTime - p)
      if sleep ≤ 0 then some count
      else waitReleaseLoop q waitTime ps q.filledCount
    else some count

/-- Method `waitRelease(waitTime)`: the count returned, the queue and the world. -/
def waitRelease (q : BufferQueue) (w : World) (waitTime : Int) (periods : List Int) :
    Option (Nat × BufferQueue × World) :=
  (waitReleaseLoop q waitTime periods q.filledCount).map fun count =>
    (count, { q with mMediaQueue := [] }, releaseMediaBufferQueue q.mMediaQueue w)

/-- States the pool can be in: the constructed pool, closed under the methods
that change it. Every method changes the pool in one section that holds
`mLock` (`push` after its wait for a free slot, `waitRelease` after its timed
waits), so the interleavings of calls from several threads are the sequences
of these steps. -/
inductive Reachable (capacity : Int) : BufferQueue → Prop where
  | init : Reachable capacity (BufferQueue.new capacity)
  | push {q q1 : BufferQueue} {data d1 : Frame} {ret : Int} :
      Reachable capacity q → q.push data false = .returned ret q1 d1 → Reachable capacity q1
  | pushWait {q q1 : BufferQueue} {data d1 : Frame} {index : Int} :
      Reachable capacity q → q.push data true = .parked index q1 d1 → Reachable capacity q1
  | pull {q q1 : BufferQueue} {data d1 : Frame} {index : Int} :
      Reachable capacity q → q.pull data index = some (q1, d1) → Reachable capacity q1
  | free {q q1 : BufferQueue} {w w1 : World} {index : Int} :
      Reachable capacity q → q.free w index = some (q1, w1) → Reachable capacity q1
  | clearBuffer {q q1 : BufferQueue} {w w1 : World} {index : Int} :
      Reachable capacity q → q.clearBuffer w index = some (q1, w1) → Reachable capacity q1
  | holdNext {q : BufferQueue} {data : Frame} {wantBuffer wantSize : Bool} :
      Reachable capacity q → Reachable capacity (q.holdNext data wantBuffer wantSize).q
  | clearAll {q : BufferQueue} {w : World} :
      Reachable capacity q → Reachable capacity (q.clearAll w).1
  | releaseBuffers {q : BufferQueue} {w : World} :
      Reachable capacity q → Reachable capacity (q.releaseBuffers w).1
  | waitRelease {q q1 : BufferQueue} {w w1 : World} {waitTime : Int} {periods : List Int}
      {count : Nat} :
      Reachable capacity q → q.waitRelease w waitTime periods = some (count, q1, w1) →
      Reachable capacity q1

/-- A slot is sequenced when its state is an arrival number, that is, lies
below the reserved values; these are the slots `holdNext` chooses from. -/
def Sequenced (e : DataElement) : Prop := e.mStatus < FREE

instance (e : DataElement) : Decidable (Sequenced e) := by
  unfold Sequenced; infer_instance

/-- Number of `FREE` slots. -/
def freeCount (q : BufferQueue) : Nat := (q.mElements.filter (fun e => e.mStatus == FREE)).length

/-- Successive `push(f, false)` calls for the frames of the list; the slot
indexes returned and the final queue, or `none` if a call does not return. -/
def pushAll : BufferQueue → List Frame → Option (List Int × BufferQueue)
  | q, [] => some ([], q)
  | q, f :: fs =>
    match q.push f false with
    | .returned ret q1 _ => (pushAll q1 fs).map (fun r => (ret :: r.1, r.2))
    | _ => none

/-- Successive `holdNext` calls, one for each caller frame of the list; for
each call the return value and the status and pts reported in the caller's
frame. -/
def holdAll : BufferQueue → List Frame → List (Int × Int × Int) × BufferQueue
  | q, [] => ([], q)
  | q, o :: os =>
    let r := q.holdNext o false false
    let rest := holdAll r.q os
    ((r.ret, r.data.mStatus, r.data.mPts) :: rest.1, rest.2)

/-- Successive rounds of `holdNext` followed by `free` of the returned index. -/
def holdFreeAll : BufferQueue → World → List Frame →
    Option (List (Int × Int × Int) × BufferQueue × World)
  | q, w, [] => some ([], q, w)
  | q, w, o :: os =>
    let r := q.holdNext o false false
    match r.q.free w r.ret with
    | none => none
    | some (q1, w1) =>
      (holdFreeAll q1 w1 os).map (fun rest => ((r.ret, r.data.mStatus, r.data.mPts) :: rest.1, rest.2))

end BufferQueue

/-! ## Concrete inputs used in the examples -/

/-- The empty world. -/
def World.empty : World := { heap := [], brk := 0, freed := [], released := [] }

/-- A world whose only array is five source bytes at address 50. -/
def sourceWorld : World :=
  { heap := [(50, [1, 2, 3, 4, 5])], brk := 50, freed := [], released := [] }

/-- A frame that holds the external handle 7 with pts 5. -/
def handleFrame : Frame := Frame.ofMedia OK 7 5 0

/-- A one-slot pool whose slot is held and carries `handleFrame`. -/
def heldQueue : BufferQueue :=
  { mMediaQueue := [], mElements := [{ mData := handleFrame, mStatus := HOLDED }], mCount := 1 }

/-- A one-slot pool whose slot is sequenced with arrival number 0 and carries
`handleFrame`. -/
def readyQueue : BufferQueue :=
  { mMediaQueue := [], mElements := [{ mData := handleFrame, mStatus := 0 }], mCount := 1 }

/-- A one-slot pool, all `FREE`, whose arrival counter has reached the value
of `FREE`. -/
def reservedQueue : BufferQueue :=
  { mMediaQueue := [], mElements := List.replicate 1 DataElement.new, mCount := FREE }

/-- What `clearAll` makes of one slot: the frame loses both payload forms
(`mSize` is reset only together with an owned buffer), and the state becomes
`FREE` unless it is `HOLDED`. -/
def clearSlot (e : DataElement) : DataElement :=
  { mData := { e.mData with mBuffer := 0, mMediaBuffer := 0,
                            mSize := if e.mData.mBuffer ≠ 0 then 0 else e.mData.mSize },
    mStatus := if e.mStatus = HOLDED then HOLDED else FREE }

/-- The slots listed in `pend` (slot index and frame pushed, oldest first)
carry the consecutive arrival numbers `base`, `base + 1`, ... and the frames
pushed; no other slot is sequenced; all these arrival numbers are below the
reserved values. -/
def Pending (l : List DataElement) (base : Nat) (pend : List (Nat × Frame)) : Prop :=
  (∀ (t : Nat) (p : Nat × Frame), pend[t]? = some p →
    l[p.1]? = some { mData := p.2, mStatus := base + t }) ∧
  (∀ (j : Nat) (e : DataElement), l[j]? = some e → (∀ p ∈ pend, p.1 ≠ j) → FREE ≤ e.mStatus) ∧
  base + pend.length ≤ FREE

/-- What the caller sees of one `holdNext` that picks the slot and frame `p`:
the index returned and the status and pts reported. -/
def report (p : Nat × Frame) : Int × Int × Int := ((p.1 : Int), p.2.mStatus, p.2.mPts)

/-- A frame that owns four bytes at address `100 + pts`, with timestamp `pts`. -/
def bytesFrame (pts : Nat) : Frame :=
  { mStatus := OK, mPts := pts, mSize := 4, mBuffer := 100 + pts, mFlags := 0, mMediaBuffer := 0 }

/-- Ten owned-bytes frames with timestamps 0 to 9. -/
def tenFrames : List Frame := (List.range 10).map bytesFrame

/-- A two-slot pool, all `FREE`, whose arrival counter is one below `FREE`. -/
def wrapQueue : BufferQueue :=
  { mMediaQueue := [], mElements := List.replicate 2 DataElement.new, mCount := 0xFFFFFFEF }

/-- Well-formed heap: every live array has a non-null address that `new[]`
has already handed out or passed over. -/
def World.wf (w : World) : Prop := ∀ c ∈ w.heap, 0 < c.1 ∧ c.1 ≤ w.brk

instance (w : World) : Decidable w.wf := by
  unfold World.wf; infer_instance

/-- A size that does not fit into `int`: `2 ^ 31`. -/
def bigSize : Nat := 2147483648

/-- A world whose only array is `bigSize` source bytes at address 50. -/
def bigWorld : World :=
  { heap := [(50, List.replicate bigSize 0)], brk := 50, freed := [], released := [] }

/-- A two-slot pool with one `FREE` and one held slot, none sequenced. -/
def idleQueue : BufferQueue :=
  { mMediaQueue := [],
    mElements := [DataElement.new, { mData := handleFrame, mStatus := HOLDED }],
    mCount := 1 }

/-! ## Decoder: data -/

/-- Constants of the Android headers (`MediaErrors.h`, `Errors.h`,
`OMX_Core.h`) that the source uses by name; their values are not part of the
repository and are left open. -/
structure Codes where
  ERROR_END_OF_STREAM : Int
  INFO_FORMAT_CHANGED : Int
  INFO_DISCONTINUITY : Int
  TIMED_OUT : Int
  OMX_BUFFERFLAG_ENDOFFRAME : Nat
  OMX_BUFFERFLAG_CODECCONFIG : Nat
deriving DecidableEq, Repr

/-- Return code `INFO_OUTPUT_END_OF_STREAM`. -/
def INFO_OUTPUT_END_OF_STREAM : Int := -4

/-- Return code `INFO_OUTPUT_FORMAT_CHANGED`. -/
def INFO_OUTPUT_FORMAT_CHANGED : Int := -2

/-- Input queue limit `IN_BUFFER_COUNT`. -/
def IN_BUFFER_COUNT : Int := 4

/-- Static `s_frameDisplayTimeMsec`, which the source never assigns. -/
def s_frameDisplayTimeMsec : Int := 40

/-- Outcome of a call that may wait or go wrong. -/
inductive Outcome (α : Type) where
  /-- The call returned. -/
  | done (a : α)
  /-- The call is waiting on a condition variable, or the scripted waits are
  used up before it returns. -/
  | waiting
  /-- Undefined behaviour: a null or out-of-range access. -/
  | fault
deriving DecidableEq, Repr

/-- The keys of a `MetaData` format that the decoder reads. -/
structure MetaFormat where
  width : Option Int
  height : Option Int
  component : Option (List Nat)
  colorFormat : Option Int
  cropRect : Option (Int × Int × Int × Int)
  rotation : Option Int
  sampleRate : Option Int
  channelCount : Option Int
deriving DecidableEq, Repr

/-- A decoder source as `OMXCodec::Create` returns it: its format and the
result of its `start()`. -/
structure MediaSource where
  format : MetaFormat
  startResult : Int
deriving DecidableEq, Repr

/-- What the decoder reads of its `NativeWindowRenderer`. -/
structure Renderer where
  /-- Whether `window()` is non-null. -/
  hasWindow : Bool
  /-- Value of `isSWRenderng()`. -/
  swRendering : Bool
deriving DecidableEq, Repr

/-- The data members of `class Decoder` that its control flow reads or writes;
`runCalls` counts the calls of the inherited `Thread::run`. -/
structure Decoder where
  mTrack : Bool
  mDecoderSource : Option MediaSource
  mRenderer : Option Renderer
  mInterrupted : Bool
  mFlushNeeded : Bool
  mNeedSkip : Bool
  mVideoWidth : Int
  mVideoHeight : Int
  mVideoColorFormat : Int
  mVideoStride : Int
  mVideoSliceHeight : Int
  mVideoCropLeft : Int
  mVideoCropRight : Int
  mVideoCropTop : Int
  mVideoCropBottom : Int
  mVideoRotation : Int
  mSampleRate : Int
  mChannelCount : Int
  mCodecConfig : List Nat
  mIsVideoDecoder : Bool
  mDelayedOpen : Bool
  mMimeType : List Nat
  mComponentName : List Nat
  mInQueue : List Frame
  mOutQueue : BufferQueue
  runCalls : Nat
deriving DecidableEq, Repr

namespace Decoder

/-- Constructor `Decoder()`. -/
def new : Decoder :=
  { mTrack := false, mDecoderSource := none, mRenderer := none, mInterrupted := false,
    mFlushNeeded := false, mNeedSkip := false, mVideoWidth := 0, mVideoHeight := 0,
    mVideoColorFormat := 0, mVideoStride := 0, mVideoSliceHeight := 0, mVideoCropLeft := 0,
    mVideoCropRight := 0, mVideoCropTop := 0, mVideoCropBottom := 0, mVideoRotation := 0,
    mSampleRate := 0, mChannelCount := 0, mCodecConfig := [], mIsVideoDecoder := true,
    mDelayedOpen := false, mMimeType := [], mComponentName := [], mInQueue := [],
    mOutQueue := BufferQueue.new OUT_BUFFER_COUNT, runCalls := 0 }

/-! ## Decoder: input queue -/

/-- Call `mInQueue.push_back(frame)`: the list node holds a copy made by the
copy constructor. Returns the queue, the world and the copy. -/
def pushBack (inQueue : List Frame) (frame : Frame) (w : World) :
    Option (List Frame × World × Frame) :=
  (Frame.copy frame w).map fun r => (inQueue ++ [r.1], r.2, r.1)

/-- Method `signalEOF()`. -/
def signalEOF (c : Codes) (d : Decoder) (w : World) : Option (Decoder × World) :=
  let frame : Frame := { Frame.new with mStatus := c.ERROR_END_OF_STREAM }
  match pushBack d.mInQueue frame w with
  | none => none
  | some (q1, w1, _) => some ({ d with mInQueue := q1 }, (frame.clearBuffers none w1).2.2)

/-- Method `flush()`. -/
def flush (c : Codes) (d : Decoder) (w : World) : Option (Decoder × World) :=
  signalEOF c { d with mFlushNeeded := true } w

/-- Method `waitAndPopInputBuffer(frame)`: the status returned, the decoder,
the caller's frame and the world. The erased list node is destroyed with what
the swap left in it. -/
def waitAndPopInputBuffer (d : Decoder) (frame : Frame) (w : World) :
    Outcome (Int × Decoder × Frame × World) :=
  match d.mInQueue with
  | [] => if d.mInterrupted then .done (frame.mStatus, d, frame, w) else .waiting
  | head :: rest =>
    let r := frame.swap head
    .done (r.1.mStatus, { d with mInQueue := rest }, r.1, (r.2.clearBuffers none w).2.2)

/-- What the other threads do during one pass of the loop of
`waitReadOrOutput`. -/
structure WaitTick where
  /-- Value of `tryGetReadyCount()`. -/
  ready : Nat
  /-- Value of `getPeriodMs(startTime)`. -/
  period : Int
  /-- Result of `mReadCondition.waitRelative`, if the pass gets to it. -/
  waitRes : Int
  /-- Number of frames the worker takes from the head of the input queue
  while `waitRelative` has released `mInLock`. -/
  taken : Nat
deriving DecidableEq, Repr

/-- The loop of `waitReadOrOutput(readyCount, waitMs)`, one tick for each pass:
the result, `readyCount`, the input queue left by the worker and the frames it
took; `none` when the ticks are used up before the loop ends. -/
def waitLoop (waitMs : Int) :
    List WaitTick → Int → List Frame → List Frame → Option (Int × Nat × List Frame × List Frame)
  | [], _, _, _ => none
  | t :: ts, res, q, taken =>
    if t.ready > 0 then some (res, t.ready, q, taken)
    else
      let sleep := wrap32 (waitMs - t.period)
      if sleep ≤ 0 then some (res, t.ready, q, taken)
      else if t.waitRes = OK then some (t.waitRes, t.ready, q.drop t.taken, taken ++ q.take t.taken)
      else waitLoop waitMs ts t.waitRes (q.drop t.taken) (taken ++ q.take t.taken)

/-- Method `waitReadOrOutput(readyCount, waitMs)` on the input queue `q`. -/
def waitReadOrOutput (c : Codes) (waitMs : Int) (ticks : List WaitTick) (q : List Frame) :
    Option (Int × Nat × List Frame × List Frame) :=
  waitLoop waitMs ticks c.TIMED_OUT q []

/-- Result of `queueInputBuffer`: the value returned, the decoder and the
world, and, for the record, the frames the worker took during the waits of the
call and the frames the call appended. -/
structure QueueResult where
  ret : Bool
  d : Decoder
  w : World
  taken : List Frame
  pushed : List Frame
deriving DecidableEq, Repr

/-- The loop `while (queueSize >= IN_BUFFER_COUNT)` of `queueInputBuffer`, one
list of ticks for each call of `waitReadOrOutput`. Returns whether
`readyCount > 0` ended it, the input queue, the frames taken and the unused
tick lists. -/
def skipLoop (c : Codes) (sleep : Int) :
    List (List WaitTick) → List Frame → List Frame →
      Outcome (Bool × List Frame × List Frame × List (List WaitTick))
  | [], _, _ => .waiting
  | ticks :: rest, q, taken =>
    match waitReadOrOutput c sleep ticks q with
    | none => .waiting
    | some (_, readyCount, q1, tk) =>
      if readyCount > 0 then .done (true, q1, taken ++ tk, rest)
      else if toInt32 q1.length < IN_BUFFER_COUNT then .done (false, q1, taken ++ tk, rest)
      else skipLoop c sleep rest q1 (taken ++ tk)

/-- The end of `queueInputBuffer`: the last `waitReadOrOutput(readyCount,
sleep)`, the return and the destruction of the local frame. -/
def queueReturn (c : Codes) (d : Decoder) (w : World) (frame : Frame) (sleep : Int)
    (result : Bool) (taken pushed : List Frame) (waits : List (List WaitTick)) :
    Outcome QueueResult :=
  match waits with
  | [] => .waiting
  | ticks :: _ =>
    match waitReadOrOutput c sleep ticks d.mInQueue with
    | none => .waiting
    | some (_, _, q1, tk) =>
      .done { ret := result, d := { d with mInQueue := q1 },
              w := (frame.clearBuffers none w).2.2, taken := taken ++ tk, pushed := pushed }

/-- The part of `queueInputBuffer` from `if (queueSize < IN_BUFFER_COUNT)` on. -/
def queueAppend (c : Codes) (d : Decoder) (w : World) (frame : Frame) (sleep : Int)
    (taken : List Frame) (waits : List (List WaitTick)) : Outcome QueueResult :=
  let queueSize := toInt32 d.mInQueue.length
  if queueSize < IN_BUFFER_COUNT then
    match pushBack d.mInQueue frame w with
    | none => .fault
    | some (q1, w1, copy) =>
      let sleep1 := if queueSize + 1 < IN_BUFFER_COUNT then wrap32 ((queueSize + 1) * 25) else sleep
      queueReturn c { d with mInQueue := q1 } w1 frame sleep1 true taken [copy] waits
  else queueReturn c d w frame sleep false taken [] waits

/-- The part of `queueInputBuffer` from `mNeedSkip = false` on. -/
def queueSettle (c : Codes) (d : Decoder) (w : World) (frame : Frame) (sleep : Int)
    (taken : List Frame) (waits : List (List WaitTick)) : Outcome QueueResult :=
  let d1 : Decoder := { d with mNeedSkip := false }
  if toInt32 d1.mInQueue.length = IN_BUFFER_COUNT then
    match waits with
    | [] => .waiting
    | ticks :: rest =>
      match waitReadOrOutput c sleep ticks d1.mInQueue with
      | none => .waiting
      | some (res, readyCount, q1, tk) =>
        if res ≠ OK ∧ readyCount > 0 then
          .done { ret := false, d := { d1 with mInQueue := q1 },
                  w := (frame.clearBuffers none w).2.2, taken := taken ++ tk, pushed := [] }
        else queueAppend c { d1 with mInQueue := q1 } w frame 0 (taken ++ tk) rest
  else queueAppend c d1 w frame sleep taken waits

/-- Method `queueInputBuffer(index, data, size, pts, flags)`; `waits` holds one
list of ticks for each call of `waitReadOrOutput`. The call of
`connectWindow()` on the renderer is outside the model. -/
def queueInputBuffer (c : Codes) (d : Decoder) (w : World) (_index : Int) (data : Ptr)
    (size : Nat) (pts : Int) (flags : Nat) (waits : List (List WaitTick)) :
    Outcome QueueResult :=
  let sleep : Int := 2 * s_frameDisplayTimeMsec + 5
  let status : Int :=
    if flags &&& c.OMX_BUFFERFLAG_ENDOFFRAME ≠ 0 then c.INFO_DISCONTINUITY else OK
  match Frame.ofBytes w status data size pts flags with
  | none => .fault
  | some (frame, w1) =>
    let queueSize := toInt32 d.mInQueue.length
    if d.mDecoderSource = none then
      if queueSize < 50 then
        match pushBack d.mInQueue frame w1 with
        | none => .fault
        | some (q1, w2, copy) =>
          .done { ret := true, d := { d with mInQueue := q1 },
                  w := (frame.clearBuffers none w2).2.2, taken := [], pushed := [copy] }
      else
        .done { ret := false, d := d, w := (frame.clearBuffers none w1).2.2, taken := [],
                pushed := [] }
    else if queueSize > IN_BUFFER_COUNT then
      match skipLoop c sleep waits d.mInQueue [] with
      | .waiting => .waiting
      | .fault => .fault
      | .done (ready, q1, taken, rest) =>
        let d1 : Decoder := { d with mNeedSkip := true, mInQueue := q1 }
        if ready then
          match pushBack q1 frame w1 with
          | none => .fault
          | some (q2, w2, copy) =>
            .done { ret := true, d := { d1 with mInQueue := q2 },
                    w := (frame.clearBuffers none w2).2.2, taken := taken, pushed := [copy] }
        else queueSettle c d1 w1 frame 0 taken rest
    else queueSettle c d w1 frame sleep [] waits

/-- Method `dequeueInputBuffer(timeoutUs)` after its sleep. -/
def dequeueInputBuffer (d : Decoder) : Int :=
  if toInt32 d.mInQueue.length < IN_BUFFER_COUNT then 1 else INFO_TRY_AGAIN_LATER

end Decoder

namespace Decoder

/-! ## Decoder: output -/

/-- Result of `dequeueOutputBuffer`: the value returned, the decoder and the
world, and the values stored through `data`, `size` and `pts` (`none`: nothing
stored). -/
structure DequeueResult where
  ret : Int
  d : Decoder
  w : World
  data : Option Ptr
  size : Option Nat
  pts : Int
deriving DecidableEq, Repr

/-- Method `dequeueOutputBuffer(data, size, pts)`; the local frame is destroyed
at the end. The result `none` is an access past the slot array in `pull`. -/
def dequeueOutputBuffer (c : Codes) (d : Decoder) (w : World) : Option DequeueResult :=
  let directRendering := d.mRenderer.isSome
  if directRendering then
    let r := d.mOutQueue.holdNext Frame.new true false
    let status := r.data.mStatus
    let pulled : Option (BufferQueue × Frame) :=
      if c.INFO_FORMAT_CHANGED = status then r.q.pull r.data r.ret else some (r.q, r.data)
    match pulled with
    | none => none
    | some (q1, frame) =>
      some { ret :=
               if status = c.ERROR_END_OF_STREAM then INFO_OUTPUT_END_OF_STREAM
               else if status = c.INFO_FORMAT_CHANGED then INFO_OUTPUT_FORMAT_CHANGED
               else r.ret,
             d := { d with mOutQueue := q1 },
             w := (frame.clearBuffers none w).2.2,
             data := r.buffer, size := some 0, pts := frame.mPts }
  else
    let r := d.mOutQueue.holdNext Frame.new true true
    let status := r.data.mStatus
    some { ret :=
             if status = c.ERROR_END_OF_STREAM then INFO_OUTPUT_END_OF_STREAM
             else if status = c.INFO_FORMAT_CHANGED then INFO_OUTPUT_FORMAT_CHANGED
             else r.ret,
           d := { d with mOutQueue := r.q },
           w := (r.data.clearBuffers none w).2.2,
           data := r.buffer, size := r.size, pts := r.data.mPts }

end Decoder

/-- Sample values for the constants of the Android headers. -/
def androidCodes : Codes :=
  { ERROR_END_OF_STREAM := -1011, INFO_FORMAT_CHANGED := -1012, INFO_DISCONTINUITY := -1013,
    TIMED_OUT := -110, OMX_BUFFERFLAG_ENDOFFRAME := 16, OMX_BUFFERFLAG_CODECCONFIG := 128 }

/-- A decoder without decoder source whose input queue holds four frames. -/
def fourQueued : Decoder := { Decoder.new with mInQueue := List.replicate 4 Frame.new }

/-- A decoder without decoder source whose input queue holds fifty frames. -/
def fiftyQueued : Decoder := { Decoder.new with mInQueue := List.replicate 50 Frame.new }

/-- An interrupted decoder with an empty input queue. -/
def interruptedDecoder : Decoder := { Decoder.new with mInterrupted := true }

/-- A decoder whose input queue holds a payload frame and then a sentinel. -/
def twoQueued : Decoder :=
  { Decoder.new with
    mInQueue := [bytesFrame 3, { Frame.new with mStatus := androidCodes.ERROR_END_OF_STREAM }] }

/-- A decoder without renderer whose output pool is `readyQueue`. -/
def readyDecoder : Decoder := { Decoder.new with mOutQueue := readyQueue }

/-- The frame built from the five bytes of `sourceWorld` with pts 9. -/
def builtFrame : Frame :=
  { mStatus := 0, mPts := 9, mSize := 5, mBuffer := 51, mFlags := 0, mMediaBuffer := 0 }

/-- The world after building `builtFrame` in `sourceWorld`. -/
def builtWorld : World :=
  { heap := [(51, [1, 2, 3, 4, 5]), (50, [1, 2, 3, 4, 5])], brk := 51, freed := [],
    released := [] }

/-- The copy of `builtFrame` that `push_back` makes in `builtWorld`. -/
def copiedFrame : Frame :=
  { mStatus := 0, mPts := 9, mSize := 5, mBuffer := 52, mFlags := 0, mMediaBuffer := 0 }

/-- The world after copying `builtFrame` in `builtWorld`. -/
def copiedWorld : World :=
  { heap := [(52, [1, 2, 3, 4, 5]), (51, [1, 2, 3, 4, 5]), (50, [1, 2, 3, 4, 5])], brk := 52,
    freed := [], released := [] }

namespace Decoder

/-! ## Decoder: sequences of calls on the input queue -/

/-- One call on the input queue. -/
inductive InCall where
  /-- Call `queueInputBuffer(index, data, size, pts, flags)` with the ticks of
  its waits. -/
  | queue (index : Int) (data : Ptr) (size : Nat) (pts : Int) (flags : Nat)
      (waits : List (List WaitTick))
  /-- Call `signalEOF()`. -/
  | eof
  /-- Call `waitAndPopInputBuffer(out)`. -/
  | pop (out : Frame)
deriving DecidableEq, Repr

/-- What a sequence of calls leaves: the decoder and the world, the frames
appended to the input queue and the frames delivered from it (to the caller of
`waitAndPopInputBuffer`, or to the worker during a wait of `queueInputBuffer`),
each list in order of time. -/
structure InTrace where
  d : Decoder
  w : World
  appended : List Frame
  delivered : List Frame
deriving DecidableEq, Repr

/-- One call, with the frames it appends and delivers. -/
def inputStep (c : Codes) (call : InCall) (d : Decoder) (w : World) : Outcome InTrace :=
  match call with
  | .queue index data size pts flags waits =>
    match d.queueInputBuffer c w index data size pts flags waits with
    | .done r => .done { d := r.d, w := r.w, appended := r.pushed, delivered := r.taken }
    | .waiting => .waiting
    | .fault => .fault
  | .eof =>
    match d.signalEOF c w with
    | none => .fault
    | some (d1, w1) =>
      .done { d := d1, w := w1, appended := d1.mInQueue.drop d.mInQueue.length, delivered := [] }
  | .pop out =>
    match d.waitAndPopInputBuffer out w with
    | .done (_, d1, frame, w1) =>
      .done { d := d1, w := w1, appended := [],
              delivered := if d.mInQueue.isEmpty then [] else [frame] }
    | .waiting => .waiting
    | .fault => .fault

/-- A sequence of calls, one after the other. -/
def inputRun (c : Codes) : List InCall → Decoder → World → Outcome InTrace
  | [], d, w => .done { d := d, w := w, appended := [], delivered := [] }
  | call :: rest, d, w =>
    match inputStep c call d w with
    | .done t =>
      match inputRun c rest t.d t.w with
      | .done t1 =>
        .done { t1 with appended := t.appended ++ t1.appended,
                        delivered := t.delivered ++ t1.delivered }
      | .waiting => .waiting
      | .fault => .fault
    | .waiting => .waiting
    | .fault => .fault

end Decoder

/-- A script on the input queue: a payload frame with pts 1, an end-of-stream
sentinel, a payload frame with pts 2, then three pops. -/
def sampleCalls : List Decoder.InCall :=
  [.queue 0 50 5 1 0 [], .eof, .queue 0 50 5 2 0 [], .pop Frame.new, .pop Frame.new,
   .pop Frame.new]

/-- The three frames that `sampleCalls` appends, in order. -/
def sampleFrames : List Frame :=
  [{ mStatus := 0, mPts := 1, mSize := 5, mBuffer := 52, mFlags := 0, mMediaBuffer := 0 },
   { Frame.new with mStatus := androidCodes.ERROR_END_OF_STREAM },
   { mStatus := 0, mPts := 2, mSize := 5, mBuffer := 54, mFlags := 0, mMediaBuffer := 0 }]

/-- What `sampleCalls` leaves when run on a new decoder in `sourceWorld`. -/
def sampleTrace : Decoder.InTrace :=
  { d := Decoder.new,
    w := { heap := [(54, [1, 2, 3, 4, 5]), (52, [1, 2, 3, 4, 5]), (50, [1, 2, 3, 4, 5])],
           brk := 54, freed := [51, 53], released := [] },
    appended := sampleFrames, delivered := sampleFrames }

namespace Decoder

/-! ## Decoder: creation -/

/-- Test `strncmp(a, b, n) == 0` on strings given as their bytes. -/
def strncmpEq (a b : List Nat) (n : Nat) : Bool := a.take n == b.take n

/-- ASCII `tolower`. -/
def toLower (ch : Nat) : Nat := if 65 ≤ ch ∧ ch ≤ 90 then ch + 32 else ch

/-- Test `strncasecmp(a, b, n) == 0` on strings given as their bytes. -/
def strncasecmpEq (a b : List Nat) (n : Nat) : Bool :=
  (a.take n).map toLower == (b.take n).map toLower

/-- The bytes of the literal `audio/`. -/
def strAudio : List Nat := [97, 117, 100, 105, 111, 47]

/-- The bytes of the literal `OMX.`. -/
def strOmx : List Nat := [79, 77, 88, 46]

/-- The bytes of the literal `OMX.google.`. -/
def strOmxGoogle : List Nat := [79, 77, 88, 46, 103, 111, 111, 103, 108, 101, 46]

/-- The bytes of the literal `OMX.Nvidia.mpeg2v.decode`. -/
def strOmxNvidia : List Nat :=
  [79, 77, 88, 46, 78, 118, 105, 100, 105, 97, 46, 109, 112, 101, 103, 50, 118, 46, 100, 101,
   99, 111, 100, 101]

/-- Method `setVideoDecoderFormat()`: the value returned and the decoder. Each
`find` call stores what it finds before the next one is tried. -/
def setVideoDecoderFormat (d : Decoder) : Bool × Decoder :=
  match d.mDecoderSource with
  | none => (false, d)
  | some src =>
    match src.format.width with
    | none => (false, d)
    | some stride =>
      let d1 : Decoder := { d with mVideoStride := stride }
      match src.format.height with
      | none => (false, d1)
      | some sliceHeight =>
        let d2 : Decoder := { d1 with mVideoSliceHeight := sliceHeight }
        match src.format.component with
        | none => (false, d2)
        | some name =>
          match src.format.colorFormat with
          | none => (false, d2)
          | some color =>
            let d3 : Decoder := { d2 with mVideoColorFormat := color, mComponentName := name }
            if d3.mVideoStride ≤ 0 then (false, d3)
            else if d3.mVideoSliceHeight ≤ 0 then (false, d3)
            else
              let d4 : Decoder :=
                match src.format.cropRect with
                | some (left, top, right, bottom) =>
                  { d3 with mVideoCropLeft := left, mVideoCropTop := top,
                            mVideoCropRight := right, mVideoCropBottom := bottom }
                | none =>
                  { d3 with mVideoCropLeft := 0, mVideoCropTop := 0,
                            mVideoCropRight := d3.mVideoStride - 1,
                            mVideoCropBottom := d3.mVideoSliceHeight - 1 }
              if d4.mVideoCropLeft < 0 ∨ d4.mVideoCropLeft ≥ d4.mVideoCropRight
                  ∨ d4.mVideoCropRight ≥ d4.mVideoStride ∨ d4.mVideoCropTop < 0
                  ∨ d4.mVideoCropTop ≥ d4.mVideoCropBottom
                  ∨ d4.mVideoCropBottom ≥ d4.mVideoSliceHeight then (false, d4)
              else
                let width := d4.mVideoCropRight - d4.mVideoCropLeft + 1
                let height := d4.mVideoCropBottom - d4.mVideoCropTop + 1
                let rotation := src.format.rotation.getD 0
                (true,
                 { d4 with mVideoWidth := width, mVideoHeight := height,
                           mVideoRotation := rotation,
                           mDecoderSource :=
                             some { src with format :=
                               { src.format with width := some width, height := some height } } })

/-- Method `setAudioDecoderFormat()`. -/
def setAudioDecoderFormat (d : Decoder) : Bool × Decoder :=
  match d.mDecoderSource with
  | none => (false, d)
  | some src =>
    match src.format.sampleRate with
    | none => (false, d)
    | some rate =>
      let d1 : Decoder := { d with mSampleRate := rate }
      match src.format.channelCount with
      | none => (false, d1)
      | some channels => (true, { d1 with mChannelCount := channels })

/-- Method `openVideoDecoder(omx, track)`; `c1` and `c2` are what the first and
the second call of `OMXCodec::Create` return (`none`: no decoder source). -/
def openVideoDecoder (d : Decoder) (c1 c2 : Option MediaSource) : Bool × Decoder :=
  let d1 : Decoder :=
    match d.mRenderer with
    | some r => if r.hasWindow then { d with mDecoderSource := c1 } else d
    | none => d
  match d1.mDecoderSource with
  | none => (false, d1)
  | some src =>
    match src.format.component with
    | some component =>
      if !strncmpEq component strOmx 4 || strncmpEq component strOmxGoogle 11
          || strncmpEq component strOmxNvidia 24 then
        (false, { d1 with mDecoderSource := c2 })
      else (true, d1)
    | none => (true, d1)

/-- Method `openAudioDecoder(omx, track)`. -/
def openAudioDecoder (d : Decoder) (c1 c2 : Option MediaSource) : Decoder :=
  let d1 : Decoder := { d with mDecoderSource := c1 }
  if d1.mDecoderSource = none then { d1 with mDecoderSource := c2 } else d1

/-- The push of a status-only `INFO_FORMAT_CHANGED` frame into the output pool
that ends a successful creation, with the destruction of the local frame. -/
def pushFormatChanged (c : Codes) (d : Decoder) (w : World) : Outcome (Decoder × World) :=
  match d.mOutQueue.push { Frame.new with mStatus := c.INFO_FORMAT_CHANGED } false with
  | .returned _ q1 frame => .done ({ d with mOutQueue := q1 }, (frame.clearBuffers none w).2.2)
  | .parked _ _ _ => .waiting
  | .blocked => .waiting

/-- Method `createVideoDecoder(iomx, config, size)`. The construction of the
track's `MetaData` does not enter the control flow and is left out. -/
def createVideoDecoder (c : Codes) (d : Decoder) (w : World) (c1 c2 : Option MediaSource) :
    Outcome (Bool × Decoder × World) :=
  let d1 : Decoder := { d with mTrack := true }
  let r := openVideoDecoder d1 c1 c2
  match r.2.mDecoderSource with
  | some src =>
    if src.startResult = OK then
      let f := setVideoDecoderFormat r.2
      if !f.1 then .done (false, f.2, w)
      else
        match pushFormatChanged c f.2 w with
        | .done (d2, w1) => .done (true, d2, w1)
        | .waiting => .waiting
        | .fault => .fault
    else .done (true, r.2, w)
  | none => .done (true, r.2, w)

/-- Method `createAudioDecoder(iomx, config, size)`. With a config size other
than 2 `MakeAACCodecSpecificData` returns NULL, which the constructor of
`MediaStreamSource` dereferences. -/
def createAudioDecoder (c : Codes) (d : Decoder) (w : World) (configSize : Nat)
    (c1 c2 : Option MediaSource) : Outcome (Bool × Decoder × World) :=
  if configSize ≠ 2 then .fault
  else
    let d1 : Decoder := openAudioDecoder { d with mTrack := true } c1 c2
    match d1.mDecoderSource with
    | some src =>
      if src.startResult = OK then
        let f := setAudioDecoderFormat d1
        if !f.1 then .done (false, f.2, w)
        else
          match pushFormatChanged c f.2 w with
          | .done (d2, w1) => .done (true, d2, w1)
          | .waiting => .waiting
          | .fault => .fault
      else .done (false, d1, w)
    | none => .done (false, d1, w)

/-- Method `createDecoder(iomx, config, size)`. -/
def createDecoder (c : Codes) (d : Decoder) (w : World) (configSize : Nat)
    (c1 c2 : Option MediaSource) : Outcome (Bool × Decoder × World) :=
  let d1 : Decoder := { d with mDelayedOpen := false }
  if d1.mIsVideoDecoder then createVideoDecoder c d1 w c1 c2
  else createAudioDecoder c d1 w configSize c1 c2

/-- Method `createDecoderByType(iomx, mimeType)`. -/
def createDecoderByType (c : Codes) (d : Decoder) (w : World) (mimeType : List Nat)
    (c1 c2 : Option MediaSource) : Outcome (Bool × Decoder × World) :=
  let d1 : Decoder := { d with mMimeType := mimeType }
  if strncasecmpEq mimeType strAudio 6 then
    .done (true,
           { d1 with mSampleRate := 0, mChannelCount := 0, mIsVideoDecoder := false,
                     mDelayedOpen := true }, w)
  else createDecoder c { d1 with mIsVideoDecoder := true } w 0 c1 c2

/-- The inherited `Thread::run`, as far as the decoder sees it: the call is
counted. -/
def run (d : Decoder) : Decoder := { d with runCalls := d.runCalls + 1 }

end Decoder

/-! ## StagefrightContext -/

/-- The decoder of `class StagefrightContext` (`none`: `mDecoder` is NULL). -/
structure StagefrightContext where
  mDecoder : Option Decoder
deriving DecidableEq, Repr

namespace StagefrightContext

/-- Constructor `StagefrightContext()`. -/
def new : StagefrightContext := { mDecoder := some Decoder.new }

/-- Method `createDecoderByType(mimeType)`; `runResult` is what `run` returns
if it is called. -/
def createDecoderByType (c : Codes) (ctx : StagefrightContext) (w : World)
    (mimeType : List Nat) (c1 c2 : Option MediaSource) (runResult : Int) :
    Outcome (Bool × StagefrightContext × World) :=
  match ctx.mDecoder with
  | none => .done (false, ctx, w)
  | some d =>
    match d.createDecoderByType c w mimeType c1 c2 with
    | .done (result, d1, w1) =>
      if result then
        if d1.mDelayedOpen then .done (true, { mDecoder := some d1 }, w1)
        else if OK = runResult then .done (true, { mDecoder := some d1.run }, w1)
        else .done (false, { mDecoder := some d1.run }, w1)
      else .done (false, { mDecoder := some d1 }, w1)
    | .waiting => .waiting
    | .fault => .fault

/-- Result of `StagefrightContext::queueInputBuffer`. -/
structure QueueOut where
  ret : Bool
  ctx : StagefrightContext
  w : World
deriving DecidableEq, Repr

/-- Method `queueInputBuffer(index, data, size, pts, flags)`. -/
def queueInputBuffer (c : Codes) (ctx : StagefrightContext) (w : World) (index : Int)
    (data : Ptr) (size : Nat) (pts : Int) (flags : Nat) (waits : List (List Decoder.WaitTick))
    (c1 c2 : Option MediaSource) : Outcome QueueOut :=
  match ctx.mDecoder with
  | none => .done { ret := false, ctx := ctx, w := w }
  | some d =>
    if size > 0 then
      if d.mDelayedOpen then
        if flags &&& c.OMX_BUFFERFLAG_CODECCONFIG ≠ 0 then
          match d.createDecoder c w size c1 c2 with
          | .done (result, d1, w1) =>
            .done { ret := true,
                    ctx := { mDecoder := some (if result then d1.run else d1) }, w := w1 }
          | .waiting => .waiting
          | .fault => .fault
        else .done { ret := false, ctx := ctx, w := w }
      else
        match d.queueInputBuffer c w index data size pts flags waits with
        | .done r => .done { ret := r.ret, ctx := { mDecoder := some r.d }, w := r.w }
        | .waiting => .waiting
        | .fault => .fault
    else .done { ret := false, ctx := ctx, w := w }

/-- Method `dequeueOutputBuffer(data, size, pts)`; without decoder only the
value returned is set. -/
def dequeueOutputBuffer (c : Codes) (ctx : StagefrightContext) (w : World) :
    Option (Int × StagefrightContext × World) :=
  match ctx.mDecoder with
  | none => some (INFO_TRY_AGAIN_LATER, ctx, w)
  | some d =>
    (d.dequeueOutputBuffer c w).map fun r => (r.ret, { mDecoder := some r.d }, r.w)

end StagefrightContext

/-- The bytes of the MIME type `video/avc`. -/
def mimeVideoAvc : List Nat := [118, 105, 100, 101, 111, 47, 97, 118, 99]

/-- The bytes of the MIME type `audio/mp4a-latm`. -/
def mimeAudioAac : List Nat := [97, 117, 100, 105, 111, 47, 109, 112, 52, 97, 45, 108, 97, 116, 109]

/-- A context as `configure` leaves it for video with a native window. -/
def windowContext : StagefrightContext :=
  { mDecoder := some { Decoder.new with
      mRenderer := some { hasWindow := true, swRendering := false },
      mVideoWidth := 640, mVideoHeight := 480 } }

/-- The context `StagefrightContext.new` after `createDecoderByType` with
`audio/mp4a-latm`: delayed-open mode. -/
def delayedContext : StagefrightContext :=
  { mDecoder := some { Decoder.new with
      mMimeType := mimeAudioAac, mIsVideoDecoder := false, mDelayedOpen := true } }

/-- A video format with width, height, component name and colour format, and
no crop rectangle. -/
def plainFormat : MetaFormat :=
  { width := some 640, height := some 480, component := some [79, 77, 88, 46, 113],
    colorFormat := some 19, cropRect := none, rotation := none, sampleRate := none,
    channelCount := none }

/-- A decoder source with `plainFormat` whose `start()` succeeds. -/
def plainSource : MediaSource := { format := plainFormat, startResult := OK }

/-- A decoder with decoder source whose input queue holds four frames. -/
def busyDecoder : Decoder :=
  { Decoder.new with mDecoderSource := some plainSource, mInQueue := List.replicate 4 Frame.new }

/-- The waits of one `queueInputBuffer` call on `busyDecoder`: the worker takes
one frame during the first wait, the last wait has no time left. -/
def busyWaits : List (List Decoder.WaitTick) :=
  [[{ ready := 0, period := 0, waitRes := OK, taken := 1 }],
   [{ ready := 0, period := 0, waitRes := OK, taken := 0 }]]

/-- The frame which that call appends: five bytes with pts 9 and the
end-of-frame flag. -/
def busyFrame : Frame :=
  { mStatus := -1013, mPts := 9, mSize := 5, mBuffer := 52, mFlags := 16, mMediaBuffer := 0 }

/-- What that call returns. -/
def busyResult : Decoder.QueueResult :=
  { ret := true,
    d := { busyDecoder with mInQueue := List.replicate 3 Frame.new ++ [busyFrame] },
    w := { heap := [(52, [1, 2, 3, 4, 5]), (50, [1, 2, 3, 4, 5])], brk := 52, freed := [51],
           released := [] },
    taken := [Frame.new], pushed := [busyFrame] }

/-! ## AAC codec specific data -/

/-- The table `kSamplingFreq`. -/
def kSamplingFreq : List Int :=
  [96000, 88200, 64000, 48000, 44100, 32000, 24000, 22050, 16000, 12000, 11025, 8000]

/-- The initial bytes of `kStaticESDS`. -/
def kStaticESDS : List Nat :=
  [0x03, 22, 0x00, 0x00, 0x00, 0x04, 17, 0x40, 0x00, 0x00, 0x00, 0x00, 0x00, 0x00, 0x00, 0x00,
   0x00, 0x00, 0x00, 0x00, 0x05, 2, 0, 0]

/-- What `MakeAACCodecSpecificData` stores in the `MetaData` it returns, apart
from the MIME type. -/
structure AacMeta where
  sampleRate : Int
  channelCount : Nat
  esds : List Nat
deriving DecidableEq, Repr

/-- Function `MakeAACCodecSpecificData(profile, sampling_freq_index,
channel_configuration)` on `unsigned` arguments; `fault` is the read past the
end of `kSamplingFreq`. -/
def MakeAACCodecSpecificDataFields (profile sampling_freq_index channel_configuration : Nat) :
    Outcome AacMeta :=
  match kSamplingFreq[sampling_freq_index]? with
  | none => .fault
  | some rate =>
    let size := kStaticESDS.length
    let b0 := ((((profile + 1) % 2 ^ 32) <<< 3) % 2 ^ 32 ||| sampling_freq_index >>> 1) % 256
    let b1 := ((((sampling_freq_index <<< 7) % 2 ^ 32) &&& 0x80)
                ||| (channel_configuration <<< 3) % 2 ^ 32) % 256
    .done { sampleRate := rate, channelCount := channel_configuration,
            esds := (kStaticESDS.set (size - 2) b0).set (size - 1) b1 }

/-- Function `MakeAACCodecSpecificData(config, config_size)`; `config` lists
the bytes readable at the pointer. The result `done none` is the NULL return;
`fault` is a read outside `config` or outside `kSamplingFreq`. -/
def MakeAACCodecSpecificData (config : List Nat) (config_size : Nat) : Outcome (Option AacMeta) :=
  if config_size ≠ 2 then .done none
  else
    match config[0]?, config[1]? with
    | some c0, some c1 =>
      let profile := toSizeT (((c0 >>> 3 : Nat) : Int) - 1)
      let sf_index := ((c0 &&& 7) <<< 1) ||| (c1 >>> 7)
      let channel := (c1 >>> 3) &&& 0x0f
      match MakeAACCodecSpecificDataFields profile sf_index channel with
      | .done m => .done (some m)
      | .waiting => .waiting
      | .fault => .fault
    | _, _ => .fault

/-- The frame built from the five bytes of `sourceWorld` with pts 0. -/
def builtFrame0 : Frame :=
  { mStatus := 0, mPts := 0, mSize := 5, mBuffer := 51, mFlags := 0, mMediaBuffer := 0 }

/-- A decoder whose decoder source is `plainSource`. -/
def plainDecoder : Decoder := { Decoder.new with mDecoderSource := some plainSource }

/-! ## Arrival numbers -/

namespace BufferQueue

/-- One state change of the pool by one of its methods. -/
def Step (q q1 : BufferQueue) : Prop :=
  (∃ (data d1 : Frame) (ret : Int), q.push data false = .returned ret q1 d1) ∨
  (∃ (data d1 : Frame) (index : Int), q.push data true = .parked index q1 d1) ∨
  (∃ (data d1 : Frame) (index : Int), q.pull data index = some (q1, d1)) ∨
  (∃ (w w1 : World) (index : Int), q.free w index = some (q1, w1)) ∨
  (∃ (w w1 : World) (index : Int), q.clearBuffer w index = some (q1, w1)) ∨
  (∃ (data : Frame) (wantBuffer wantSize : Bool), q1 = (q.holdNext data wantBuffer wantSize).q) ∨
  (∃ w : World, q1 = (q.clearAll w).1) ∨
  (∃ w : World, q1 = (q.releaseBuffers w).1) ∨
  (∃ (w w1 : World) (waitTime : Int) (periods : List Int) (count : Nat),
    q.waitRelease w waitTime periods = some (count, q1, w1))

/-- States the pool reaches before its arrival counter wraps around: the
constructed pool, closed under the steps that do not take the counter down. -/
inductive Unwrapped (capacity : Int) : BufferQueue → Prop where
  | init : Unwrapped capacity (BufferQueue.new capacity)
  | step {q q1 : BufferQueue} :
      Unwrapped capacity q → Step q q1 → q.mCount ≤ q1.mCount → Unwrapped capacity q1

/-- Every sequenced slot carries an arrival number below the counter, and no
two sequenced slots carry the same arrival number. -/
def Numbered (q : BufferQueue) : Prop :=
  (∀ e ∈ q.mElements, Sequenced e → e.mStatus < q.mCount) ∧
  (∀ (i j : Nat) (a b : DataElement), q.mElements[i]? = some a → q.mElements[j]? = some b →
    Sequenced a → Sequenced b → a.mStatus = b.mStatus → i = j)

/-- The value returned by the last of `n + 1` successive `holdNext` calls. -/
def holdNth : BufferQueue → Nat → Int
  | q, 0 => (q.holdNext Frame.new false false).ret
  | q, n + 1 => holdNth (q.holdNext Frame.new false false).q n

end BufferQueue

/-- A one-slot pool, all `FREE`, whose arrival counter has reached the value
of `HOLDED`. -/
def heldCountQueue : BufferQueue :=
  { mMediaQueue := [], mElements := List.replicate 1 DataElement.new, mCount := HOLDED }

/-- A one-slot pool, all `FREE`, whose arrival counter has passed `HOLDED`. -/
def pastCountQueue : BufferQueue :=
  { mMediaQueue := [], mElements := List.replicate 1 DataElement.new, mCount := HOLDED + 1 }

/-- A three-slot pool with the sequenced slots 5 (index 0) and 4 (index 2). -/
def twoReadyQueue : BufferQueue :=
  { mMediaQueue := [],
    mElements := [{ mData := bytesFrame 5, mStatus := 5 }, DataElement.new,
                  { mData := bytesFrame 4, mStatus := 4 }],
    mCount := 6 }

/-- The pool `twoReadyQueue` after `push(handleFrame)`. -/
def threeReadyQueue : BufferQueue :=
  { mMediaQueue := [],
    mElements := [{ mData := bytesFrame 5, mStatus := 5 }, { mData := handleFrame, mStatus := 6 },
                  { mData := bytesFrame 4, mStatus := 4 }],
    mCount := 7 }

/-- The pool `heldCountQueue` after `push(handleFrame)`. -/
def heldCountPushed : BufferQueue :=
  { mMediaQueue := [], mElements := [{ mData := handleFrame, mStatus := HOLDED }],
    mCount := HOLDED + 1 }

/-- The pool `pastCountQueue` after `push(handleFrame)`. -/
def pastCountPushed : BufferQueue :=
  { mMediaQueue := [], mElements := [{ mData := handleFrame, mStatus := HOLDED + 1 }],
    mCount := HOLDED + 2 }

/-! ## Decoder: the worker -/

/-- Function `releaseMediaBuffer(buffer)`: the pointer afterwards and the world. -/
def releaseMediaBuffer (buffer : Ptr) (w : World) : Ptr × World :=
  if buffer ≠ 0 then (0, w.release buffer) else (buffer, w)

namespace Decoder

/-- Where the worker thread stands between two steps of `decode()`. Every
step runs from one call in which the thread can wait to the next one. -/
inductive WorkerPc where
  /-- In `mDecoderSource->read`; `skipEnabled` is the local of that name. -/
  | reading (skipEnabled : Bool)
  /-- In `mOutQueue.push(frame, true)` of the graphic-buffer branch, the slot
  `index` filled, before the call returns; `frame` is the local frame after the
  swap and `filled` the local of that name. -/
  | parkedFrame (index : Int) (frame : Frame) (filled : Int)
  /-- In `mOutQueue.push(frame, true)` of the end-of-stream branch, the slot
  `index` filled, before the call returns. -/
  | parkedEos (index : Int) (frame : Frame)
  /-- After the return of `decode()`. -/
  | exited
deriving DecidableEq, Repr

/-- What one call of `mDecoderSource->read(&mediaBuffer, NULL)` gives, and what
the pass reads of the buffer returned. -/
structure ReadEvent where
  status : Int
  /-- Value of `mediaBuffer` after the call. -/
  mediaBuffer : Ptr
  /-- Whether `mediaBuffer->graphicBuffer().get()` is non-null. -/
  graphic : Bool
  /-- Value of `mediaBuffer->data() + mediaBuffer->range_offset()`. -/
  data : Ptr
  /-- Value of `mediaBuffer->range_length()`. -/
  rangeLength : Nat
  /-- What `findInt64(kKeyTime, &timeUs)` finds. -/
  timeUs : Option Int
  /-- Values of `getPeriodMs` in the `waitRelease` before the push. -/
  periods : List Int
deriving DecidableEq, Repr

/-- The end of `decode()` after the loop. -/
def decodeTail (d : Decoder) (w : World) (mediaBuffer : Ptr) : Decoder × World × WorkerPc :=
  let r := releaseMediaBuffer mediaBuffer w
  let c := d.mOutQueue.clearAll r.2
  ({ d with mOutQueue := c.1 }, c.2, .exited)

/-- The start of a pass of the loop, up to the call of `read`. -/
def decodeTop (d : Decoder) (w : World) (mediaBuffer : Ptr) (skipEnabled : Bool) :
    Decoder × World × WorkerPc :=
  let r := releaseMediaBuffer mediaBuffer w
  let b := d.mOutQueue.releaseBuffers r.2
  ({ d with mOutQueue := b.1 }, b.2, .reading skipEnabled)

/-- The test `while (!decodeDone && !mInterrupted)`, where every `continue`
and the end of the loop body lead, and what follows it. -/
def decodeCond (d : Decoder) (w : World) (mediaBuffer : Ptr) (skipEnabled decodeDone : Bool) :
    Decoder × World × WorkerPc :=
  if !decodeDone && !d.mInterrupted then decodeTop d w mediaBuffer skipEnabled
  else decodeTail d w mediaBuffer

/-- Method `decode()` from its entry to the first call of `read`. -/
def decodeStart (d : Decoder) (w : World) : Decoder × World × WorkerPc :=
  if d.mDecoderSource = none then (d, w, .exited) else decodeTop d w 0 false

/-- The graphic-buffer branch from the return of `push(frame, true)` on;
`periods` lists the values of `getPeriodMs` in its `waitRelease`. -/
def decodeHeld (d : Decoder) (w : World) (index : Int) (frame : Frame) (filled : Int)
    (periods : List Int) : Outcome (Decoder × World × WorkerPc) :=
  if wrap32 (filled + 1) ≥ (MAX_HOLDED_FRAMES : Int) ∧ ¬ d.mInterrupted then
    let waitTime : Int :=
      if d.mFlushNeeded then OUT_BUFFER_COUNT * s_frameDisplayTimeMsec
      else 2 * s_frameDisplayTimeMsec
    match d.mOutQueue.waitRelease w waitTime periods with
    | none => .waiting
    | some (count, q1, w1) =>
      if toInt32 count ≥ (MAX_HOLDED_FRAMES : Int) then
        match q1.clearBuffer w1 index with
        | none => .fault
        | some (q2, w2) =>
          .done (decodeCond { d with mOutQueue := q2 } (frame.clearBuffers none w2).2.2 0 false
            false)
      else
        .done (decodeCond { d with mOutQueue := q1 } (frame.clearBuffers none w1).2.2 0 true
          false)
  else .done (decodeCond d (frame.clearBuffers none w).2.2 0 true false)

/-- The end-of-stream branch from the return of `push(frame, true)` on. -/
def decodeEos (d : Decoder) (w : World) (frame : Frame) : Decoder × World × WorkerPc :=
  decodeCond d (frame.clearBuffers none w).2.2 0 false true

end Decoder

namespace Decoder

/-- The graphic-buffer branch of the `OK` case up to the wait inside
`push(frame, true)`. -/
def decodeGraphic (d : Decoder) (w : World) (ev : ReadEvent) (timeUs filled : Int) :
    Outcome (Decoder × World × WorkerPc) :=
  let pre : Option (Int × Ptr × Decoder × World) :=
    if filled ≥ (MAX_HOLDED_FRAMES : Int) ∧ ¬ d.mInterrupted then
      match d.mOutQueue.waitRelease w (2 * s_frameDisplayTimeMsec) ev.periods with
      | none => none
      | some (count, q1, w1) =>
        let r :=
          if toInt32 count ≥ (MAX_HOLDED_FRAMES : Int) then releaseMediaBuffer ev.mediaBuffer w1
          else (ev.mediaBuffer, w1)
        some (toInt32 count, r.1, { d with mOutQueue := q1 }, r.2)
    else some (filled, ev.mediaBuffer, d, w)
  match pre with
  | none => .waiting
  | some (filled1, mediaBuffer, d1, w1) =>
    match d1.mOutQueue.push (Frame.ofMedia ev.status mediaBuffer timeUs 0) true with
    | .parked index q2 frame =>
      .done ({ d1 with mOutQueue := q2 }, w1, .parkedFrame index frame filled1)
    | .returned index q2 frame =>
      .done ({ d1 with mOutQueue := q2 }, w1, .parkedFrame index frame filled1)
    | .blocked => .waiting

/-- The `OK` case of the loop body. -/
def decodeOk (d : Decoder) (w : World) (skipEnabled : Bool) (ev : ReadEvent) :
    Outcome (Decoder × World × WorkerPc) :=
  if ev.mediaBuffer = 0 then .done (decodeCond d w ev.mediaBuffer skipEnabled false)
  else if !ev.graphic && ev.rangeLength == 0 then
    let r := releaseMediaBuffer ev.mediaBuffer w
    .done (decodeCond d r.2 r.1 skipEnabled false)
  else if skipEnabled && d.mNeedSkip then
    let r := releaseMediaBuffer ev.mediaBuffer w
    .done (decodeCond d r.2 r.1 false false)
  else
    match ev.timeUs with
    | none => .done (decodeTail d w ev.mediaBuffer)
    | some timeUs =>
      let filled := toInt32 d.mOutQueue.filledCount
      if timeUs < 0 then .done (decodeCond d w ev.mediaBuffer skipEnabled false)
      else if !ev.graphic then
        match Frame.ofBytes w ev.status ev.data ev.rangeLength timeUs 0 with
        | none => .fault
        | some (frame, w1) =>
          match d.mOutQueue.push frame false with
          | .returned _ q1 frame1 =>
            let r := releaseMediaBuffer ev.mediaBuffer w1
            .done (decodeCond { d with mOutQueue := q1 } (frame1.clearBuffers none r.2).2.2 r.1
              skipEnabled false)
          | .parked _ _ _ => .waiting
          | .blocked => .waiting
      else decodeGraphic d w ev timeUs filled

/-- One pass of the loop of `decode()` from the return of `read` on, up to the
next call in which the thread can wait. The flags `mInterrupted`,
`mFlushNeeded` and `mNeedSkip` are read from the decoder as it is when `read`
returns. -/
def decodeRead (c : Codes) (d : Decoder) (w : World) (skipEnabled : Bool) (ev : ReadEvent) :
    Outcome (Decoder × World × WorkerPc) :=
  let b := d.mOutQueue.releaseBuffers w
  let d0 : Decoder := { d with mOutQueue := b.1 }
  let w0 := b.2
  if d0.mInterrupted then .done (decodeTail d0 w0 ev.mediaBuffer)
  else if ev.status = OK then decodeOk d0 w0 skipEnabled ev
  else if ev.status = c.INFO_FORMAT_CHANGED then
    let d1 : Decoder :=
      if d0.mIsVideoDecoder then d0.setVideoDecoderFormat.2 else d0.setAudioDecoderFormat.2
    match d1.mOutQueue.push { Frame.new with mStatus := ev.status } false with
    | .returned _ q1 frame =>
      .done (decodeCond { d1 with mOutQueue := q1 } (frame.clearBuffers none w0).2.2
        ev.mediaBuffer skipEnabled false)
    | .parked _ _ _ => .waiting
    | .blocked => .waiting
  else if ev.status = c.ERROR_END_OF_STREAM then
    let r := releaseMediaBuffer ev.mediaBuffer w0
    if d0.mFlushNeeded then
      match d0.mOutQueue.push { Frame.new with mStatus := ev.status } true with
      | .parked index q1 frame => .done ({ d0 with mOutQueue := q1 }, r.2, .parkedEos index frame)
      | .returned index q1 frame =>
        .done ({ d0 with mOutQueue := q1 }, r.2, .parkedEos index frame)
      | .blocked => .waiting
    else .done (decodeCond d0 r.2 r.1 skipEnabled true)
  else if ev.status = c.INFO_DISCONTINUITY then
    let r := releaseMediaBuffer ev.mediaBuffer w0
    .done (decodeCond d0 r.2 r.1 skipEnabled false)
  else
    let r := releaseMediaBuffer ev.mediaBuffer w0
    if d0.mInterrupted then .done (decodeTail d0 r.2 r.1)
    else
      let q1 := d0.mOutQueue.clearAll r.2
      .done (decodeCond { d0 with mOutQueue := q1.1 } q1.2 r.1 skipEnabled false)

/-- One step of the worker from where it stands: the return of `read` with
`ev`, or the return of the `push(frame, true)` it is in, with the values
`periods` of `getPeriodMs` in the `waitRelease` that follows. -/
def workerStep (c : Codes) (d : Decoder) (w : World) (pc : WorkerPc) (ev : ReadEvent)
    (periods : List Int) : Outcome (Decoder × World × WorkerPc) :=
  match pc with
  | .reading skipEnabled => decodeRead c d w skipEnabled ev
  | .parkedFrame index frame filled => decodeHeld d w index frame filled periods
  | .parkedEos _ frame => .done (decodeEos d w frame)
  | .exited => .done (d, w, .exited)

end Decoder

/-- Number of slots in the state `HOLDED`. -/
def BufferQueue.heldCount (q : BufferQueue) : Nat :=
  (q.mElements.filter (fun e => e.mStatus == HOLDED)).length

/-- A new decoder after the push of the format-changed frame that ends a
successful creation: no renderer, the frame sequenced in slot 0. -/
def formatDecoder : Decoder :=
  { Decoder.new with
    mOutQueue :=
      { mMediaQueue := [],
        mElements :=
          { mData := { Frame.new with mStatus := androidCodes.INFO_FORMAT_CHANGED }, mStatus := 0 } ::
            List.replicate 9 DataElement.new,
        mCount := 1 } }

/-- The decoder `formatDecoder` with a renderer attached. -/
def formatWindowDecoder : Decoder :=
  { formatDecoder with mRenderer := some { hasWindow := true, swRendering := false } }

/-- A decoder with renderer whose output pool holds an end-of-stream frame,
sequenced in slot 0. -/
def eosWindowDecoder : Decoder :=
  { Decoder.new with
    mRenderer := some { hasWindow := true, swRendering := false },
    mOutQueue :=
      { mMediaQueue := [],
        mElements :=
          { mData := { Frame.new with mStatus := androidCodes.ERROR_END_OF_STREAM }, mStatus := 0 } ::
            List.replicate 9 DataElement.new,
        mCount := 1 } }

/-- A read that ends with an error status that has no case of its own in
`decode()`. -/
def errorEvent : Decoder.ReadEvent :=
  { status := -110, mediaBuffer := 0, graphic := false, data := 0, rangeLength := 0,
    timeUs := none, periods := [] }

/-- A read that returns `ERROR_END_OF_STREAM` without a buffer. -/
def eosEvent : Decoder.ReadEvent :=
  { status := androidCodes.ERROR_END_OF_STREAM, mediaBuffer := 0, graphic := false, data := 0,
    rangeLength := 0, timeUs := none, periods := [] }

/-- A decoder with a flush pending and an empty output pool. -/
def flushDecoder : Decoder := { plainDecoder with mFlushNeeded := true }

/-- A decoder with a flush pending whose output pool is `twoReadyQueue`. -/
def flushBusyDecoder : Decoder :=
  { plainDecoder with mFlushNeeded := true, mOutQueue := twoReadyQueue }

/-- A decoder as `release()` leaves it before `join()`: interrupted, no flush
pending, the sentinel in the input queue. -/
def teardownDecoder : Decoder :=
  { plainDecoder with
    mInterrupted := true,
    mInQueue := [{ Frame.new with mStatus := androidCodes.ERROR_END_OF_STREAM }] }

/-- A frame that holds the external handle `h` with pts `h`. -/
def graphicFrame (h : Nat) : Frame := Frame.ofMedia OK h h 0

/-- A four-slot pool with the graphic frames 11 and 12 sequenced in the slots
0 and 1. -/
def twoGraphicPool : BufferQueue :=
  { mMediaQueue := [],
    mElements := [{ mData := graphicFrame 11, mStatus := 0 },
                  { mData := graphicFrame 12, mStatus := 1 }, DataElement.new, DataElement.new],
    mCount := 2 }

/-- A four-slot pool with the graphic frames 11, 12 and 13 sequenced in the
slots 0, 1 and 2. -/
def threeGraphicPool : BufferQueue :=
  { mMediaQueue := [],
    mElements := [{ mData := graphicFrame 11, mStatus := 0 },
                  { mData := graphicFrame 12, mStatus := 1 },
                  { mData := graphicFrame 13, mStatus := 2 }, DataElement.new],
    mCount := 3 }

/-- A decoder with renderer whose output pool is `twoGraphicPool`. -/
def twoGraphicDecoder : Decoder :=
  { plainDecoder with
    mRenderer := some { hasWindow := true, swRendering := false }, mOutQueue := twoGraphicPool }

/-- A decoder with renderer whose output pool is `threeGraphicPool`. -/
def threeGraphicDecoder : Decoder :=
  { plainDecoder with
    mRenderer := some { hasWindow := true, swRendering := false }, mOutQueue := threeGraphicPool }

/-- A read that returns the graphic buffer 14 with time 14; the `waitRelease`
before the push finds its budget used up. -/
def graphicEvent : Decoder.ReadEvent :=
  { status := OK, mediaBuffer := 14, graphic := true, data := 0, rangeLength := 0,
    timeUs := some 14, periods := [100] }

/-- The pool `twoGraphicPool` after the worker has published the buffer 14, the
consumer has taken slot 0 and the worker has found the pool still saturated:
the payload of slot 2 is gone, the older frames are in place. -/
def twoGraphicAfter : BufferQueue :=
  { mMediaQueue := [],
    mElements := [{ mData := graphicFrame 11, mStatus := HOLDED },
                  { mData := graphicFrame 12, mStatus := 1 },
                  { mData := { graphicFrame 14 with mMediaBuffer := 0 }, mStatus := 2 },
                  DataElement.new],
    mCount := 3 }

/-- The pool `threeGraphicPool` after the same steps: the frame in slot 3 was
published without its buffer. -/
def threeGraphicAfter : BufferQueue :=
  { mMediaQueue := [],
    mElements := [{ mData := graphicFrame 11, mStatus := HOLDED },
                  { mData := graphicFrame 12, mStatus := 1 },
                  { mData := graphicFrame 13, mStatus := 2 },
                  { mData := { graphicFrame 14 with mMediaBuffer := 0 }, mStatus := 3 }],
    mCount := 4 }

/-- The decoder `twoGraphicDecoder` after the worker has published the buffer
14 in slot 2 and the consumer has taken slot 0. -/
def twoGraphicHeld : Decoder :=
  { twoGraphicDecoder with
    mOutQueue :=
      { mMediaQueue := [],
        mElements := [{ mData := graphicFrame 11, mStatus := HOLDED },
                      { mData := graphicFrame 12, mStatus := 1 },
                      { mData := graphicFrame 14, mStatus := 2 }, DataElement.new],
        mCount := 3 } }

/-- A decoder without renderer whose output pool is `twoReadyQueue`. -/
def twoReadyDecoder : Decoder := { Decoder.new with mOutQueue := twoReadyQueue }

/-! # Properties -/

/-! ## Frame -/

theorem Frame.swap_eq (a b : Frame) : a.swap b = (b, a) := rfl

/-- C8: when `a` holds the external handle `h` and no owned bytes and `b` is
empty, `b.swap(a)` leaves `a` empty and gives `b` the handle together with the
former status, pts, size and flags of `a`; the handle is then in `b` only. -/
theorem swap_moves_handle (a b : Frame) (h : Ptr) (hh : h ≠ 0)
    (ha : a.mMediaBuffer = h) (hab : a.mBuffer = 0) (hb : b.empty = true) :
    (b.swap a).2.empty = true ∧ (b.swap a).1.mMediaBuffer = h ∧
    (b.swap a).1.mStatus = a.mStatus ∧ (b.swap a).1.mPts = a.mPts ∧
    (b.swap a).1.mSize = a.mSize ∧ (b.swap a).1.mFlags = a.mFlags ∧
    (b.swap a).1.mBuffer = 0 ∧ (b.swap a).2.mMediaBuffer ≠ h := by
  simp only [Frame.empty, Bool.and_eq_true, beq_iff_eq] at hb
  obtain ⟨hb1, hb2⟩ := hb
  refine ⟨?_, ha, rfl, rfl, rfl, rfl, hab, ?_⟩
  · simp only [Frame.swap_eq, Frame.empty, Bool.and_eq_true, beq_iff_eq]
    exact ⟨hb1, hb2⟩
  · simp only [Frame.swap_eq]
    rw [hb2]; exact fun h0 => hh h0.symm

theorem swap_moves_handle_witness :
    (Frame.new.swap handleFrame).2.empty = true ∧ (Frame.new.swap handleFrame).1.mMediaBuffer = 7 ∧
    (Frame.new.swap handleFrame).1.mStatus = handleFrame.mStatus ∧
    (Frame.new.swap handleFrame).1.mPts = handleFrame.mPts ∧
    (Frame.new.swap handleFrame).1.mSize = handleFrame.mSize ∧
    (Frame.new.swap handleFrame).1.mFlags = handleFrame.mFlags ∧
    (Frame.new.swap handleFrame).1.mBuffer = 0 ∧ (Frame.new.swap handleFrame).2.mMediaBuffer ≠ 7 :=
  swap_moves_handle handleFrame Frame.new 7 (by decide) rfl rfl rfl

/-- C10: `clearBuffers` leaves the frame empty and keeps status, pts and flags.
With a deferred list the handle, if any, is appended once to it and no
`release()` happens; without a list `release()` is called once on the handle.
An owned buffer is passed to `delete[]` once and `mSize` becomes 0. A second
`clearBuffers`, with any list, changes nothing more. -/
theorem clearBuffers_spec (f : Frame) (mq : List Ptr) (w : World) :
    ((f.clearBuffers (some mq) w).1.empty = true ∧
      (f.clearBuffers (some mq) w).1.mStatus = f.mStatus ∧
      (f.clearBuffers (some mq) w).1.mPts = f.mPts ∧
      (f.clearBuffers (some mq) w).1.mFlags = f.mFlags ∧
      (f.clearBuffers (some mq) w).2.1
        = some (mq ++ if f.mMediaBuffer ≠ 0 then [f.mMediaBuffer] else []) ∧
      (f.clearBuffers (some mq) w).2.2.released = w.released) ∧
    ((f.clearBuffers none w).1.empty = true ∧
      (f.clearBuffers none w).1.mStatus = f.mStatus ∧
      (f.clearBuffers none w).1.mPts = f.mPts ∧
      (f.clearBuffers none w).1.mFlags = f.mFlags ∧
      (f.clearBuffers none w).2.1 = none ∧
      (f.clearBuffers none w).2.2.released
        = w.released ++ if f.mMediaBuffer ≠ 0 then [f.mMediaBuffer] else []) ∧
    (∀ l : Option (List Ptr),
      (f.clearBuffers l w).2.2.freed = w.freed ++ (if f.mBuffer ≠ 0 then [f.mBuffer] else []) ∧
      (f.clearBuffers l w).1.mSize = (if f.mBuffer ≠ 0 then 0 else f.mSize) ∧
      (f.clearBuffers l w).2.2.heap
        = (if f.mBuffer ≠ 0 then w.heap.filter (fun c => c.1 != f.mBuffer) else w.heap)) ∧
    (∀ l l2 : Option (List Ptr),
      (f.clearBuffers l w).1.clearBuffers l2 (f.clearBuffers l w).2.2
        = ((f.clearBuffers l w).1, l2, (f.clearBuffers l w).2.2)) := by
  refine ⟨?_, ?_, ?_, ?_⟩
  · by_cases h1 : f.mBuffer = 0 <;> by_cases h2 : f.mMediaBuffer = 0 <;>
      simp [Frame.clearBuffers, Frame.empty, World.deleteArr, h1, h2]
  · by_cases h1 : f.mBuffer = 0 <;> by_cases h2 : f.mMediaBuffer = 0 <;>
      simp [Frame.clearBuffers, Frame.empty, World.deleteArr, World.release, h1, h2]
  · intro l
    by_cases h1 : f.mBuffer = 0 <;> by_cases h2 : f.mMediaBuffer = 0 <;> cases l <;>
      simp [Frame.clearBuffers, World.deleteArr, World.release, h1, h2]
  · intro l l2
    by_cases h1 : f.mBuffer = 0 <;> by_cases h2 : f.mMediaBuffer = 0 <;> cases l <;>
      simp [Frame.clearBuffers, World.deleteArr, World.release, h1, h2]

theorem index_guard {α : Type} (l : List α) (i : Nat) (h : i < l.length) :
    ¬ (((i : Nat) : Int) < 0 ∨ ((i : Nat) : Int) > (l.length : Int)) := by
  omega

theorem slot_lt {α : Type} {l : List α} {i : Nat} {e : α} (h : l[i]? = some e) :
    i < l.length := by
  rcases Nat.lt_or_ge i l.length with h1 | h1
  · exact h1
  · rw [List.getElem?_eq_none h1] at h; cases h

theorem clearBuffers_deferred (f : Frame) (mq : List Ptr) (w : World) :
    (f.clearBuffers (some mq) w).1.empty = true ∧
    (f.clearBuffers (some mq) w).1.mStatus = f.mStatus ∧
    (f.clearBuffers (some mq) w).1.mPts = f.mPts ∧
    (f.clearBuffers (some mq) w).1.mFlags = f.mFlags ∧
    (f.clearBuffers (some mq) w).2.1
      = some (mq ++ if f.mMediaBuffer ≠ 0 then [f.mMediaBuffer] else []) ∧
    (f.clearBuffers (some mq) w).2.2.released = w.released := by
  by_cases h1 : f.mBuffer = 0 <;> by_cases h2 : f.mMediaBuffer = 0 <;>
    simp [Frame.clearBuffers, Frame.empty, World.deleteArr, h1, h2]

/-- C4: `free(i)` on a held slot makes the slot `FREE` with an empty frame,
appends the slot's external handle (if it has one) once to the deferred list
without releasing it, and leaves every other slot and the counter as they were. -/
theorem free_held (q : BufferQueue) (w : World) (i : Nat) (e : DataElement)
    (hi : q.mElements[i]? = some e) (hs : e.mStatus = HOLDED) :
    ∃ q1 w1 f1, q.free w i = some (q1, w1) ∧
      q1.mElements = q.mElements.set i { mData := f1, mStatus := FREE } ∧
      q1.mElements[i]? = some { mData := f1, mStatus := FREE } ∧ f1.empty = true ∧
      (∀ j, j ≠ i → q1.mElements[j]? = q.mElements[j]?) ∧
      q1.mMediaQueue
        = q.mMediaQueue ++ (if e.mData.mMediaBuffer ≠ 0 then [e.mData.mMediaBuffer] else []) ∧
      w1.released = w.released ∧ q1.mCount = q.mCount := by
  have hlt := slot_lt hi
  have hc := clearBuffers_deferred e.mData q.mMediaQueue w
  refine ⟨{ q with
      mElements := q.mElements.set i
        { mData := (e.mData.clearBuffers (some q.mMediaQueue) w).1, mStatus := FREE },
      mMediaQueue := ((e.mData.clearBuffers (some q.mMediaQueue) w).2.1).getD q.mMediaQueue },
    (e.mData.clearBuffers (some q.mMediaQueue) w).2.2,
    (e.mData.clearBuffers (some q.mMediaQueue) w).1, ?_, rfl, ?_, hc.1, ?_, ?_,
    hc.2.2.2.2.2, rfl⟩
  · simp only [BufferQueue.free, index_guard _ _ hlt, if_false, Int.toNat_ofNat, hi, hs, ne_eq,
      not_true_eq_false]
  · simp [hlt]
  · intro j hj
    simp [List.getElem?_set_ne (Ne.symm hj)]
  · simp only [hc.2.2.2.2.1, Option.getD_some]

theorem free_held_witness :
    (heldQueue.mElements[0]? = some { mData := handleFrame, mStatus := HOLDED } ∧
      ({ mData := handleFrame, mStatus := HOLDED } : DataElement).mStatus = HOLDED) ∧
    ∃ q1 w1 f1, heldQueue.free World.empty ((0 : Nat) : Int) = some (q1, w1) ∧
      q1.mElements = heldQueue.mElements.set 0 { mData := f1, mStatus := FREE } ∧
      q1.mElements[0]? = some { mData := f1, mStatus := FREE } ∧ f1.empty = true ∧
      (∀ j, j ≠ 0 → q1.mElements[j]? = heldQueue.mElements[j]?) ∧
      q1.mMediaQueue
        = heldQueue.mMediaQueue ++
          (if handleFrame.mMediaBuffer ≠ 0 then [handleFrame.mMediaBuffer] else []) ∧
      w1.released = World.empty.released ∧ q1.mCount = heldQueue.mCount :=
  ⟨⟨rfl, rfl⟩,
    free_held heldQueue World.empty 0 { mData := handleFrame, mStatus := HOLDED } rfl rfl⟩

/-- C5: `pull(out, i)` on a held slot with an empty caller frame gives `out`
the slot's whole frame (status, pts, flags, size and payload), leaves slot `i`
`FREE` with the empty frame the caller passed in, and changes neither the
deferred list, nor the counter, nor any other slot. -/
theorem pull_held (q : BufferQueue) (out : Frame) (i : Nat) (e : DataElement)
    (hi : q.mElements[i]? = some e) (hs : e.mStatus = HOLDED) (ho : out.empty = true) :
    ∃ q1 out1, q.pull out i = some (q1, out1) ∧
      out1 = e.mData ∧
      q1.mElements = q.mElements.set i { mData := out, mStatus := FREE } ∧
      q1.mElements[i]? = some { mData := out, mStatus := FREE } ∧ out.empty = true ∧
      (∀ j, j ≠ i → q1.mElements[j]? = q.mElements[j]?) ∧
      q1.mMediaQueue = q.mMediaQueue ∧ q1.mCount = q.mCount := by
  have hlt := slot_lt hi
  refine ⟨{ q with mElements := q.mElements.set i { mData := out, mStatus := FREE } }, e.mData,
    ?_, rfl, rfl, ?_, ho, ?_, rfl, rfl⟩
  · simp only [BufferQueue.pull, index_guard _ _ hlt, if_false, Int.toNat_ofNat, hi, hs, ne_eq,
      not_true_eq_false, Frame.swap_eq]
  · simp [hlt]
  · intro j hj
    simp [List.getElem?_set_ne (Ne.symm hj)]

theorem pull_held_witness :
    (heldQueue.mElements[0]? = some { mData := handleFrame, mStatus := HOLDED } ∧
      ({ mData := handleFrame, mStatus := HOLDED } : DataElement).mStatus = HOLDED ∧
      Frame.new.empty = true) ∧
    ∃ q1 out1, heldQueue.pull Frame.new ((0 : Nat) : Int) = some (q1, out1) ∧
      out1 = handleFrame ∧
      q1.mElements = heldQueue.mElements.set 0 { mData := Frame.new, mStatus := FREE } ∧
      q1.mElements[0]? = some { mData := Frame.new, mStatus := FREE } ∧ Frame.new.empty = true ∧
      (∀ j, j ≠ 0 → q1.mElements[j]? = heldQueue.mElements[j]?) ∧
      q1.mMediaQueue = heldQueue.mMediaQueue ∧ q1.mCount = heldQueue.mCount :=
  ⟨⟨rfl, rfl, rfl⟩,
    pull_held heldQueue Frame.new 0 { mData := handleFrame, mStatus := HOLDED } rfl rfl rfl⟩

/-- C6: on a slot inside the pool that is not held (`FREE` or sequenced),
`free` and `pull` return with the queue (slots, counter, deferred list), the
world and the caller's frame exactly as before. -/
theorem free_pull_not_held (q : BufferQueue) (w : World) (data : Frame) (i : Nat)
    (e : DataElement) (hi : q.mElements[i]? = some e) (hs : e.mStatus ≠ HOLDED) :
    q.free w i = some (q, w) ∧ q.pull data i = some (q, data) := by
  have hlt := slot_lt hi
  constructor
  · simp only [BufferQueue.free, index_guard _ _ hlt, if_false, Int.toNat_ofNat, hi, hs, ne_eq,
      not_false_eq_true, if_true]
  · simp only [BufferQueue.pull, index_guard _ _ hlt, if_false, Int.toNat_ofNat, hi, hs, ne_eq,
      not_false_eq_true, if_true]

theorem free_pull_not_held_witness :
    (readyQueue.mElements[0]? = some { mData := handleFrame, mStatus := 0 } ∧
      ({ mData := handleFrame, mStatus := 0 } : DataElement).mStatus ≠ HOLDED) ∧
    readyQueue.free World.empty ((0 : Nat) : Int) = some (readyQueue, World.empty) ∧
    readyQueue.pull Frame.new ((0 : Nat) : Int) = some (readyQueue, Frame.new) :=
  ⟨⟨rfl, by decide⟩,
    free_pull_not_held readyQueue World.empty Frame.new 0 { mData := handleFrame, mStatus := 0 }
      rfl (by decide)⟩

/-! ## BufferQueue: the loops of `holdNext`, `push` and `clearAll` -/

open BufferQueue

theorem holdScan_spec (l : List DataElement) :
    ∀ (i min : Nat) (next : Option Nat),
      ((holdScan l i min next).2 = next ∧ (holdScan l i min next).1 = min ∧
        ∀ e ∈ l, min ≤ e.mStatus) ∨
      ∃ j e, (holdScan l i min next).2 = some (i + j) ∧ l[j]? = some e ∧
        (holdScan l i min next).1 = e.mStatus ∧ e.mStatus < min ∧
        (∀ (t : Nat) (e1 : DataElement), l[t]? = some e1 → e.mStatus ≤ e1.mStatus) ∧
        (∀ (t : Nat) (e1 : DataElement), t < j → l[t]? = some e1 → e.mStatus < e1.mStatus) := by
  induction l with
  | nil =>
    intro i min next
    left
    simp [holdScan]
  | cons a as ih =>
    intro i min next
    by_cases ha : a.mStatus < min
    · simp only [holdScan, ha, if_true]
      rcases ih (i + 1) a.mStatus (some i) with ⟨h1, h2, h3⟩ | ⟨j, e, h1, h2, h3, h4, h5, h6⟩
      · right
        refine ⟨0, a, by simpa using h1, by simp, h2, ha, ?_, ?_⟩
        · intro t e1 ht
          cases t with
          | zero => simp at ht; subst ht; exact Nat.le_refl _
          | succ t =>
            simp at ht
            exact h3 e1 (List.getElem?_mem ht)
        · intro t e1 ht; omega
      · right
        refine ⟨j + 1, e, by rw [h1]; congr 1; omega, by simpa using h2, h3, by omega, ?_, ?_⟩
        · intro t e1 ht
          cases t with
          | zero => simp at ht; subst ht; omega
          | succ t => simp at ht; exact h5 t e1 ht
        · intro t e1 htj ht
          cases t with
          | zero => simp at ht; subst ht; omega
          | succ t => simp at ht; exact h6 t e1 (by omega) ht
    · simp only [holdScan, ha, if_false]
      rcases ih (i + 1) min next with ⟨h1, h2, h3⟩ | ⟨j, e, h1, h2, h3, h4, h5, h6⟩
      · left
        refine ⟨h1, h2, ?_⟩
        intro e he
        rcases List.mem_cons.1 he with rfl | he
        · omega
        · exact h3 e he
      · right
        refine ⟨j + 1, e, by rw [h1]; congr 1; omega, by simpa using h2, h3, h4, ?_, ?_⟩
        · intro t e1 ht
          cases t with
          | zero => simp at ht; subst ht; omega
          | succ t => simp at ht; exact h5 t e1 ht
        · intro t e1 htj ht
          cases t with
          | zero => simp at ht; subst ht; omega
          | succ t => simp at ht; exact h6 t e1 (by omega) ht

theorem holdNext_eq (q : BufferQueue) (out : Frame) (wb ws : Bool)
    (h : ∃ e ∈ q.mElements, e.mStatus < FREE) :
    ∃ j e, q.mElements[j]? = some e ∧ e.mStatus < FREE ∧
      (∀ (t : Nat) (e1 : DataElement), q.mElements[t]? = some e1 → e.mStatus ≤ e1.mStatus) ∧
      (∀ (t : Nat) (e1 : DataElement), t < j → q.mElements[t]? = some e1 →
        e.mStatus < e1.mStatus) ∧
      q.holdNext out wb ws =
        { ret := (j : Int),
          q := { q with mElements := q.mElements.set j { e with mStatus := HOLDED } },
          data := { out with mStatus := e.mData.mStatus, mPts := e.mData.mPts },
          buffer :=
            if wb then
              some (if e.mData.mMediaBuffer ≠ 0 then e.mData.mMediaBuffer else e.mData.mBuffer)
            else none,
          size := if ws then some (toSizeT e.mData.mSize) else none } := by
  rcases holdScan_spec q.mElements 0 FREE none with ⟨_, _, h3⟩ | ⟨j, e, h1, h2, _, h4, h5, h6⟩
  · obtain ⟨e, he, hlt⟩ := h
    have := h3 e he
    omega
  · refine ⟨j, e, h2, h4, h5, h6, ?_⟩
    rw [Nat.zero_add] at h1
    simp only [holdNext, h1, h2]

theorem isFull_eq_false (l : List DataElement) (h : ∃ e ∈ l, e.mStatus = FREE) :
    isFull l = false := by
  induction l with
  | nil => obtain ⟨e, he, _⟩ := h; cases he
  | cons a as ih =>
    by_cases ha : a.mStatus = FREE
    · simp [isFull, ha]
    · simp only [isFull, ha, if_false]
      apply ih
      obtain ⟨e, he, hf⟩ := h
      rcases List.mem_cons.1 he with rfl | he
      · exact absurd hf ha
      · exact ⟨e, he, hf⟩

theorem pushLoop_spec (data : Frame) (n : Nat) (l : List DataElement) :
    ∀ i : Nat, (∃ e ∈ l, e.mStatus = FREE) →
      ∃ j e, l[j]? = some e ∧ e.mStatus = FREE ∧
        (∀ (t : Nat) (e1 : DataElement), t < j → l[t]? = some e1 → e1.mStatus ≠ FREE) ∧
        pushLoop data n l i = some (i + j, l.set j { mData := data, mStatus := n }, e.mData) := by
  induction l with
  | nil => intro i h; obtain ⟨e, he, _⟩ := h; cases he
  | cons a as ih =>
    intro i h
    by_cases ha : a.mStatus = FREE
    · refine ⟨0, a, by simp, ha, ?_, ?_⟩
      · intro t e1 ht; omega
      · simp [pushLoop, ha, Frame.swap_eq]
    · have h2 : ∃ e ∈ as, e.mStatus = FREE := by
        obtain ⟨e, he, hf⟩ := h
        rcases List.mem_cons.1 he with rfl | he
        · exact absurd hf ha
        · exact ⟨e, he, hf⟩
      obtain ⟨j, e, h3, h4, h5, h6⟩ := ih (i + 1) h2
      refine ⟨j + 1, e, by simpa using h3, h4, ?_, ?_⟩
      · intro t e1 htj ht
        cases t with
        | zero => simp at ht; subst ht; exact ha
        | succ t => simp at ht; exact h5 t e1 (by omega) ht
      · simp only [pushLoop, ha, if_false, h6, Option.map_some', List.set_cons_succ]
        congr 2
        omega

theorem push_eq (q : BufferQueue) (f : Frame) (h : ∃ e ∈ q.mElements, e.mStatus = FREE) :
    ∃ j e, q.mElements[j]? = some e ∧ e.mStatus = FREE ∧
      (∀ (t : Nat) (e1 : DataElement), t < j → q.mElements[t]? = some e1 → e1.mStatus ≠ FREE) ∧
      q.push f false =
        .returned (j : Int)
          { q with mElements := q.mElements.set j { mData := f, mStatus := q.mCount },
                   mCount := (q.mCount + 1) % 2 ^ 32 }
          e.mData := by
  obtain ⟨j, e, h1, h2, h3, h4⟩ := pushLoop_spec f q.mCount q.mElements 0 h
  refine ⟨j, e, h1, h2, h3, ?_⟩
  rw [Nat.zero_add] at h4
  simp only [push, isFull_eq_false _ h, h4]
  simp

theorem clearBuffers_new (mq : Option (List Ptr)) (w : World) :
    Frame.new.clearBuffers mq w = (Frame.new, mq, w) := by
  simp [Frame.clearBuffers, Frame.new]

theorem clearAllLoop_new (k : Nat) (mq : List Ptr) (w : World) :
    clearAllLoop (List.replicate k DataElement.new) mq w
      = (List.replicate k DataElement.new, mq, w) := by
  induction k with
  | zero => rfl
  | succ k ih =>
    simp only [List.replicate_succ, clearAllLoop, DataElement.new, clearBuffers_new,
      Option.getD_some] at ih ⊢
    rw [ih]
    simp [FREE, HOLDED]

theorem reachable_count (k n : Nat) :
    Reachable ((k + 1 : Nat) : Int)
      { mMediaQueue := [], mElements := List.replicate (k + 1) DataElement.new,
        mCount := n % 2 ^ 32 } := by
  induction n with
  | zero =>
    have h := @Reachable.init ((k + 1 : Nat) : Int)
    simpa [BufferQueue.new] using h
  | succ n ih =>
    have hpush : BufferQueue.push
        { mMediaQueue := [], mElements := List.replicate (k + 1) DataElement.new,
          mCount := n % 2 ^ 32 } Frame.new false
        = .returned 0
          { mMediaQueue := [],
            mElements := { mData := Frame.new, mStatus := n % 2 ^ 32 }
              :: List.replicate k DataElement.new,
            mCount := (n + 1) % 2 ^ 32 } Frame.new := by
      simp [push, isFull, pushLoop, List.replicate_succ, DataElement.new, Frame.swap_eq]
    have h1 := Reachable.push ih hpush
    have h2 := Reachable.clearAll (w := World.empty) h1
    simp only [clearAll, clearAllLoop, clearBuffers_new, Option.getD_some, clearAllLoop_new,
      releaseMediaBufferQueue] at h2
    by_cases hc : n % 2 ^ 32 = HOLDED
    · have hfree : BufferQueue.free
          { mMediaQueue := [],
            mElements := { mData := Frame.new, mStatus := n % 2 ^ 32 }
              :: List.replicate k DataElement.new,
            mCount := (n + 1) % 2 ^ 32 } World.empty 0
          = some ({ mMediaQueue := [], mElements := List.replicate (k + 1) DataElement.new,
                    mCount := (n + 1) % 2 ^ 32 }, World.empty) := by
        have hk : ¬ ((k : Int) + 1 < 0) := by omega
        have hc2 : n % 4294967296 = HOLDED := by simpa using hc
        simp [free, hc2, hk, clearBuffers_new, List.replicate_succ, DataElement.new]
      simp only [hc, ne_eq, not_true_eq_false, if_false] at h2
      rw [← hc] at h2
      exact Reachable.free h2 hfree
    · simp only [hc, ne_eq, not_false_eq_true, if_true] at h2
      exact h2

/-! ## BufferQueue: `holdNext` and `push` -/

/-- C3, for an arrival counter `n` below the reserved values: `push(f, false)`
returns the index of the lowest-indexed `FREE` slot, that slot becomes
sequenced with arrival number `n` and holds `f` (status, pts, flags, size and
payload), the caller's frame receives the slot's previous frame, the counter
becomes `n + 1`, and every other slot and the deferred list are unchanged. -/
theorem push_free_slot (q : BufferQueue) (f : Frame)
    (hfree : ∃ e ∈ q.mElements, e.mStatus = FREE) (hn : q.mCount < FREE) :
    ∃ j e q1, q.mElements[j]? = some e ∧ e.mStatus = FREE ∧
      (∀ (t : Nat) (e1 : DataElement), t < j → q.mElements[t]? = some e1 →
        e1.mStatus ≠ FREE) ∧
      q.push f false = .returned (j : Int) q1 e.mData ∧
      q1.mElements = q.mElements.set j { mData := f, mStatus := q.mCount } ∧
      q1.mElements[j]? = some { mData := f, mStatus := q.mCount } ∧
      Sequenced { mData := f, mStatus := q.mCount } ∧
      (∀ t, t ≠ j → q1.mElements[t]? = q.mElements[t]?) ∧
      q1.mCount = q.mCount + 1 ∧ q1.mMediaQueue = q.mMediaQueue := by
  obtain ⟨j, e, h1, h2, h3, h4⟩ := push_eq q f hfree
  have hlt := slot_lt h1
  have hmod : (q.mCount + 1) % 2 ^ 32 = q.mCount + 1 := by
    apply Nat.mod_eq_of_lt
    simp only [FREE] at hn
    omega
  refine ⟨j, e, _, h1, h2, h3, h4, rfl, ?_, hn, ?_, hmod, rfl⟩
  · simp [hlt]
  · intro t ht
    simp [List.getElem?_set_ne (Ne.symm ht)]

theorem push_free_slot_witness :
    ((∃ e ∈ (BufferQueue.new 2).mElements, e.mStatus = FREE) ∧ (BufferQueue.new 2).mCount < FREE) ∧
    ∃ j e q1, (BufferQueue.new 2).mElements[j]? = some e ∧ e.mStatus = FREE ∧
      (∀ (t : Nat) (e1 : DataElement), t < j → (BufferQueue.new 2).mElements[t]? = some e1 →
        e1.mStatus ≠ FREE) ∧
      (BufferQueue.new 2).push handleFrame false = .returned (j : Int) q1 e.mData ∧
      q1.mElements
        = (BufferQueue.new 2).mElements.set j
            { mData := handleFrame, mStatus := (BufferQueue.new 2).mCount } ∧
      q1.mElements[j]? = some { mData := handleFrame, mStatus := (BufferQueue.new 2).mCount } ∧
      Sequenced { mData := handleFrame, mStatus := (BufferQueue.new 2).mCount } ∧
      (∀ t, t ≠ j → q1.mElements[t]? = (BufferQueue.new 2).mElements[t]?) ∧
      q1.mCount = (BufferQueue.new 2).mCount + 1 ∧
      q1.mMediaQueue = (BufferQueue.new 2).mMediaQueue :=
  ⟨⟨⟨DataElement.new, by decide, rfl⟩, by decide⟩,
    push_free_slot (BufferQueue.new 2) handleFrame ⟨DataElement.new, by decide, rfl⟩ (by decide)⟩

/-- C3 fails as stated: `reservedQueue` is reachable, has a `FREE` slot and its
arrival counter equals `FREE`; `push` returns index 0 but the slot it filled is
left in state `FREE`, not sequenced, and the counter is not below `FREE`. -/
theorem push_reserved_counter :
    Reachable 1 reservedQueue ∧
    (∃ e ∈ reservedQueue.mElements, e.mStatus = FREE) ∧
    reservedQueue.push handleFrame false
      = .returned 0
          { mMediaQueue := [], mElements := [{ mData := handleFrame, mStatus := FREE }],
            mCount := FREE + 1 }
          Frame.new ∧
    ¬ Sequenced { mData := handleFrame, mStatus := FREE } := by
  refine ⟨?_, ⟨DataElement.new, by decide, rfl⟩, by decide, by decide⟩
  have h := reachable_count 0 FREE
  have e : FREE % 2 ^ 32 = FREE := by decide
  rw [e] at h
  exact h

/-! ## BufferQueue: `clearAll` -/

theorem releaseMediaBufferQueue_released (l : List Ptr) :
    ∀ w : World, (releaseMediaBufferQueue l w).released = w.released ++ l.filter (fun h => h != 0) ∧
      (releaseMediaBufferQueue l w).freed = w.freed ∧
      (releaseMediaBufferQueue l w).heap = w.heap := by
  induction l with
  | nil => intro w; simp [releaseMediaBufferQueue]
  | cons h hs ih =>
    intro w
    by_cases h0 : h = 0
    · simp [releaseMediaBufferQueue, h0, ih]
    · simp [releaseMediaBufferQueue, h0, ih, World.release]

theorem clearAllLoop_spec (l : List DataElement) :
    ∀ (mq : List Ptr) (w : World),
      (clearAllLoop l mq w).1 = l.map clearSlot ∧
      (clearAllLoop l mq w).2.1
        = mq ++ (l.map (fun e => e.mData.mMediaBuffer)).filter (fun h => h != 0) ∧
      (clearAllLoop l mq w).2.2.released = w.released ∧
      (clearAllLoop l mq w).2.2.freed
        = w.freed ++ (l.map (fun e => e.mData.mBuffer)).filter (fun p => p != 0) := by
  induction l with
  | nil => intro mq w; simp [clearAllLoop]
  | cons a as ih =>
    intro mq w
    obtain ⟨⟨s, p, sz, b, fl, mb⟩, st⟩ := a
    by_cases h1 : b = 0 <;> by_cases h2 : mb = 0 <;> by_cases h3 : st = HOLDED <;>
      simp [clearAllLoop, ih, clearSlot, Frame.clearBuffers, World.deleteArr, h1, h2, h3]

/-- C7, as the code has it: `clearAll` empties the frame of every slot, held
ones included (owned bytes go to `delete[]`, handles are released), keeping
each frame's status, pts and flags; a held slot stays `HOLDED`, every other
slot becomes `FREE`; the deferred list ends empty and every non-null handle of
the list and of the slots has been released once. -/
theorem clearAll_spec (q : BufferQueue) (w : World) :
    (q.clearAll w).1.mElements = q.mElements.map clearSlot ∧
    (∀ (j : Nat) (e : DataElement), q.mElements[j]? = some e →
      ∃ e1, (q.clearAll w).1.mElements[j]? = some e1 ∧
        e1.mData.empty = true ∧ e1.mData.mStatus = e.mData.mStatus ∧
        e1.mData.mPts = e.mData.mPts ∧ e1.mData.mFlags = e.mData.mFlags ∧
        (e.mStatus = HOLDED → e1.mStatus = HOLDED) ∧
        (e.mStatus ≠ HOLDED → e1.mStatus = FREE)) ∧
    (q.clearAll w).1.mMediaQueue = [] ∧ (q.clearAll w).1.mCount = q.mCount ∧
    (q.clearAll w).2.released
      = w.released ++
          (q.mMediaQueue ++
            (q.mElements.map (fun e => e.mData.mMediaBuffer)).filter (fun h => h != 0)).filter
            (fun h => h != 0) ∧
    (q.clearAll w).2.freed
      = w.freed ++ (q.mElements.map (fun e => e.mData.mBuffer)).filter (fun p => p != 0) := by
  obtain ⟨h1, h2, h3, h4⟩ := clearAllLoop_spec q.mElements q.mMediaQueue w
  have hr := releaseMediaBufferQueue_released (clearAllLoop q.mElements q.mMediaQueue w).2.1
    (clearAllLoop q.mElements q.mMediaQueue w).2.2
  refine ⟨h1, ?_, rfl, rfl, ?_, ?_⟩
  · intro j e hj
    refine ⟨clearSlot e, ?_, ?_, rfl, rfl, rfl, ?_, ?_⟩
    · simp only [clearAll, h1, List.getElem?_map, hj, Option.map_some']
    · simp [clearSlot, Frame.empty]
    · intro hs; simp [clearSlot, hs]
    · intro hs; simp [clearSlot, hs]
  · simp only [clearAll]
    rw [hr.1, h3, h2]
  · simp only [clearAll]
    rw [hr.2.1, h4]

/-- C7 fails as stated: the held slot of `heldQueue` carries the handle 7;
`clearAll` keeps its state `HOLDED` but its frame loses the handle, which is
released. -/
theorem clearAll_clears_held :
    heldQueue.mElements = [{ mData := handleFrame, mStatus := HOLDED }] ∧
    handleFrame.mMediaBuffer = 7 ∧
    (heldQueue.clearAll World.empty).1.mElements
      = [{ mData := { handleFrame with mMediaBuffer := 0 }, mStatus := HOLDED }] ∧
    (heldQueue.clearAll World.empty).1.mElements ≠ heldQueue.mElements ∧
    (heldQueue.clearAll World.empty).2.released = [7] := by
  refine ⟨rfl, rfl, ?_, ?_, ?_⟩ <;> decide

/-! ## BufferQueue: arrival order -/

theorem freeCount_pos (q : BufferQueue) (h : 0 < q.freeCount) :
    ∃ e ∈ q.mElements, e.mStatus = FREE := by
  unfold freeCount at h
  obtain ⟨e, he⟩ := List.exists_mem_of_length_pos h
  rw [List.mem_filter] at he
  exact ⟨e, he.1, by simpa using he.2⟩

theorem filter_free_set (x : DataElement) (hx : x.mStatus ≠ FREE) (l : List DataElement) :
    ∀ (j : Nat) (e : DataElement), l[j]? = some e → e.mStatus = FREE →
      ((l.set j x).filter (fun e => e.mStatus == FREE)).length + 1
        = (l.filter (fun e => e.mStatus == FREE)).length := by
  induction l with
  | nil => intro j e h; simp at h
  | cons a as ih =>
    intro j e h he
    cases j with
    | zero =>
      simp at h; subst h
      simp [List.filter_cons, he, hx]
    | succ j =>
      simp at h
      have := ih j e h he
      by_cases ha : a.mStatus = FREE
      · simp [List.filter_cons, ha]; omega
      · simp [List.filter_cons, ha]; omega

theorem pending_index_ne {l : List DataElement} {base : Nat} {pend : List (Nat × Frame)}
    (hp : Pending l base pend) {j : Nat} {e : DataElement} (hj : l[j]? = some e)
    (he : FREE ≤ e.mStatus) : ∀ p ∈ pend, p.1 ≠ j := by
  intro p hpm hpj
  obtain ⟨t, ht⟩ := List.mem_iff_getElem?.1 hpm
  have h1 := hp.1 t p ht
  rw [hpj, hj] at h1
  have hlt : t < pend.length := slot_lt ht
  have h3 := hp.2.2
  injection h1 with h1
  rw [h1] at he
  simp only at he
  omega

theorem pending_set_other {l : List DataElement} {base : Nat} {pend : List (Nat × Frame)}
    (hp : Pending l base pend) {j : Nat} {e x : DataElement} (hj : l[j]? = some e)
    (he : FREE ≤ e.mStatus) (hx : FREE ≤ x.mStatus) : Pending (l.set j x) base pend := by
  have hne := pending_index_ne hp hj he
  refine ⟨?_, ?_, hp.2.2⟩
  · intro t p ht
    have := hne p (List.getElem?_mem ht)
    rw [List.getElem?_set_ne (Ne.symm this)]
    exact hp.1 t p ht
  · intro j1 e1 hj1 hn
    by_cases h : j1 = j
    · subst h
      rw [List.getElem?_set_self (slot_lt hj)] at hj1
      injection hj1 with hj1
      rw [← hj1]; exact hx
    · rw [List.getElem?_set_ne (Ne.symm h)] at hj1
      exact hp.2.1 j1 e1 hj1 hn

theorem pending_push {l : List DataElement} {base : Nat} {pend : List (Nat × Frame)}
    (hp : Pending l base pend) (hlt : base + pend.length < FREE) {j : Nat} {e : DataElement}
    (hj : l[j]? = some e) (he : e.mStatus = FREE) (f : Frame) :
    Pending (l.set j { mData := f, mStatus := base + pend.length }) base (pend ++ [(j, f)]) := by
  have hne := pending_index_ne hp hj (Nat.le_of_eq he.symm)
  have hjl := slot_lt hj
  refine ⟨?_, ?_, ?_⟩
  · intro t p ht
    rcases Nat.lt_or_ge t pend.length with h | h
    · rw [List.getElem?_append_left h] at ht
      have := hne p (List.getElem?_mem ht)
      rw [List.getElem?_set_ne (Ne.symm this)]
      exact hp.1 t p ht
    · rw [List.getElem?_append_right h] at ht
      have hl := slot_lt ht
      simp only [List.length_singleton] at hl
      have ht0 : t - pend.length = 0 := by omega
      rw [ht0] at ht
      simp only [List.getElem?_cons_zero] at ht
      injection ht with ht
      subst ht
      have : t = pend.length := by omega
      subst this
      simp [hjl]
  · intro j1 e1 hj1 hn
    have h1 : j1 ≠ j := by
      intro h
      exact hn (j, f) (by simp) h.symm
    rw [List.getElem?_set_ne (Ne.symm h1)] at hj1
    exact hp.2.1 j1 e1 hj1 (fun p hpm => hn p (by simp [hpm]))
  · simp only [List.length_append, List.length_singleton]
    omega

theorem pending_head {l : List DataElement} {base : Nat} {j : Nat} {f : Frame}
    {rest : List (Nat × Frame)} (hp : Pending l base ((j, f) :: rest)) :
    l[j]? = some { mData := f, mStatus := base } ∧
    (∀ (t : Nat) (e1 : DataElement), l[t]? = some e1 → t ≠ j → base < e1.mStatus) ∧
    base < FREE ∧
    Pending (l.set j { mData := f, mStatus := HOLDED }) (base + 1) rest := by
  have h0 : l[j]? = some { mData := f, mStatus := base } := by
    have := hp.1 0 (j, f) (by simp)
    simpa using this
  have hb : base + (rest.length + 1) ≤ FREE := by simpa using hp.2.2
  have hothers : ∀ (t : Nat) (e1 : DataElement), l[t]? = some e1 → t ≠ j → base < e1.mStatus := by
    intro t e1 ht htj
    by_cases hex : ∃ p ∈ rest, p.1 = t
    · obtain ⟨p, hpm, hpt⟩ := hex
      obtain ⟨u, hu⟩ := List.mem_iff_getElem?.1 hpm
      have := hp.1 (u + 1) p (by simpa using hu)
      rw [hpt, ht] at this
      injection this with this
      rw [this]
      simp only
      omega
    · have : FREE ≤ e1.mStatus := by
        apply hp.2.1 t e1 ht
        intro p hpm hpt
        rcases List.mem_cons.1 hpm with rfl | hpm
        · exact htj hpt.symm
        · exact hex ⟨p, hpm, hpt⟩
      omega
  refine ⟨h0, hothers, by omega, ?_, ?_, by omega⟩
  · intro t p ht
    have h1 := hp.1 (t + 1) p (by simpa using ht)
    have hne : p.1 ≠ j := by
      intro h
      rw [h, h0] at h1
      injection h1 with h1
      injection h1 with _ h1
      omega
    rw [List.getElem?_set_ne (Ne.symm hne), h1]
    congr 2
    omega
  · intro j1 e1 hj1 hn
    by_cases h : j1 = j
    · subst h
      rw [List.getElem?_set_self (slot_lt h0)] at hj1
      injection hj1 with hj1
      rw [← hj1]
      simp [FREE, HOLDED]
    · rw [List.getElem?_set_ne (Ne.symm h)] at hj1
      apply hp.2.1 j1 e1 hj1
      intro p hpm hpt
      rcases List.mem_cons.1 hpm with rfl | hpm
      · exact h hpt.symm
      · exact hn p hpm hpt

theorem pending_nodup {l : List DataElement} {base : Nat} {pend : List (Nat × Frame)}
    (hp : Pending l base pend) : (pend.map Prod.fst).Nodup := by
  rw [List.nodup_iff_getElem?_ne_getElem?]
  intro i j hij hj heq
  rw [List.length_map] at hj
  have hi : i < pend.length := by omega
  rw [List.getElem?_map, List.getElem?_map, List.getElem?_eq_getElem hi,
    List.getElem?_eq_getElem hj] at heq
  simp only [Option.map_some', Option.some.injEq] at heq
  have h1 := hp.1 i pend[i] (List.getElem?_eq_getElem hi)
  have h2 := hp.1 j pend[j] (List.getElem?_eq_getElem hj)
  rw [heq, h2] at h1
  injection h1 with h1
  injection h1 with _ h1
  omega

theorem pending_index_lt {l : List DataElement} {base : Nat} {pend : List (Nat × Frame)}
    (hp : Pending l base pend) : ∀ i ∈ pend.map Prod.fst, i < l.length := by
  intro i hi
  obtain ⟨p, hpm, rfl⟩ := List.mem_map.1 hi
  obtain ⟨t, ht⟩ := List.mem_iff_getElem?.1 hpm
  exact slot_lt (hp.1 t p ht)

theorem holdNext_pending {q : BufferQueue} {base : Nat} {j : Nat} {f : Frame}
    {rest : List (Nat × Frame)} (hp : Pending q.mElements base ((j, f) :: rest)) (out : Frame) :
    q.holdNext out false false =
      { ret := (j : Int),
        q := { q with mElements := q.mElements.set j { mData := f, mStatus := HOLDED } },
        data := { out with mStatus := f.mStatus, mPts := f.mPts },
        buffer := none, size := none } := by
  obtain ⟨h0, hothers, hb, _⟩ := pending_head hp
  obtain ⟨j0, e0, h1, _, h3, _, h5⟩ :=
    holdNext_eq q out false false ⟨_, List.getElem?_mem h0, hb⟩
  have hj : j0 = j := by
    by_contra hne
    have := hothers j0 e0 h1 hne
    have := h3 j _ h0
    simp only at this
    omega
  subst hj
  rw [h0] at h1
  injection h1 with h1
  subst h1
  rw [h5]
  rfl

theorem free_eq (q : BufferQueue) (w : World) (i : Nat) (e : DataElement)
    (hi : q.mElements[i]? = some e) (hs : e.mStatus = HOLDED) :
    ∃ f1 mq1 w1, q.free w i
      = some ({ q with mElements := q.mElements.set i { mData := f1, mStatus := FREE },
                       mMediaQueue := mq1 }, w1) := by
  have hlt := slot_lt hi
  refine ⟨(e.mData.clearBuffers (some q.mMediaQueue) w).1,
    ((e.mData.clearBuffers (some q.mMediaQueue) w).2.1).getD q.mMediaQueue,
    (e.mData.clearBuffers (some q.mMediaQueue) w).2.2, ?_⟩
  simp only [BufferQueue.free, index_guard _ _ hlt, if_false, Int.toNat_ofNat, hi, hs, ne_eq,
    not_true_eq_false]

theorem pushAll_pending (fs : List Frame) :
    ∀ (q : BufferQueue) (base : Nat) (pend : List (Nat × Frame)),
      Pending q.mElements base pend → q.mCount = base + pend.length →
      base + pend.length + fs.length ≤ FREE → fs.length ≤ q.freeCount →
      ∃ (idxs : List Nat) (q1 : BufferQueue),
        q.pushAll fs = some (idxs.map Int.ofNat, q1) ∧ idxs.length = fs.length ∧
        Pending q1.mElements base (pend ++ idxs.zip fs) ∧
        q1.mElements.length = q.mElements.length := by
  induction fs with
  | nil =>
    intro q base pend hp _ _ _
    exact ⟨[], q, rfl, rfl, by simpa using hp, rfl⟩
  | cons f fs ih =>
    intro q base pend hp hc hb hf
    simp only [List.length_cons] at hb hf
    obtain ⟨j, e, h1, h2, _, h4⟩ := push_eq q f (freeCount_pos q (by omega))
    have hmod : (q.mCount + 1) % 2 ^ 32 = base + (pend ++ [(j, f)]).length := by
      simp only [List.length_append, List.length_singleton]
      rw [hc]
      apply Nat.mod_eq_of_lt
      simp only [FREE] at hb
      omega
    have hp1 := pending_push hp (by omega) h1 h2 f
    have hfc := filter_free_set { mData := f, mStatus := q.mCount }
      (by simp only [hc]; omega) q.mElements j e h1 h2
    obtain ⟨idxs, q1, g1, g2, g3, g4⟩ := ih
      { q with mElements := q.mElements.set j { mData := f, mStatus := q.mCount },
               mCount := (q.mCount + 1) % 2 ^ 32 }
      base (pend ++ [(j, f)]) (by rw [hc]; exact hp1) hmod
      (by simp only [List.length_append, List.length_singleton]; omega)
      (by unfold freeCount at hf ⊢; simp only; omega)
    refine ⟨j :: idxs, q1, ?_, by simp [g2], ?_, ?_⟩
    · simp only [pushAll, h4, g1, Option.map_some', List.map_cons]
      rfl
    · simpa [List.append_assoc] using g3
    · rw [g4]; simp

theorem holdAll_pending (outs : List Frame) :
    ∀ (q : BufferQueue) (base : Nat) (pend : List (Nat × Frame)),
      Pending q.mElements base pend → outs.length ≤ pend.length →
      (q.holdAll outs).1 = (pend.take outs.length).map report := by
  induction outs with
  | nil => intro q base pend _ _; simp [holdAll]
  | cons o os ih =>
    intro q base pend hp hl
    cases pend with
    | nil => simp at hl
    | cons p rest =>
      obtain ⟨j, f⟩ := p
      simp only [List.length_cons] at hl
      have hstep := holdNext_pending hp o
      have hrest := (pending_head hp).2.2.2
      simp only [holdAll, hstep, List.length_cons, List.take_succ_cons, List.map_cons]
      rw [ih _ (base + 1) rest hrest (by omega)]
      rfl

theorem holdFreeAll_pending (outs : List Frame) :
    ∀ (q : BufferQueue) (w : World) (base : Nat) (pend : List (Nat × Frame)),
      Pending q.mElements base pend → outs.length ≤ pend.length →
      ∃ q2 w2, q.holdFreeAll w outs = some ((pend.take outs.length).map report, q2, w2) := by
  induction outs with
  | nil => intro q w base pend _ _; exact ⟨q, w, by simp [holdFreeAll]⟩
  | cons o os ih =>
    intro q w base pend hp hl
    cases pend with
    | nil => simp at hl
    | cons p rest =>
      obtain ⟨j, f⟩ := p
      simp only [List.length_cons] at hl
      have hstep := holdNext_pending hp o
      obtain ⟨h0, _, _, hrest⟩ := pending_head hp
      have hjl := slot_lt h0
      have hslot : (q.mElements.set j { mData := f, mStatus := HOLDED })[j]?
          = some { mData := f, mStatus := HOLDED } := List.getElem?_set_self hjl
      obtain ⟨f1, mq1, w1, hfree⟩ := free_eq
        { q with mElements := q.mElements.set j { mData := f, mStatus := HOLDED } } w j
        { mData := f, mStatus := HOLDED } hslot rfl
      have hrest2 := pending_set_other (x := { mData := f1, mStatus := FREE }) hrest hslot
        (by simp [FREE, HOLDED]) (Nat.le_refl _)
      obtain ⟨q2, w2, h2⟩ := ih
        { q with
          mElements := (q.mElements.set j { mData := f, mStatus := HOLDED }).set j
            { mData := f1, mStatus := FREE },
          mMediaQueue := mq1 } w1 (base + 1) rest hrest2 (by omega)
      refine ⟨q2, w2, ?_⟩
      simp only [holdFreeAll, hstep, hfree, h2, Option.map_some', List.length_cons,
        List.take_succ_cons, List.map_cons]
      rfl

/-- C1, for arrival numbers that all stay below the reserved values
(`mCount + k ≤ FREE`): in a pool without sequenced slots and with at least `k`
`FREE` slots, `k` calls `push(f, false)` return `k` distinct slot indexes, and
the next `m ≤ k` calls of `holdNext` return these indexes and report the
status and pts of the frames in the order pushed, whether or not each held
slot is freed before the next `holdNext`. -/
theorem fifo_hold_order (q : BufferQueue) (w : World) (fs outs : List Frame)
    (hseq : ∀ e ∈ q.mElements, ¬ Sequenced e)
    (hfree : fs.length ≤ q.freeCount)
    (hcnt : q.mCount + fs.length ≤ FREE)
    (hlen : outs.length ≤ fs.length) :
    ∃ (idxs : List Nat) (q1 : BufferQueue),
      q.pushAll fs = some (idxs.map Int.ofNat, q1) ∧ idxs.length = fs.length ∧
      idxs.Nodup ∧ (∀ i ∈ idxs, i < q.capacity) ∧
      (q1.holdAll outs).1 = ((idxs.zip fs).take outs.length).map report ∧
      ∃ q2 w2, q1.holdFreeAll w outs
        = some (((idxs.zip fs).take outs.length).map report, q2, w2) := by
  have hp0 : Pending q.mElements q.mCount [] := by
    refine ⟨?_, ?_, by simp only [List.length_nil]; omega⟩
    · intro t p ht; simp at ht
    · intro j e hj _
      have := hseq e (List.getElem?_mem hj)
      unfold Sequenced at this
      omega
  obtain ⟨idxs, q1, h1, h2, h3, h4⟩ :=
    pushAll_pending fs q q.mCount [] hp0 (by simp) (by simpa using hcnt) hfree
  rw [List.nil_append] at h3
  have hfst : (idxs.zip fs).map Prod.fst = idxs := List.map_fst_zip _ _ (by omega)
  have hzl : (idxs.zip fs).length = fs.length := by simp [h2]
  refine ⟨idxs, q1, h1, h2, ?_, ?_, ?_, ?_⟩
  · have := pending_nodup h3
    rwa [hfst] at this
  · have := pending_index_lt h3
    rw [hfst, h4] at this
    exact this
  · exact holdAll_pending outs q1 q.mCount _ h3 (by omega)
  · exact holdFreeAll_pending outs q1 w q.mCount _ h3 (by omega)

theorem fifo_hold_order_witness :
    ((∀ e ∈ (BufferQueue.new 10).mElements, ¬ Sequenced e) ∧
      tenFrames.length ≤ (BufferQueue.new 10).freeCount ∧
      (BufferQueue.new 10).mCount + tenFrames.length ≤ FREE ∧
      (List.replicate 5 Frame.new).length ≤ tenFrames.length) ∧
    (∃ (idxs : List Nat) (q1 : BufferQueue),
      (BufferQueue.new 10).pushAll tenFrames = some (idxs.map Int.ofNat, q1) ∧
      idxs.length = tenFrames.length ∧
      idxs.Nodup ∧ (∀ i ∈ idxs, i < (BufferQueue.new 10).capacity) ∧
      (q1.holdAll (List.replicate 5 Frame.new)).1
        = ((idxs.zip tenFrames).take (List.replicate 5 Frame.new).length).map report ∧
      ∃ q2 w2, q1.holdFreeAll World.empty (List.replicate 5 Frame.new)
        = some (((idxs.zip tenFrames).take (List.replicate 5 Frame.new).length).map report,
            q2, w2)) ∧
    (((BufferQueue.new 10).pushAll tenFrames).bind fun r =>
        (r.2.holdFreeAll World.empty (List.replicate 5 Frame.new)).map fun x =>
          x.1.map fun c => c.2.2)
      = some [0, 1, 2, 3, 4] :=
  ⟨⟨by decide, by decide, by decide, by decide⟩,
    fifo_hold_order (BufferQueue.new 10) World.empty tenFrames (List.replicate 5 Frame.new)
      (by decide) (by decide) (by decide) (by decide),
    by decide⟩

/-- C1 fails as stated: `wrapQueue` is reachable, has no sequenced slot, two
`FREE` slots and an arrival counter below the reserved values; two pushes
return the indexes 0 and 1, but the second frame takes the arrival number
`FREE`, so the second `holdNext` returns `INFO_TRY_AGAIN_LATER` and reports
nothing of that frame. -/
theorem fifo_counter_reaches_free :
    Reachable 2 wrapQueue ∧
    (∀ e ∈ wrapQueue.mElements, ¬ Sequenced e) ∧ 2 ≤ wrapQueue.freeCount ∧
    wrapQueue.mCount < FREE ∧
    ∃ q1, wrapQueue.pushAll [bytesFrame 0, bytesFrame 1] = some ([0, 1], q1) ∧
      (q1.holdAll [Frame.new, Frame.new]).1 = [(0, OK, 0), (INFO_TRY_AGAIN_LATER, OK, 0)] := by
  refine ⟨?_, by decide, by decide, by decide, ?_⟩
  · have h := reachable_count 1 0xFFFFFFEF
    have e : 0xFFFFFFEF % 2 ^ 32 = 0xFFFFFFEF := by decide
    rw [e] at h
    exact h
  · refine ⟨{ mMediaQueue := [],
              mElements := [{ mData := bytesFrame 0, mStatus := 0xFFFFFFEF },
                            { mData := bytesFrame 1, mStatus := FREE }],
              mCount := 0xFFFFFFF1 }, by decide, by decide⟩

/-! ## Frame: construction from bytes -/

theorem read_cons (w : World) (p : Ptr) (l : List Nat) (q : Ptr) :
    ({ w with heap := (p, l) :: w.heap } : World).read q
      = if p = q then some l else w.read q := by
  by_cases h : p = q <;> simp [World.read, List.find?_cons, h]

theorem read_mem {w : World} {p : Ptr} {l : List Nat} (h : w.read p = some l) :
    (p, l) ∈ w.heap := by
  unfold World.read at h
  cases hf : w.heap.find? (fun c => c.1 == p) with
  | none => rw [hf] at h; cases h
  | some c =>
    rw [hf] at h
    simp only [Option.map_some', Option.some.injEq] at h
    have h1 := List.find?_some hf
    have h2 := List.mem_of_find?_eq_some hf
    simp only [beq_iff_eq] at h1
    obtain ⟨a, b⟩ := c
    simp only at h h1
    subst h; subst h1
    exact h2

theorem toInt32_small {n : Nat} (h : n < 2 ^ 31) : toInt32 n = (n : Int) := by
  have h1 : n % 2 ^ 32 = n := Nat.mod_eq_of_lt (by omega)
  simp only [toInt32, h1, h, if_true]

theorem ofBytes_eq (w : World) (status pts : Int) (flags : Nat) (data : Ptr)
    (bytes : List Nat) (size : Nat) (hwf : w.wf) (hdata : w.read data = some bytes)
    (hlen : size ≤ bytes.length) (hpos : 0 < size) :
    Frame.ofBytes w status data size pts flags
      = some ({ mStatus := status, mPts := pts, mSize := toInt32 size, mBuffer := w.brk + 1,
                mFlags := flags, mMediaBuffer := 0 },
              { w with
                heap := (w.brk + 1, bytes.take size) ::
                  List.filter (fun c => c.1 != w.brk + 1)
                    ((w.brk + 1, List.replicate size 0) :: w.heap),
                brk := w.brk + 1 }) ∧
    data ≠ 0 ∧ data ≠ w.brk + 1 := by
  have hm : (0 : Nat) < (data : Nat) ∧ (data : Nat) ≤ w.brk := hwf _ (read_mem hdata)
  have hd0 : data ≠ 0 := Nat.pos_iff_ne_zero.1 hm.1
  have hne : ¬ (w.brk + 1 = data) := fun h => absurd hm.2 (by rw [← h]; exact Nat.not_succ_le_self _)
  refine ⟨?_, hd0, fun h => hne h.symm⟩
  have hr1 : ({ w with heap := (w.brk + 1, List.replicate size 0) :: w.heap,
                       brk := w.brk + 1 } : World).read data = some bytes := by
    have := read_cons { w with brk := w.brk + 1 } (w.brk + 1) (List.replicate size 0) data
    simp only [hne, if_false] at this
    rw [this]
    exact hdata
  have hr2 : ({ w with heap := (w.brk + 1, List.replicate size 0) :: w.heap,
                       brk := w.brk + 1 } : World).read (w.brk + 1)
      = some (List.replicate size 0) := by
    have := read_cons { w with brk := w.brk + 1 } (w.brk + 1) (List.replicate size 0) (w.brk + 1)
    simpa using this
  have hs : size ≠ 0 := by omega
  simp only [Frame.ofBytes, World.newArr, World.memcpy, hpos, hd0, ne_eq, not_false_eq_true,
    and_self, if_true, hs, if_false, hr1, hr2, hlen, List.length_replicate, Nat.le_refl,
    Option.map_some', gt_iff_lt]
  simp


theorem find?_filter_ne (p q : Ptr) (hq : q ≠ p) (l : List (Ptr × List Nat)) :
    (l.filter (fun c => c.1 != p)).find? (fun c => c.1 == q) = l.find? (fun c => c.1 == q) := by
  induction l with
  | nil => rfl
  | cons a as ih =>
    obtain ⟨k, v⟩ := a
    by_cases h1 : k = p
    · have h2 : (k == q) = false := by
        rw [beq_eq_false_iff_ne]
        exact fun h => hq (h ▸ h1)
      have h3 : (k != p) = false := by simp [h1]
      simp only [List.filter_cons, List.find?_cons, h3, h2]
      exact ih
    · have h3 : (k != p) = true := by simp [h1]
      simp only [List.filter_cons, List.find?_cons, h3, if_true, ih]

/-- C11, for sizes that fit into the `int` field `mSize` (`size < 2 ^ 31`): the
from-bytes constructor applied to `size > 0` readable bytes at `data` builds a
frame with `mSize = size` that owns a new array, at an address different from
`data`, holding the first `size` bytes of the source, which is left as it was;
with a null `data` or `size = 0` the frame is empty and nothing is allocated. -/
theorem ofBytes_deep_copy (w : World) (status pts : Int) (flags : Nat) (data : Ptr)
    (size : Nat) :
    (∀ bytes : List Nat, w.wf → w.read data = some bytes → size ≤ bytes.length → 0 < size →
      size < 2 ^ 31 →
      ∃ f w1, Frame.ofBytes w status data size pts flags = some (f, w1) ∧
        f.mSize = (size : Int) ∧ f.mBuffer ≠ 0 ∧ f.mBuffer ≠ data ∧
        w1.read f.mBuffer = some (bytes.take size) ∧ w1.read data = some bytes ∧
        f.mStatus = status ∧ f.mPts = pts ∧ f.mFlags = flags ∧ f.mMediaBuffer = 0 ∧
        f.empty = false) ∧
    (data = 0 ∨ size = 0 →
      ∃ f, Frame.ofBytes w status data size pts flags = some (f, w) ∧ f.empty = true ∧
        f.mStatus = status ∧ f.mPts = pts ∧ f.mFlags = flags) := by
  constructor
  · intro bytes hwf hdata hlen hpos hint
    obtain ⟨heq, hd0, hne⟩ := ofBytes_eq w status pts flags data bytes size hwf hdata hlen hpos
    refine ⟨_, _, heq, toInt32_small hint, Nat.succ_ne_zero _, fun h => hne h.symm, ?_, ?_,
      rfl, rfl, rfl, rfl, ?_⟩
    · simp [World.read]
    · have h1 : (List.find? (fun c => c.1 == data)
          (List.filter (fun c => c.1 != w.brk + 1)
            ((w.brk + 1, List.replicate size 0) :: w.heap)))
          = w.heap.find? (fun c => c.1 == data) := by
        rw [find?_filter_ne _ _ hne]
        have : ¬ (w.brk + 1 = data) := fun h => hne h.symm
        simp [List.find?_cons, this]
      have h2 : ¬ (w.brk + 1 = data) := fun h => hne h.symm
      have h3 : (w.brk + 1 == data) = false := by
        rw [beq_eq_false_iff_ne]; exact h2
      unfold World.read at hdata ⊢
      rw [List.find?_cons]
      simp only [h3]
      rw [h1]
      exact hdata
    · simp [Frame.empty]
  · intro h
    refine ⟨{ mStatus := status, mPts := pts, mSize := toInt32 size, mBuffer := 0,
              mFlags := flags, mMediaBuffer := 0 }, ?_, rfl, rfl, rfl, rfl⟩
    rcases h with h | h
    · simp [Frame.ofBytes, h]
    · simp [Frame.ofBytes, h]

theorem ofBytes_deep_copy_witness :
    (sourceWorld.wf ∧ sourceWorld.read 50 = some [1, 2, 3, 4, 5] ∧
      5 ≤ [1, 2, 3, 4, 5].length ∧ 0 < 5 ∧ 5 < 2 ^ 31) ∧
    (∃ f w1, Frame.ofBytes sourceWorld OK 50 5 7 0 = some (f, w1) ∧
        f.mSize = ((5 : Nat) : Int) ∧ f.mBuffer ≠ 0 ∧ f.mBuffer ≠ 50 ∧
        w1.read f.mBuffer = some ([1, 2, 3, 4, 5].take 5) ∧
        w1.read 50 = some [1, 2, 3, 4, 5] ∧
        f.mStatus = OK ∧ f.mPts = 7 ∧ f.mFlags = 0 ∧ f.mMediaBuffer = 0 ∧
        f.empty = false) ∧
    (∃ f, Frame.ofBytes sourceWorld OK 0 5 7 0 = some (f, sourceWorld) ∧ f.empty = true ∧
        f.mStatus = OK ∧ f.mPts = 7 ∧ f.mFlags = 0) :=
  ⟨⟨by decide, by decide, by decide, by decide, by decide⟩,
    (ofBytes_deep_copy sourceWorld OK 7 0 50 5).1 [1, 2, 3, 4, 5] (by decide) (by decide)
      (by decide) (by decide) (by decide),
    (ofBytes_deep_copy sourceWorld OK 7 0 0 5).2 (Or.inl rfl)⟩

/-- C11 fails as stated: for `2 ^ 31` readable bytes the constructor copies all
of them, but the `int` field `mSize` receives `-2147483648`, not the size. -/
theorem ofBytes_size_overflow :
    bigWorld.wf ∧ bigWorld.read 50 = some (List.replicate bigSize 0) ∧
    (List.replicate bigSize 0).length = bigSize ∧ 0 < bigSize ∧
    ∃ f w1, Frame.ofBytes bigWorld OK 50 bigSize 0 0 = some (f, w1) ∧
      f.mSize = -2147483648 ∧ f.mSize ≠ (bigSize : Int) := by
  have hwf : bigWorld.wf := by
    intro c hc
    simp only [bigWorld, List.mem_singleton] at hc
    subst hc
    exact ⟨by decide, Nat.le_refl _⟩
  have hread : bigWorld.read 50 = some (List.replicate bigSize 0) := by
    simp [World.read, bigWorld]
  have hlen : (List.replicate bigSize 0).length = bigSize := List.length_replicate _ _
  have hpos : 0 < bigSize := by decide
  obtain ⟨heq, _, _⟩ := ofBytes_eq bigWorld OK 0 0 50 (List.replicate bigSize 0) bigSize hwf
    hread (Nat.le_of_eq hlen.symm) hpos
  refine ⟨hwf, hread, hlen, hpos, _, _, heq, ?_, ?_⟩
  · show toInt32 bigSize = -2147483648
    decide
  · show toInt32 bigSize ≠ (bigSize : Int)
    decide

/-! ## BufferQueue: capacity, and `holdNext` without a sequenced slot -/

theorem pushLoop_length (data : Frame) (n : Nat) (l : List DataElement) :
    ∀ (i j : Nat) (l1 : List DataElement) (d : Frame),
      pushLoop data n l i = some (j, l1, d) → l1.length = l.length := by
  induction l with
  | nil => intro i j l1 d h; simp [pushLoop] at h
  | cons a as ih =>
    intro i j l1 d h
    by_cases ha : a.mStatus = FREE
    · simp only [pushLoop, ha, if_true, Option.some.injEq, Prod.mk.injEq] at h
      rw [← h.2.1]; rfl
    · simp only [pushLoop, ha, if_false] at h
      cases hr : pushLoop data n as (i + 1) with
      | none => rw [hr] at h; simp at h
      | some r =>
        obtain ⟨j1, l2, d2⟩ := r
        rw [hr] at h
        simp only [Option.map_some', Option.some.injEq, Prod.mk.injEq] at h
        rw [← h.2.1]
        simp [ih _ _ _ _ hr]

theorem push_length {q q1 : BufferQueue} {data d1 : Frame} {wait : Bool} {ret : Int}
    (h : q.push data wait = .returned ret q1 d1 ∨ q.push data wait = .parked ret q1 d1) :
    q1.mElements.length = q.mElements.length := by
  unfold push at h
  by_cases hf : isFull q.mElements = true
  · simp [hf] at h
  · simp only [hf] at h
    cases hr : pushLoop data q.mCount q.mElements 0 with
    | none =>
      rw [hr] at h
      simp only [Bool.false_eq_true, if_false, PushResult.returned.injEq, reduceCtorEq,
        or_false] at h
      rw [← h.2.1]
    | some r =>
      obtain ⟨j, l1, d⟩ := r
      rw [hr] at h
      have hl := pushLoop_length _ _ _ _ _ _ _ hr
      cases wait <;>
        simp only [Bool.false_eq_true, if_false, if_true, PushResult.returned.injEq,
          PushResult.parked.injEq, reduceCtorEq, or_false, false_or] at h <;>
        (rw [← h.2.1]; exact hl)

theorem pull_length {q q1 : BufferQueue} {data d1 : Frame} {index : Int}
    (h : q.pull data index = some (q1, d1)) : q1.mElements.length = q.mElements.length := by
  unfold pull at h
  split at h
  · simp only [Option.some.injEq, Prod.mk.injEq] at h; rw [← h.1]
  · split at h
    · cases h
    · split at h
      · simp only [Option.some.injEq, Prod.mk.injEq] at h; rw [← h.1]
      · simp only [Option.some.injEq, Prod.mk.injEq] at h; rw [← h.1]; simp

theorem free_length {q q1 : BufferQueue} {w w1 : World} {index : Int}
    (h : q.free w index = some (q1, w1)) : q1.mElements.length = q.mElements.length := by
  unfold free at h
  split at h
  · simp only [Option.some.injEq, Prod.mk.injEq] at h; rw [← h.1]
  · split at h
    · cases h
    · split at h
      · simp only [Option.some.injEq, Prod.mk.injEq] at h; rw [← h.1]
      · simp only [Option.some.injEq, Prod.mk.injEq] at h; rw [← h.1]; simp

theorem clearBuffer_length {q q1 : BufferQueue} {w w1 : World} {index : Int}
    (h : q.clearBuffer w index = some (q1, w1)) : q1.mElements.length = q.mElements.length := by
  unfold clearBuffer at h
  split at h
  · simp only [Option.some.injEq, Prod.mk.injEq] at h; rw [← h.1]
  · split at h
    · cases h
    · simp only [Option.some.injEq, Prod.mk.injEq] at h; rw [← h.1]; simp

theorem holdNext_length (q : BufferQueue) (data : Frame) (wb ws : Bool) :
    (q.holdNext data wb ws).q.mElements.length = q.mElements.length := by
  unfold holdNext
  split
  · rfl
  · split
    · rfl
    · simp

theorem clearAll_length (q : BufferQueue) (w : World) :
    (q.clearAll w).1.mElements.length = q.mElements.length := by
  simp [clearAll, (clearAllLoop_spec q.mElements q.mMediaQueue w).1]

theorem waitRelease_length {q q1 : BufferQueue} {w w1 : World} {waitTime : Int}
    {periods : List Int} {count : Nat}
    (h : q.waitRelease w waitTime periods = some (count, q1, w1)) :
    q1.mElements.length = q.mElements.length := by
  unfold waitRelease at h
  cases hr : waitReleaseLoop q waitTime periods q.filledCount with
  | none => rw [hr] at h; simp at h
  | some c =>
    rw [hr] at h
    simp only [Option.map_some', Option.some.injEq, Prod.mk.injEq] at h
    rw [← h.2.1]

theorem reachable_length {capacity : Int} {q : BufferQueue} (h : Reachable capacity q) :
    q.mElements.length = capacity.toNat := by
  induction h with
  | init => simp [BufferQueue.new]
  | push _ hp ih => rw [push_length (Or.inl hp), ih]
  | pushWait _ hp ih => rw [push_length (Or.inr hp), ih]
  | pull _ hp ih => rw [pull_length hp, ih]
  | free _ hp ih => rw [free_length hp, ih]
  | clearBuffer _ hp ih => rw [clearBuffer_length hp, ih]
  | holdNext _ ih => rw [holdNext_length, ih]
  | clearAll _ ih => rw [clearAll_length, ih]
  | releaseBuffers _ ih => exact ih
  | waitRelease _ hp ih => rw [waitRelease_length hp, ih]

/-- C12: in every state reachable from `BufferQueue(capacity)` the number of
slots is the capacity given at construction and `size()` is at most
`capacity()`; and each method that returns (`push`, `pull`, `free`,
`clearBuffer`, `holdNext`, `clearAll`, `releaseBuffers`, `waitRelease`) leaves
the number of slots as it was (`get` returns a pointer and has no queue to
leave). -/
theorem capacity_invariant (capacity : Int) (q : BufferQueue) (h : Reachable capacity q) :
    q.capacity = capacity.toNat ∧ (0 ≤ capacity → (q.capacity : Int) = capacity) ∧
    q.size ≤ q.capacity ∧
    (∀ (data : Frame) (wait : Bool) (ret : Int) (q1 : BufferQueue) (d1 : Frame),
      q.push data wait = .returned ret q1 d1 → q1.capacity = q.capacity) ∧
    (∀ (data : Frame) (wait : Bool) (index : Int) (q1 : BufferQueue) (d1 : Frame),
      q.push data wait = .parked index q1 d1 → q1.capacity = q.capacity) ∧
    (∀ (data : Frame) (index : Int) (q1 : BufferQueue) (d1 : Frame),
      q.pull data index = some (q1, d1) → q1.capacity = q.capacity) ∧
    (∀ (w : World) (index : Int) (q1 : BufferQueue) (w1 : World),
      q.free w index = some (q1, w1) → q1.capacity = q.capacity) ∧
    (∀ (w : World) (index : Int) (q1 : BufferQueue) (w1 : World),
      q.clearBuffer w index = some (q1, w1) → q1.capacity = q.capacity) ∧
    (∀ (data : Frame) (wb ws : Bool), (q.holdNext data wb ws).q.capacity = q.capacity) ∧
    (∀ w : World, (q.clearAll w).1.capacity = q.capacity) ∧
    (∀ w : World, (q.releaseBuffers w).1.capacity = q.capacity) ∧
    (∀ (w : World) (waitTime : Int) (periods : List Int) (count : Nat) (q1 : BufferQueue)
      (w1 : World),
      q.waitRelease w waitTime periods = some (count, q1, w1) → q1.capacity = q.capacity) := by
  have hl := reachable_length h
  refine ⟨hl, ?_, ?_, ?_, ?_, ?_, ?_, ?_, ?_, ?_, ?_, ?_⟩
  · intro h0
    unfold BufferQueue.capacity
    rw [hl]
    exact Int.toNat_of_nonneg h0
  · exact List.length_filter_le _ _
  · intro data wait ret q1 d1 hp; exact push_length (Or.inl hp)
  · intro data wait index q1 d1 hp; exact push_length (Or.inr hp)
  · intro data index q1 d1 hp; exact pull_length hp
  · intro w index q1 w1 hp; exact free_length hp
  · intro w index q1 w1 hp; exact clearBuffer_length hp
  · intro data wb ws; exact holdNext_length q data wb ws
  · intro w; exact clearAll_length q w
  · intro w; rfl
  · intro w waitTime periods count q1 w1 hp; exact waitRelease_length hp

theorem holdNext_none (q : BufferQueue) (out : Frame) (wb ws : Bool)
    (h : ∀ e ∈ q.mElements, ¬ e.mStatus < FREE) :
    q.holdNext out wb ws
      = { ret := INFO_TRY_AGAIN_LATER, q := q, data := out, buffer := none, size := none } := by
  rcases holdScan_spec q.mElements 0 FREE none with ⟨h1, _, _⟩ | ⟨j, e, _, h2, _, h4, _, _⟩
  · simp only [holdNext, h1]
  · exact absurd h4 (h e (List.getElem?_mem h2))

/-- C13: when no slot is sequenced (in particular when every slot is `FREE` or
held) `holdNext` returns `INFO_TRY_AGAIN_LATER`, that is -1, and leaves the
queue and the caller's frame as they were, storing nothing through `buffer`
and `size`; and in every state a call that returns anything else returns the
index of a slot that was sequenced, so neither `FREE` nor held. -/
theorem holdNext_only_sequenced (q : BufferQueue) (out : Frame) (wb ws : Bool) :
    ((∀ e ∈ q.mElements, ¬ Sequenced e) →
      q.holdNext out wb ws
        = { ret := -1, q := q, data := out, buffer := none, size := none }) ∧
    ((∀ e ∈ q.mElements, e.mStatus = FREE ∨ e.mStatus = HOLDED) →
      ∀ e ∈ q.mElements, ¬ Sequenced e) ∧
    ((q.holdNext out wb ws).ret ≠ -1 →
      ∃ (j : Nat) (e : DataElement), (q.holdNext out wb ws).ret = (j : Int) ∧
        q.mElements[j]? = some e ∧ Sequenced e ∧ e.mStatus ≠ FREE ∧ e.mStatus ≠ HOLDED) := by
  refine ⟨fun h => holdNext_none q out wb ws h, ?_, ?_⟩
  · intro h e he
    unfold Sequenced
    rcases h e he with h1 | h1 <;> rw [h1] <;> decide
  · intro hret
    by_cases hs : ∃ e ∈ q.mElements, e.mStatus < FREE
    · obtain ⟨j, e, h1, h2, _, _, h5⟩ := holdNext_eq q out wb ws hs
      refine ⟨j, e, by rw [h5], h1, h2, ?_, ?_⟩
      · exact Nat.ne_of_lt h2
      · intro h; rw [h] at h2; revert h2; decide
    · exfalso
      apply hret
      rw [holdNext_none q out wb ws (fun e he hlt => hs ⟨e, he, hlt⟩)]
      rfl

theorem capacity_invariant_witness :
    Reachable 2
      { mMediaQueue := [],
        mElements := [{ mData := handleFrame, mStatus := 0 }, DataElement.new],
        mCount := 1 } ∧
    ({ mMediaQueue := [],
       mElements := [{ mData := handleFrame, mStatus := 0 }, DataElement.new],
       mCount := 1 } : BufferQueue).capacity = (2 : Int).toNat ∧
    ({ mMediaQueue := [],
       mElements := [{ mData := handleFrame, mStatus := 0 }, DataElement.new],
       mCount := 1 } : BufferQueue).size
      ≤ ({ mMediaQueue := [],
           mElements := [{ mData := handleFrame, mStatus := 0 }, DataElement.new],
           mCount := 1 } : BufferQueue).capacity :=
  have hr : Reachable 2
      { mMediaQueue := [],
        mElements := [{ mData := handleFrame, mStatus := 0 }, DataElement.new],
        mCount := 1 } :=
    @Reachable.push 2 (BufferQueue.new 2) _ handleFrame Frame.new 0 Reachable.init (by decide)
  ⟨hr, (capacity_invariant 2 _ hr).1, (capacity_invariant 2 _ hr).2.2.1⟩

theorem holdNext_only_sequenced_witness :
    ((∀ e ∈ idleQueue.mElements, ¬ Sequenced e) ∧
      (∀ e ∈ idleQueue.mElements, e.mStatus = FREE ∨ e.mStatus = HOLDED)) ∧
    idleQueue.holdNext Frame.new true true
      = { ret := -1, q := idleQueue, data := Frame.new, buffer := none, size := none } ∧
    ((readyQueue.holdNext Frame.new true true).ret ≠ -1 ∧
      ∃ (j : Nat) (e : DataElement), (readyQueue.holdNext Frame.new true true).ret = (j : Int) ∧
        readyQueue.mElements[j]? = some e ∧ Sequenced e ∧ e.mStatus ≠ FREE ∧
        e.mStatus ≠ HOLDED) :=
  ⟨⟨by decide, by decide⟩,
    (holdNext_only_sequenced idleQueue Frame.new true true).1 (by decide),
    by decide,
    (holdNext_only_sequenced readyQueue Frame.new true true).2.2 (by decide)⟩

/-! ## Decoder: `flush` and `waitAndPopInputBuffer` -/

theorem copy_sentinel (status : Int) (w : World) :
    Frame.copy { Frame.new with mStatus := status } w
      = some ({ Frame.new with mStatus := status }, w) := by
  simp [Frame.copy, Frame.assign, Frame.new]

theorem signalEOF_eq (c : Codes) (d : Decoder) (w : World) :
    d.signalEOF c w
      = some ({ d with
                mInQueue := d.mInQueue ++ [{ Frame.new with mStatus := c.ERROR_END_OF_STREAM }] },
              w) := by
  simp only [Decoder.signalEOF, Decoder.pushBack, copy_sentinel, Option.map_some']
  simp [Frame.clearBuffers, Frame.new]

/-- C17: `flush()` always returns; it sets `mFlushNeeded`, appends one empty
frame with status `ERROR_END_OF_STREAM` at the tail of the input queue and
leaves every other member of the decoder (the frames already queued, the
interrupt and skip flags, the output pool) and the world unchanged. -/
theorem flush_spec (c : Codes) (d : Decoder) (w : World) :
    ∃ f : Frame,
      d.flush c w = some ({ d with mFlushNeeded := true, mInQueue := d.mInQueue ++ [f] }, w) ∧
      f.empty = true ∧ f.mBuffer = 0 ∧ f.mMediaBuffer = 0 ∧
      f.mStatus = c.ERROR_END_OF_STREAM ∧
      ∀ d1 w1, d.flush c w = some (d1, w1) →
        d1.mFlushNeeded = true ∧ d1.mInQueue = d.mInQueue ++ [f] ∧
        d1.mInterrupted = d.mInterrupted ∧ d1.mNeedSkip = d.mNeedSkip ∧
        d1.mOutQueue = d.mOutQueue ∧ w1 = w := by
  have h : d.flush c w
      = some ({ d with mFlushNeeded := true,
                       mInQueue := d.mInQueue ++ [{ Frame.new with mStatus := c.ERROR_END_OF_STREAM }] },
              w) := by
    unfold Decoder.flush
    rw [signalEOF_eq]
  refine ⟨{ Frame.new with mStatus := c.ERROR_END_OF_STREAM }, h, rfl, rfl, rfl, rfl, ?_⟩
  intro d1 w1 h1
  rw [h] at h1
  simp only [Option.some.injEq, Prod.mk.injEq] at h1
  obtain ⟨hd, hw⟩ := h1
  subst hd; subst hw
  exact ⟨rfl, rfl, rfl, rfl, rfl, rfl⟩

/-- C16: with an empty input queue and the interrupt flag set,
`waitAndPopInputBuffer(frame)` returns at once the status `frame` carries and
changes neither `frame`, nor the decoder (the queue stays empty), nor the
world; with a non-empty queue it returns the head's status, `frame` becomes
the head, and the queue loses exactly its head. -/
theorem waitAndPop_spec (d : Decoder) (frame : Frame) (w : World) :
    (d.mInQueue = [] → d.mInterrupted = true →
      d.waitAndPopInputBuffer frame w = .done (frame.mStatus, d, frame, w)) ∧
    (∀ (head : Frame) (rest : List Frame), d.mInQueue = head :: rest →
      d.waitAndPopInputBuffer frame w
        = .done (head.mStatus, { d with mInQueue := rest }, head,
            (frame.clearBuffers none w).2.2)) := by
  constructor
  · intro h1 h2
    simp [Decoder.waitAndPopInputBuffer, h1, h2]
  · intro head rest h
    simp [Decoder.waitAndPopInputBuffer, h, Frame.swap_eq]

theorem waitAndPop_spec_witness :
    (interruptedDecoder.mInQueue = [] ∧ interruptedDecoder.mInterrupted = true ∧
      twoQueued.mInQueue
        = bytesFrame 3 :: [{ Frame.new with mStatus := androidCodes.ERROR_END_OF_STREAM }]) ∧
    interruptedDecoder.waitAndPopInputBuffer handleFrame World.empty
      = .done (handleFrame.mStatus, interruptedDecoder, handleFrame, World.empty) ∧
    twoQueued.waitAndPopInputBuffer Frame.new World.empty
      = .done ((bytesFrame 3).mStatus,
          { twoQueued with
            mInQueue := [{ Frame.new with mStatus := androidCodes.ERROR_END_OF_STREAM }] },
          bytesFrame 3, (Frame.new.clearBuffers none World.empty).2.2) :=
  ⟨⟨rfl, rfl, rfl⟩,
    (waitAndPop_spec interruptedDecoder handleFrame World.empty).1 rfl rfl,
    (waitAndPop_spec twoQueued Frame.new World.empty).2 _ _ rfl⟩

/-! ## Decoder: `dequeueOutputBuffer` -/

theorem pull_eq (q : BufferQueue) (data : Frame) (i : Nat) (e : DataElement)
    (hi : q.mElements[i]? = some e) (hs : e.mStatus = HOLDED) :
    q.pull data i
      = some ({ q with mElements := q.mElements.set i { mData := data, mStatus := FREE } },
              e.mData) := by
  have hlt := slot_lt hi
  simp only [BufferQueue.pull, index_guard _ _ hlt, if_false, Int.toNat_ofNat, hi, hs, ne_eq,
    not_true_eq_false, Frame.swap_eq]

theorem dequeue_none (c : Codes) (d : Decoder) (w : World)
    (h1 : c.ERROR_END_OF_STREAM ≠ OK) (h2 : c.INFO_FORMAT_CHANGED ≠ OK)
    (hs : ∀ e ∈ d.mOutQueue.mElements, ¬ e.mStatus < FREE) :
    ∃ r, d.dequeueOutputBuffer c w = some r ∧ r.ret = -1 ∧ r.d = d ∧ r.w = w := by
  have h1' : ¬ (OK = c.ERROR_END_OF_STREAM) := fun h => h1 h.symm
  have h2' : ¬ (OK = c.INFO_FORMAT_CHANGED) := fun h => h2 h.symm
  cases hb : d.mRenderer.isSome with
  | false =>
    refine ⟨_, by simp only [Decoder.dequeueOutputBuffer, hb, Bool.false_eq_true, if_false,
      holdNext_none _ _ _ _ hs]; rfl, ?_, rfl, ?_⟩
    · simp [Frame.new, h1', h2', INFO_TRY_AGAIN_LATER]
    · simp [Frame.clearBuffers, Frame.new]
  | true =>
    refine ⟨_, by simp only [Decoder.dequeueOutputBuffer, hb, if_true,
      holdNext_none _ _ _ _ hs, Frame.new, h2, if_false]; rfl, ?_, rfl, ?_⟩
    · simp [h1', h2', INFO_TRY_AGAIN_LATER]
    · simp [Frame.clearBuffers]

theorem dequeue_some (c : Codes) (d : Decoder) (w : World)
    (hs : ∃ e ∈ d.mOutQueue.mElements, e.mStatus < FREE) :
    ∃ (j : Nat) (e : DataElement) (r : Decoder.DequeueResult),
      d.mOutQueue.mElements[j]? = some e ∧ e.mStatus < FREE ∧
      (∀ (t : Nat) (e1 : DataElement), d.mOutQueue.mElements[t]? = some e1 →
        e.mStatus ≤ e1.mStatus) ∧
      (∀ (t : Nat) (e1 : DataElement), t < j → d.mOutQueue.mElements[t]? = some e1 →
        e.mStatus < e1.mStatus) ∧
      d.dequeueOutputBuffer c w = some r ∧
      r.ret = (if e.mData.mStatus = c.ERROR_END_OF_STREAM then INFO_OUTPUT_END_OF_STREAM
               else if e.mData.mStatus = c.INFO_FORMAT_CHANGED then INFO_OUTPUT_FORMAT_CHANGED
               else (j : Int)) ∧
      r.pts = e.mData.mPts ∧
      r.d = { d with mOutQueue := { d.mOutQueue with
                mElements := d.mOutQueue.mElements.set j
                  (if d.mRenderer.isSome = true ∧ e.mData.mStatus = c.INFO_FORMAT_CHANGED then
                    { mData := { Frame.new with mStatus := e.mData.mStatus, mPts := e.mData.mPts },
                      mStatus := FREE }
                   else { e with mStatus := HOLDED }) } } ∧
      r.w = (if d.mRenderer.isSome = true ∧ e.mData.mStatus = c.INFO_FORMAT_CHANGED then
              (e.mData.clearBuffers none w).2.2
             else w) ∧
      r.data = some (if e.mData.mMediaBuffer ≠ 0 then e.mData.mMediaBuffer else e.mData.mBuffer) ∧
      r.size = some (if d.mRenderer.isSome = true then 0 else toSizeT e.mData.mSize) := by
  have hcl : ∀ (s p : Int),
      (({ Frame.new with mStatus := s, mPts := p } : Frame).clearBuffers none w).2.2 = w := by
    intro s p
    simp [Frame.clearBuffers, Frame.new]
  cases hb : d.mRenderer.isSome with
  | false =>
    obtain ⟨j, e, g1, g2, g3, g4, g5⟩ := holdNext_eq d.mOutQueue Frame.new true true hs
    refine ⟨j, e, _, g1, g2, g3, g4,
      by simp only [Decoder.dequeueOutputBuffer, hb, Bool.false_eq_true, if_false, g5]; rfl,
      rfl, rfl, ?_, ?_, ?_, ?_⟩
    · simp only [Bool.false_eq_true, false_and, if_false]
    · simp only [Bool.false_eq_true, false_and, if_false]
      exact hcl _ _
    · simp only [if_true]
    · simp only [Bool.false_eq_true, if_false, if_true]
  | true =>
    obtain ⟨j, e, g1, g2, g3, g4, g5⟩ := holdNext_eq d.mOutQueue Frame.new true false hs
    have hlt := slot_lt g1
    by_cases hf : c.INFO_FORMAT_CHANGED = e.mData.mStatus
    · have hslot : (d.mOutQueue.mElements.set j { e with mStatus := HOLDED })[j]?
          = some { e with mStatus := HOLDED } := List.getElem?_set_self hlt
      have hp := pull_eq { d.mOutQueue with
          mElements := d.mOutQueue.mElements.set j { e with mStatus := HOLDED } }
        { Frame.new with mStatus := e.mData.mStatus, mPts := e.mData.mPts } j
        { e with mStatus := HOLDED } hslot rfl
      refine ⟨j, e, _, g1, g2, g3, g4,
        by simp only [Decoder.dequeueOutputBuffer, hb, if_true, g5, hf, hp]; rfl,
        by simp [← hf], rfl, ?_, ?_, ?_, ?_⟩
      · simp only [hf.symm, and_self, if_true, List.set_set]
      · simp only [hf.symm, and_self, if_true]
      · simp only [if_true]
      · simp only [if_true]
    · have hf2 : ¬ (e.mData.mStatus = c.INFO_FORMAT_CHANGED) := fun h => hf h.symm
      refine ⟨j, e, _, g1, g2, g3, g4,
        by simp only [Decoder.dequeueOutputBuffer, hb, if_true, g5, hf, if_false]; rfl,
        rfl, rfl, ?_, ?_, ?_, ?_⟩
      · simp only [hf2, and_false, if_false]
      · simp only [hf2, and_false, if_false]
        exact hcl _ _
      · simp only [if_true]
      · simp only [if_true]

/-- C15, as the code has it: without decoder source the limit is 50 frames, not
`IN_BUFFER_COUNT`. Once the frame is built, `queueInputBuffer` returns false
and appends nothing when the input queue already holds 50 frames or more, and
it appends a copy of the frame at the tail and returns true when the queue
holds fewer than 50 frames; neither case waits. -/
theorem no_source_limit (c : Codes) (d : Decoder) (w : World) (index : Int) (data : Ptr)
    (size : Nat) (pts : Int) (flags : Nat) (waits : List (List Decoder.WaitTick))
    (frame : Frame) (w1 : World) (hsrc : d.mDecoderSource = none)
    (hframe : Frame.ofBytes w
        (if flags &&& c.OMX_BUFFERFLAG_ENDOFFRAME ≠ 0 then c.INFO_DISCONTINUITY else OK)
        data size pts flags = some (frame, w1))
    (hlen : d.mInQueue.length < 2 ^ 31) :
    (50 ≤ d.mInQueue.length →
      d.queueInputBuffer c w index data size pts flags waits
        = .done { ret := false, d := d, w := (frame.clearBuffers none w1).2.2, taken := [],
                  pushed := [] }) ∧
    (d.mInQueue.length < 50 →
      ∀ (copy : Frame) (w2 : World), Frame.copy frame w1 = some (copy, w2) →
        d.queueInputBuffer c w index data size pts flags waits
          = .done { ret := true, d := { d with mInQueue := d.mInQueue ++ [copy] },
                    w := (frame.clearBuffers none w2).2.2, taken := [], pushed := [copy] }) := by
  have hq : toInt32 d.mInQueue.length = (d.mInQueue.length : Int) := toInt32_small hlen
  constructor
  · intro h50
    have : ¬ ((d.mInQueue.length : Int) < 50) := by omega
    simp only [Decoder.queueInputBuffer, hframe, hsrc, if_true, hq, this, if_false]
  · intro h50 copy w2 hcopy
    have : (d.mInQueue.length : Int) < 50 := by omega
    simp only [Decoder.queueInputBuffer, hframe, hsrc, if_true, hq, this, Decoder.pushBack,
      hcopy, Option.map_some']

theorem no_source_limit_witness :
    (fiftyQueued.mDecoderSource = none ∧ fourQueued.mDecoderSource = none ∧
      fiftyQueued.mInQueue.length < 2 ^ 31 ∧ fourQueued.mInQueue.length < 2 ^ 31 ∧
      50 ≤ fiftyQueued.mInQueue.length ∧ fourQueued.mInQueue.length < 50 ∧
      Frame.ofBytes sourceWorld
        (if 0 &&& androidCodes.OMX_BUFFERFLAG_ENDOFFRAME ≠ 0 then androidCodes.INFO_DISCONTINUITY
         else OK) 50 5 9 0
        = some (builtFrame, builtWorld) ∧
      Frame.copy builtFrame builtWorld = some (copiedFrame, copiedWorld)) ∧
    fiftyQueued.queueInputBuffer androidCodes sourceWorld 0 50 5 9 0 []
      = .done { ret := false, d := fiftyQueued,
                w := (builtFrame.clearBuffers none builtWorld).2.2, taken := [], pushed := [] } ∧
    fourQueued.queueInputBuffer androidCodes sourceWorld 0 50 5 9 0 []
      = .done { ret := true,
                d := { fourQueued with mInQueue := fourQueued.mInQueue ++ [copiedFrame] },
                w := (builtFrame.clearBuffers none copiedWorld).2.2,
                taken := [], pushed := [copiedFrame] } :=
  ⟨⟨rfl, rfl, by decide, by decide, by decide, by decide, by decide, by decide⟩,
    (no_source_limit androidCodes fiftyQueued sourceWorld 0 50 5 9 0 [] builtFrame builtWorld
      rfl (by decide) (by decide)).1 (by decide),
    (no_source_limit androidCodes fourQueued sourceWorld 0 50 5 9 0 [] builtFrame builtWorld
      rfl (by decide) (by decide)).2 (by decide) copiedFrame copiedWorld (by decide)⟩

/-- C15 fails as stated: `fourQueued` has no decoder source and four frames in
its input queue; `queueInputBuffer` of a fifth frame returns true and the
queue then holds five frames, the last one a copy of the new frame. -/
theorem fifth_frame_accepted :
    fourQueued.mDecoderSource = none ∧ fourQueued.mInQueue.length = 4 ∧
    fourQueued.queueInputBuffer androidCodes sourceWorld 0 50 5 9 0 []
      = .done { ret := true,
                d := { fourQueued with
                       mInQueue := fourQueued.mInQueue ++ [copiedFrame] },
                w := { heap := [(52, [1, 2, 3, 4, 5]), (50, [1, 2, 3, 4, 5])], brk := 52,
                       freed := [51], released := [] },
                taken := [], pushed := [copiedFrame] } := by
  refine ⟨rfl, rfl, ?_⟩
  decide

open Decoder

/-! ## Decoder: order of the input queue -/

theorem pushBack_eq {q q1 : List Frame} {f copy : Frame} {w w1 : World}
    (h : pushBack q f w = some (q1, w1, copy)) : q1 = q ++ [copy] := by
  unfold pushBack at h
  cases hc : Frame.copy f w with
  | none => rw [hc] at h; simp at h
  | some r =>
    rw [hc] at h
    simp only [Option.map_some', Option.some.injEq, Prod.mk.injEq] at h
    rw [← h.1, ← h.2.2]

theorem waitLoop_inv (waitMs : Int) (ticks : List WaitTick) :
    ∀ (res : Int) (q taken : List Frame) (res1 : Int) (rc : Nat) (q1 taken1 : List Frame),
      waitLoop waitMs ticks res q taken = some (res1, rc, q1, taken1) →
      taken1 ++ q1 = taken ++ q := by
  induction ticks with
  | nil => intro res q taken res1 rc q1 taken1 h; simp [waitLoop] at h
  | cons t ts ih =>
    intro res q taken res1 rc q1 taken1 h
    by_cases h1 : t.ready > 0
    · simp only [waitLoop, h1, if_true, Option.some.injEq, Prod.mk.injEq] at h
      rw [← h.2.2.1, ← h.2.2.2]
    · by_cases h2 : wrap32 (waitMs - t.period) ≤ 0
      · simp only [waitLoop, h1, h2, if_true, if_false, Option.some.injEq, Prod.mk.injEq] at h
        rw [← h.2.2.1, ← h.2.2.2]
      · by_cases h3 : t.waitRes = OK
        · simp only [waitLoop, h1, h2, h3, if_true, if_false, Option.some.injEq,
            Prod.mk.injEq] at h
          rw [← h.2.2.1, ← h.2.2.2, List.append_assoc, List.take_append_drop]
        · simp only [waitLoop, h1, h2, h3, if_false] at h
          rw [ih _ _ _ _ _ _ _ h, List.append_assoc, List.take_append_drop]

theorem waitReadOrOutput_inv {c : Codes} {waitMs : Int} {ticks : List WaitTick}
    {q q1 tk : List Frame} {res : Int} {rc : Nat}
    (h : waitReadOrOutput c waitMs ticks q = some (res, rc, q1, tk)) : tk ++ q1 = q := by
  have := waitLoop_inv waitMs ticks _ _ _ _ _ _ _ h
  simpa using this

theorem skipLoop_inv (c : Codes) (sleep : Int) (waits : List (List WaitTick)) :
    ∀ (q taken : List Frame) (ready : Bool) (q1 taken1 : List Frame)
      (rest : List (List WaitTick)),
      skipLoop c sleep waits q taken = .done (ready, q1, taken1, rest) →
      taken1 ++ q1 = taken ++ q := by
  induction waits with
  | nil => intro q taken ready q1 taken1 rest h; simp [skipLoop] at h
  | cons ticks more ih =>
    intro q taken ready q1 taken1 rest h
    unfold skipLoop at h
    cases hw : waitReadOrOutput c sleep ticks q with
    | none => rw [hw] at h; simp at h
    | some r =>
      obtain ⟨res, rc, q2, tk⟩ := r
      rw [hw] at h
      have hi := waitReadOrOutput_inv hw
      simp only at h
      split_ifs at h with h1 h2
      · simp only [Outcome.done.injEq, Prod.mk.injEq] at h
        rw [← h.2.1, ← h.2.2.1, List.append_assoc, hi]
      · simp only [Outcome.done.injEq, Prod.mk.injEq] at h
        rw [← h.2.1, ← h.2.2.1, List.append_assoc, hi]
      · rw [ih _ _ _ _ _ _ h, List.append_assoc, hi]

theorem queueReturn_inv {c : Codes} {d : Decoder} {w : World} {frame : Frame} {sleep : Int}
    {result : Bool} {taken pushed : List Frame} {waits : List (List WaitTick)}
    {r : QueueResult}
    (h : queueReturn c d w frame sleep result taken pushed waits = .done r) :
    r.taken ++ r.d.mInQueue = taken ++ d.mInQueue ∧ r.pushed = pushed ∧ r.ret = result := by
  unfold queueReturn at h
  cases waits with
  | nil => simp at h
  | cons ticks rest =>
    simp only at h
    cases hw : waitReadOrOutput c sleep ticks d.mInQueue with
    | none => rw [hw] at h; simp at h
    | some x =>
      obtain ⟨res, rc, q1, tk⟩ := x
      rw [hw] at h
      simp only [Outcome.done.injEq] at h
      rw [← h]
      simp only [List.append_assoc, waitReadOrOutput_inv hw, and_self]

theorem queueAppend_inv {c : Codes} {d : Decoder} {w : World} {frame : Frame} {sleep : Int}
    {taken : List Frame} {waits : List (List WaitTick)} {r : QueueResult}
    (h : queueAppend c d w frame sleep taken waits = .done r) :
    r.taken ++ r.d.mInQueue = taken ++ d.mInQueue ++ r.pushed ∧ r.pushed.length ≤ 1 ∧
    (r.ret = true ↔ r.pushed.length = 1) := by
  unfold queueAppend at h
  by_cases h1 : toInt32 d.mInQueue.length < IN_BUFFER_COUNT
  · simp only [h1, if_true] at h
    cases hp : pushBack d.mInQueue frame w with
    | none => rw [hp] at h; simp at h
    | some x =>
      obtain ⟨q1, w1, copy⟩ := x
      rw [hp] at h
      obtain ⟨g1, g2, g3⟩ := queueReturn_inv h
      rw [g1, g2, g3]
      simp [pushBack_eq hp]
  · simp only [h1, if_false] at h
    obtain ⟨g1, g2, g3⟩ := queueReturn_inv h
    rw [g1, g2, g3]
    simp

theorem queueSettle_inv {c : Codes} {d : Decoder} {w : World} {frame : Frame} {sleep : Int}
    {taken : List Frame} {waits : List (List WaitTick)} {r : QueueResult}
    (h : queueSettle c d w frame sleep taken waits = .done r) :
    r.taken ++ r.d.mInQueue = taken ++ d.mInQueue ++ r.pushed ∧ r.pushed.length ≤ 1 ∧
    (r.ret = true ↔ r.pushed.length = 1) := by
  unfold queueSettle at h
  by_cases h1 : toInt32 d.mInQueue.length = IN_BUFFER_COUNT
  · simp only [h1, if_true] at h
    cases waits with
    | nil => simp at h
    | cons ticks rest =>
      simp only at h
      cases hw : waitReadOrOutput c sleep ticks d.mInQueue with
      | none => rw [hw] at h; simp at h
      | some x =>
        obtain ⟨res, rc, q1, tk⟩ := x
        rw [hw] at h
        have hi := waitReadOrOutput_inv hw
        by_cases h2 : res ≠ OK ∧ rc > 0
        · simp only at h
          rw [if_pos h2] at h
          simp only [Outcome.done.injEq] at h
          rw [← h]
          simp [hi]
        · simp only at h
          rw [if_neg h2] at h
          obtain ⟨g1, g2, g3⟩ := queueAppend_inv h
          refine ⟨?_, g2, g3⟩
          rw [g1]
          simp only [List.append_assoc, List.append_cancel_left_eq]
          rw [← List.append_assoc, hi]
  · simp only [h1, if_false] at h
    obtain ⟨g1, g2, g3⟩ := queueAppend_inv h
    exact ⟨g1, g2, g3⟩

theorem queueInputBuffer_inv {c : Codes} {d : Decoder} {w : World} {index : Int} {data : Ptr}
    {size : Nat} {pts : Int} {flags : Nat} {waits : List (List WaitTick)} {r : QueueResult}
    (h : d.queueInputBuffer c w index data size pts flags waits = .done r) :
    r.taken ++ r.d.mInQueue = d.mInQueue ++ r.pushed ∧ r.pushed.length ≤ 1 ∧
    (r.ret = true ↔ r.pushed.length = 1) := by
  unfold queueInputBuffer at h
  cases hf : Frame.ofBytes w
      (if flags &&& c.OMX_BUFFERFLAG_ENDOFFRAME ≠ 0 then c.INFO_DISCONTINUITY else OK)
      data size pts flags with
  | none => simp only [hf] at h; cases h
  | some x =>
    obtain ⟨frame, w1⟩ := x
    simp only [hf] at h
    by_cases h1 : d.mDecoderSource = none
    · simp only [h1, if_true] at h
      by_cases h2 : toInt32 d.mInQueue.length < 50
      · simp only [h2, if_true] at h
        cases hp : pushBack d.mInQueue frame w1 with
        | none => rw [hp] at h; cases h
        | some y =>
          obtain ⟨q1, w2, copy⟩ := y
          rw [hp] at h
          simp only [Outcome.done.injEq] at h
          rw [← h]
          simp [pushBack_eq hp]
      · simp only [h2, if_false, Outcome.done.injEq] at h
        rw [← h]
        simp
    · simp only [h1, if_false] at h
      by_cases h3 : toInt32 d.mInQueue.length > IN_BUFFER_COUNT
      · simp only [h3, if_true] at h
        cases hs : skipLoop c (2 * s_frameDisplayTimeMsec + 5) waits d.mInQueue [] with
        | waiting => rw [hs] at h; cases h
        | fault => rw [hs] at h; cases h
        | done y =>
          obtain ⟨ready, q1, taken, rest⟩ := y
          rw [hs] at h
          have hi := skipLoop_inv _ _ _ _ _ _ _ _ _ hs
          simp only [List.nil_append] at hi
          cases ready with
          | true =>
            simp only [if_true] at h
            cases hp : pushBack q1 frame w1 with
            | none => rw [hp] at h; cases h
            | some z =>
              obtain ⟨q2, w2, copy⟩ := z
              rw [hp] at h
              simp only [Outcome.done.injEq] at h
              rw [← h]
              simp [pushBack_eq hp, ← hi]
          | false =>
            simp only [Bool.false_eq_true, if_false] at h
            obtain ⟨g1, g2, g3⟩ := queueSettle_inv h
            refine ⟨?_, g2, g3⟩
            rw [g1]
            simp only [hi]
      · simp only [h3, if_false] at h
        obtain ⟨g1, g2, g3⟩ := queueSettle_inv h
        refine ⟨?_, g2, g3⟩
        rw [g1]
        simp

theorem inputStep_inv {c : Codes} {call : InCall} {d : Decoder} {w : World} {t : InTrace}
    (h : inputStep c call d w = .done t) :
    d.mInQueue ++ t.appended = t.delivered ++ t.d.mInQueue := by
  cases call with
  | queue index data size pts flags waits =>
    unfold inputStep at h
    cases hq : d.queueInputBuffer c w index data size pts flags waits with
    | waiting => simp only [hq] at h; cases h
    | fault => simp only [hq] at h; cases h
    | done r =>
      simp only [hq, Outcome.done.injEq] at h
      rw [← h]
      exact (queueInputBuffer_inv hq).1.symm
  | eof =>
    unfold inputStep at h
    simp only [signalEOF_eq, Outcome.done.injEq] at h
    rw [← h]
    simp
  | pop out =>
    unfold inputStep at h
    cases hq : d.mInQueue with
    | nil =>
      by_cases hi : d.mInterrupted = true
      · simp only [waitAndPopInputBuffer, hq, hi, if_true, Outcome.done.injEq] at h
        rw [← h]
        simp [hq]
      · simp only [waitAndPopInputBuffer, hq, hi, if_false] at h
        cases h
    | cons head rest =>
      simp only [waitAndPopInputBuffer, hq, Frame.swap_eq, Outcome.done.injEq] at h
      rw [← h]
      simp

theorem inputRun_inv (c : Codes) (calls : List InCall) :
    ∀ (d : Decoder) (w : World) (t : InTrace), inputRun c calls d w = .done t →
      d.mInQueue ++ t.appended = t.delivered ++ t.d.mInQueue := by
  induction calls with
  | nil =>
    intro d w t h
    simp only [inputRun, Outcome.done.injEq] at h
    rw [← h]
    simp
  | cons call rest ih =>
    intro d w t h
    unfold inputRun at h
    cases hs : inputStep c call d w with
    | waiting => simp only [hs] at h; cases h
    | fault => simp only [hs] at h; cases h
    | done t0 =>
      simp only [hs] at h
      cases hr : inputRun c rest t0.d t0.w with
      | waiting => simp only [hr] at h; cases h
      | fault => simp only [hr] at h; cases h
      | done t1 =>
        simp only [hr, Outcome.done.injEq] at h
        rw [← h]
        have g0 := inputStep_inv hs
        have g1 := ih _ _ _ hr
        simp only
        rw [← List.append_assoc, g0, List.append_assoc, g1, List.append_assoc]

theorem popRun (c : Codes) (outs : List Frame) :
    ∀ (d : Decoder) (w : World), outs.length ≤ d.mInQueue.length →
      ∃ t, inputRun c (outs.map InCall.pop) d w = .done t ∧
        t.delivered = d.mInQueue.take outs.length ∧
        t.d.mInQueue = d.mInQueue.drop outs.length ∧ t.appended = [] := by
  induction outs with
  | nil =>
    intro d w _
    exact ⟨_, rfl, by simp, by simp, rfl⟩
  | cons o os ih =>
    intro d w hl
    cases hq : d.mInQueue with
    | nil => rw [hq] at hl; simp at hl
    | cons head rest =>
      rw [hq] at hl
      simp only [List.length_cons] at hl
      obtain ⟨t1, g1, g2, g3, g4⟩ := ih { d with mInQueue := rest }
        ((o.clearBuffers none w).2.2) (by simpa using Nat.le_of_succ_le_succ hl)
      refine ⟨{ t1 with appended := [] ++ t1.appended, delivered := [head] ++ t1.delivered },
        ?_, ?_, ?_, ?_⟩
      · simp only [List.map_cons, inputRun, inputStep, waitAndPopInputBuffer, hq, Frame.swap_eq,
          g1, List.isEmpty_cons, Bool.false_eq_true, if_false]
      · simp [g2]
      · simp [g3]
      · simp [g4]

/-- C14: whatever sequence of `queueInputBuffer`, `signalEOF` and
`waitAndPopInputBuffer` calls has returned, the frames delivered so far followed
by the frames still queued are the frames queued at the start followed by the
frames appended, in the order appended: frames leave the queue in the order
they entered it, sentinels included. `signalEOF` always appends its sentinel at
the tail, and `k` successive `waitAndPopInputBuffer` calls on a queue of at
least `k` frames all return and deliver its first `k` frames, one per call. -/
theorem input_fifo (c : Codes) (calls : List InCall) (d : Decoder) (w : World) :
    (∀ t, inputRun c calls d w = .done t →
      d.mInQueue ++ t.appended = t.delivered ++ t.d.mInQueue) ∧
    (∀ outs : List Frame, outs.length ≤ d.mInQueue.length →
      ∃ t, inputRun c (outs.map InCall.pop) d w = .done t ∧
        t.delivered = d.mInQueue.take outs.length ∧
        t.d.mInQueue = d.mInQueue.drop outs.length ∧ t.appended = []) ∧
    (∃ t, inputStep c .eof d w = .done t ∧
      t.appended = [{ Frame.new with mStatus := c.ERROR_END_OF_STREAM }] ∧ t.delivered = [] ∧
      t.d.mInQueue = d.mInQueue ++ [{ Frame.new with mStatus := c.ERROR_END_OF_STREAM }]) := by
  refine ⟨inputRun_inv c calls d w, fun outs h => popRun c outs d w h, ?_⟩
  refine ⟨{ d := { d with mInQueue :=
                d.mInQueue ++ [{ Frame.new with mStatus := c.ERROR_END_OF_STREAM }] },
            w := w,
            appended := (d.mInQueue ++ [{ Frame.new with mStatus := c.ERROR_END_OF_STREAM }]).drop
              d.mInQueue.length,
            delivered := [] }, ?_, ?_, rfl, rfl⟩
  · simp only [inputStep, signalEOF_eq]
  · simp

theorem input_fifo_witness :
    (inputRun androidCodes sampleCalls Decoder.new sourceWorld = .done sampleTrace ∧
      [Frame.new, Frame.new].length ≤ twoQueued.mInQueue.length) ∧
    Decoder.new.mInQueue ++ sampleTrace.appended
      = sampleTrace.delivered ++ sampleTrace.d.mInQueue ∧
    sampleTrace.delivered = sampleFrames ∧
    ∃ t, inputRun androidCodes ([Frame.new, Frame.new].map InCall.pop) twoQueued World.empty
        = .done t ∧
      t.delivered = twoQueued.mInQueue.take [Frame.new, Frame.new].length ∧
      t.d.mInQueue = twoQueued.mInQueue.drop [Frame.new, Frame.new].length ∧
      t.appended = [] :=
  ⟨⟨by decide, by decide⟩,
    (input_fifo androidCodes sampleCalls Decoder.new sourceWorld).1 sampleTrace (by decide),
    rfl,
    (input_fifo androidCodes [] twoQueued World.empty).2.1 [Frame.new, Frame.new] (by decide)⟩

/-- C19: for `video/avc` with a native window, when both calls of
`OMXCodec::Create` yield no decoder source, `createDecoderByType` returns true
and `run` is called once, the decoder being left without decoder source. -/
theorem video_create_failure_accepted :
    windowContext.createDecoderByType androidCodes World.empty mimeVideoAvc none none OK
      = .done (true,
          { mDecoder := some { Decoder.new with
              mRenderer := some { hasWindow := true, swRendering := false },
              mVideoWidth := 640, mVideoHeight := 480, mMimeType := mimeVideoAvc,
              mTrack := true, mDecoderSource := none, runCalls := 1 } },
          World.empty) := by
  decide

/-- C20, as the code has it: in delayed-open mode `queueInputBuffer` of a
payload without the codec-configuration flag returns false and changes
nothing, so nothing is staged, no decoder is constructed and `run` is not
called; `dequeueOutputBuffer` returns `INFO_TRY_AGAIN_LATER` at once and
changes nothing when no slot of the output pool is sequenced; and
`createDecoderByType` with an `audio/` MIME type only records the type and
enters the mode, without touching the decoder source, the queues or `run`. -/
theorem delayed_open_spec (c : Codes) (ctx : StagefrightContext) (d : Decoder) (w : World)
    (hctx : ctx.mDecoder = some d) (hmode : d.mDelayedOpen = true)
    (h1 : c.ERROR_END_OF_STREAM ≠ OK) (h2 : c.INFO_FORMAT_CHANGED ≠ OK) :
    (∀ (index : Int) (data : Ptr) (size : Nat) (pts : Int) (flags : Nat)
        (waits : List (List WaitTick)) (c1 c2 : Option MediaSource),
      flags &&& c.OMX_BUFFERFLAG_CODECCONFIG = 0 →
      ctx.queueInputBuffer c w index data size pts flags waits c1 c2
        = .done { ret := false, ctx := ctx, w := w }) ∧
    ((∀ e ∈ d.mOutQueue.mElements, ¬ Sequenced e) →
      ctx.dequeueOutputBuffer c w = some (INFO_TRY_AGAIN_LATER, ctx, w)) ∧
    (∀ (ctx0 : StagefrightContext) (d0 : Decoder) (mimeType : List Nat)
        (c1 c2 : Option MediaSource) (runResult : Int),
      ctx0.mDecoder = some d0 → strncasecmpEq mimeType strAudio 6 = true →
      ctx0.createDecoderByType c w mimeType c1 c2 runResult
        = .done (true,
            { mDecoder := some { d0 with mMimeType := mimeType, mSampleRate := 0,
                                         mChannelCount := 0, mIsVideoDecoder := false,
                                         mDelayedOpen := true } },
            w)) := by
  refine ⟨?_, ?_, ?_⟩
  · intro index data size pts flags waits c1 c2 hflags
    by_cases hs : size > 0
    · simp [StagefrightContext.queueInputBuffer, hctx, hmode, hs, hflags]
    · simp [StagefrightContext.queueInputBuffer, hctx, hs]
  · intro hseq
    obtain ⟨r, g1, g2, g3, g4⟩ := dequeue_none c d w h1 h2 hseq
    simp only [StagefrightContext.dequeueOutputBuffer, hctx, g1, Option.map_some', g2, g3, g4]
    cases ctx
    simp only at hctx
    simp [hctx, INFO_TRY_AGAIN_LATER]
  · intro ctx0 d0 mimeType c1 c2 runResult h0 hm
    simp [StagefrightContext.createDecoderByType, Decoder.createDecoderByType, h0, hm]

theorem delayed_open_spec_witness :
    (delayedContext.mDecoder
        = some { Decoder.new with
            mMimeType := mimeAudioAac, mIsVideoDecoder := false, mDelayedOpen := true } ∧
      ({ Decoder.new with
          mMimeType := mimeAudioAac, mIsVideoDecoder := false, mDelayedOpen := true }
        : Decoder).mDelayedOpen = true ∧
      androidCodes.ERROR_END_OF_STREAM ≠ OK ∧ androidCodes.INFO_FORMAT_CHANGED ≠ OK ∧
      (0 : Nat) &&& androidCodes.OMX_BUFFERFLAG_CODECCONFIG = 0 ∧
      StagefrightContext.new.mDecoder = some Decoder.new ∧
      strncasecmpEq mimeAudioAac strAudio 6 = true) ∧
    delayedContext.queueInputBuffer androidCodes sourceWorld 0 50 5 9 0 [] none none
      = .done { ret := false, ctx := delayedContext, w := sourceWorld } ∧
    delayedContext.dequeueOutputBuffer androidCodes sourceWorld
      = some (INFO_TRY_AGAIN_LATER, delayedContext, sourceWorld) ∧
    StagefrightContext.new.createDecoderByType androidCodes sourceWorld mimeAudioAac none none OK
      = .done (true,
          { mDecoder := some { Decoder.new with mMimeType := mimeAudioAac, mSampleRate := 0,
                                                mChannelCount := 0, mIsVideoDecoder := false,
                                                mDelayedOpen := true } },
          sourceWorld) :=
  ⟨⟨rfl, rfl, by decide, by decide, by decide, rfl, by decide⟩,
    (delayed_open_spec androidCodes delayedContext _ sourceWorld rfl rfl (by decide)
      (by decide)).1 0 50 5 9 0 [] none none (by decide),
    (delayed_open_spec androidCodes delayedContext _ sourceWorld rfl rfl (by decide)
      (by decide)).2.1 (by decide),
    (delayed_open_spec androidCodes delayedContext _ sourceWorld rfl rfl (by decide)
      (by decide)).2.2 StagefrightContext.new Decoder.new mimeAudioAac none none OK rfl
      (by decide)⟩

/-- C20 fails as stated: in delayed-open mode `queueInputBuffer` of five
payload bytes without the codec-configuration flag returns false, and the
input queue of the decoder is as empty as before. -/
theorem delayed_open_rejects_payload :
    (∃ d, delayedContext.mDecoder = some d ∧ d.mDelayedOpen = true ∧ d.mInQueue = []) ∧
    (0 : Nat) &&& androidCodes.OMX_BUFFERFLAG_CODECCONFIG = 0 ∧
    delayedContext.queueInputBuffer androidCodes sourceWorld 0 50 5 9 0 [] none none
      = .done { ret := false, ctx := delayedContext, w := sourceWorld } := by
  refine ⟨⟨_, rfl, rfl, rfl⟩, by decide, by decide⟩

theorem assign_status {a b r : Frame} {w w1 : World} (h : a.assign b w = some (r, w1)) :
    r.mStatus = b.mStatus ∧ r.mPts = b.mPts ∧ r.mFlags = b.mFlags ∧ r.mSize = b.mSize ∧
    r.mMediaBuffer = b.mMediaBuffer := by
  unfold Frame.assign at h
  simp only at h
  split_ifs at h with h1 h2 h3 h4
  all_goals first
    | (simp only [Option.map_eq_some', Prod.mk.injEq] at h
       obtain ⟨x, _, hx, _⟩ := h
       rw [← hx]
       exact ⟨rfl, rfl, rfl, rfl, rfl⟩)
    | (simp only [Option.some.injEq, Prod.mk.injEq] at h
       rw [← h.1]
       exact ⟨rfl, rfl, rfl, rfl, rfl⟩)

theorem pushBack_status {q q1 : List Frame} {f copy : Frame} {w w1 : World}
    (h : pushBack q f w = some (q1, w1, copy)) : copy.mStatus = f.mStatus := by
  unfold pushBack at h
  cases hc : Frame.copy f w with
  | none => rw [hc] at h; simp at h
  | some r =>
    rw [hc] at h
    simp only [Option.map_some', Option.some.injEq, Prod.mk.injEq] at h
    rw [← h.2.2]
    exact (assign_status hc).1

theorem ofBytes_status {w w1 : World} {status pts : Int} {data : Ptr} {size flags : Nat}
    {f : Frame} (h : Frame.ofBytes w status data size pts flags = some (f, w1)) :
    f.mStatus = status ∧ f.mPts = pts ∧ f.mFlags = flags := by
  unfold Frame.ofBytes at h
  simp only at h
  split_ifs at h with g1
  · simp only [Option.map_eq_some', Prod.mk.injEq] at h
    obtain ⟨y, _, hy, _⟩ := h
    rw [← hy]
    exact ⟨rfl, rfl, rfl⟩
  · simp only [Option.some.injEq, Prod.mk.injEq] at h
    rw [← h.1]
    exact ⟨rfl, rfl, rfl⟩

theorem queueAppend_status {c : Codes} {d : Decoder} {w : World} {frame : Frame} {sleep : Int}
    {taken : List Frame} {waits : List (List WaitTick)} {r : QueueResult}
    (h : queueAppend c d w frame sleep taken waits = .done r) :
    ∀ f ∈ r.pushed, f.mStatus = frame.mStatus := by
  unfold queueAppend at h
  by_cases h1 : toInt32 d.mInQueue.length < IN_BUFFER_COUNT
  · simp only [h1, if_true] at h
    cases hp : pushBack d.mInQueue frame w with
    | none => rw [hp] at h; simp at h
    | some x =>
      obtain ⟨q1, w1, copy⟩ := x
      rw [hp] at h
      obtain ⟨_, g2, _⟩ := queueReturn_inv h
      rw [g2]
      intro f hf
      rw [List.mem_singleton] at hf
      rw [hf]
      exact pushBack_status hp
  · simp only [h1, if_false] at h
    obtain ⟨_, g2, _⟩ := queueReturn_inv h
    rw [g2]
    intro f hf
    cases hf

theorem queueSettle_status {c : Codes} {d : Decoder} {w : World} {frame : Frame} {sleep : Int}
    {taken : List Frame} {waits : List (List WaitTick)} {r : QueueResult}
    (h : queueSettle c d w frame sleep taken waits = .done r) :
    ∀ f ∈ r.pushed, f.mStatus = frame.mStatus := by
  unfold queueSettle at h
  by_cases h1 : toInt32 d.mInQueue.length = IN_BUFFER_COUNT
  · simp only [h1, if_true] at h
    cases waits with
    | nil => simp at h
    | cons ticks rest =>
      simp only at h
      cases hw : waitReadOrOutput c sleep ticks d.mInQueue with
      | none => rw [hw] at h; simp at h
      | some x =>
        obtain ⟨res, rc, q1, tk⟩ := x
        rw [hw] at h
        by_cases h2 : res ≠ OK ∧ rc > 0
        · simp only at h
          rw [if_pos h2] at h
          simp only [Outcome.done.injEq] at h
          rw [← h]
          intro f hf
          cases hf
        · simp only at h
          rw [if_neg h2] at h
          exact queueAppend_status h
  · simp only [h1, if_false] at h
    exact queueAppend_status h

theorem queueInputBuffer_status {c : Codes} {d : Decoder} {w : World} {index : Int} {data : Ptr}
    {size : Nat} {pts : Int} {flags : Nat} {waits : List (List WaitTick)} {r : QueueResult}
    (h : d.queueInputBuffer c w index data size pts flags waits = .done r) :
    ∀ f ∈ r.pushed,
      f.mStatus
        = if flags &&& c.OMX_BUFFERFLAG_ENDOFFRAME ≠ 0 then c.INFO_DISCONTINUITY else OK := by
  unfold queueInputBuffer at h
  cases hf : Frame.ofBytes w
      (if flags &&& c.OMX_BUFFERFLAG_ENDOFFRAME ≠ 0 then c.INFO_DISCONTINUITY else OK)
      data size pts flags with
  | none => simp only [hf] at h; cases h
  | some x =>
    obtain ⟨frame, w1⟩ := x
    have hst : frame.mStatus
        = if flags &&& c.OMX_BUFFERFLAG_ENDOFFRAME ≠ 0 then c.INFO_DISCONTINUITY else OK :=
      (ofBytes_status hf).1
    simp only [hf] at h
    rw [← hst]
    by_cases h1 : d.mDecoderSource = none
    · simp only [h1, if_true] at h
      by_cases h2 : toInt32 d.mInQueue.length < 50
      · simp only [h2, if_true] at h
        cases hp : pushBack d.mInQueue frame w1 with
        | none => rw [hp] at h; cases h
        | some y =>
          obtain ⟨q1, w2, copy⟩ := y
          rw [hp] at h
          simp only [Outcome.done.injEq] at h
          rw [← h]
          intro f hf1
          rw [List.mem_singleton] at hf1
          rw [hf1]
          exact pushBack_status hp
      · simp only [h2, if_false, Outcome.done.injEq] at h
        rw [← h]
        intro f hf1
        cases hf1
    · simp only [h1, if_false] at h
      by_cases h3 : toInt32 d.mInQueue.length > IN_BUFFER_COUNT
      · simp only [h3, if_true] at h
        cases hs : skipLoop c (2 * s_frameDisplayTimeMsec + 5) waits d.mInQueue [] with
        | waiting => rw [hs] at h; cases h
        | fault => rw [hs] at h; cases h
        | done y =>
          obtain ⟨ready, q1, taken, rest⟩ := y
          rw [hs] at h
          cases ready with
          | true =>
            simp only [if_true] at h
            cases hp : pushBack q1 frame w1 with
            | none => rw [hp] at h; cases h
            | some z =>
              obtain ⟨q2, w2, copy⟩ := z
              rw [hp] at h
              simp only [Outcome.done.injEq] at h
              rw [← h]
              intro f hf1
              rw [List.mem_singleton] at hf1
              rw [hf1]
              exact pushBack_status hp
          | false =>
            simp only [Bool.false_eq_true, if_false] at h
            exact queueSettle_status h
      · simp only [h3, if_false] at h
        exact queueSettle_status h

theorem above_brk {d b : Nat} (h : d ≤ b) : b + 2 ≠ d ∧ d ≠ b + 1 + 1 := by
  omega

theorem read_filter_ne (w : World) (p q : Ptr) (h : q ≠ p) :
    ({ w with heap := w.heap.filter (fun c => c.1 != p) } : World).read q = w.read q := by
  simp only [World.read, find?_filter_ne p q h]

theorem clearBuffers_read (f : Frame) (l : Option (List Ptr)) (w : World) (q : Ptr)
    (h : q ≠ f.mBuffer) : (f.clearBuffers l w).2.2.read q = w.read q := by
  unfold Frame.clearBuffers
  by_cases h1 : f.mBuffer = 0
  · by_cases h2 : f.mMediaBuffer = 0 <;> cases l <;> simp [h1, h2, World.release, World.read]
  · have hd : (w.deleteArr f.mBuffer).read q = w.read q := by
      simp only [World.deleteArr, World.read, find?_filter_ne f.mBuffer q h]
    by_cases h2 : f.mMediaBuffer = 0 <;> cases l <;>
      simp only [h1, h2, ne_eq, not_false_eq_true, not_true_eq_false, if_true, if_false] <;>
      exact hd

theorem toSizeT_ofNat {n : Nat} (h : n < 2 ^ 32) : toSizeT (n : Int) = n := by
  unfold toSizeT
  have : ((n : Int) % 2 ^ 32) = (n : Int) := Int.emod_eq_of_lt (Int.ofNat_nonneg n) (by omega)
  rw [this]
  exact Int.toNat_ofNat n

theorem copy_deep (w : World) (other : Frame) (bs : List Nat) (n : Nat)
    (hsz : other.mSize = (n : Int)) (hpos : 0 < n) (hn : n < 2 ^ 32)
    (hbuf : other.mBuffer ≠ 0) (hread : w.read other.mBuffer = some bs) (hlen : n ≤ bs.length)
    (hbrk : other.mBuffer ≠ w.brk + 1) :
    ∃ w2, Frame.copy other w = some ({ other with mBuffer := w.brk + 1 }, w2) ∧
      w2.read (w.brk + 1) = some (bs.take n) ∧
      ∀ q, q ≠ w.brk + 1 → w2.read q = w.read q := by
  have hne : ¬ (w.brk + 1 = other.mBuffer) := fun h => hbrk h.symm
  have hr1 : ({ w with heap := (w.brk + 1, List.replicate n 0) :: w.heap,
                       brk := w.brk + 1 } : World).read other.mBuffer = some bs := by
    have := read_cons { w with brk := w.brk + 1 } (w.brk + 1) (List.replicate n 0) other.mBuffer
    simp only [hne, if_false] at this
    rw [this]
    exact hread
  have hr2 : ({ w with heap := (w.brk + 1, List.replicate n 0) :: w.heap,
                       brk := w.brk + 1 } : World).read (w.brk + 1)
      = some (List.replicate n 0) := by
    have := read_cons { w with brk := w.brk + 1 } (w.brk + 1) (List.replicate n 0) (w.brk + 1)
    simpa using this
  have hs : n ≠ 0 := by omega
  have hposI : (0 : Int) < (n : Int) := by exact_mod_cast hpos
  have hnot : ¬ ((0 : Int) > 0 ∧ (n : Int) ≤ 0 ∧ (0 : Ptr) ≠ 0) := by
    intro h; exact absurd h.1 (by decide)
  refine ⟨{ w with
            heap := (w.brk + 1, bs.take n ++ (List.replicate n 0).drop n) ::
              List.filter (fun c => c.1 != w.brk + 1)
                ((w.brk + 1, List.replicate n 0) :: w.heap),
            brk := w.brk + 1 }, ?_, ?_, ?_⟩
  · obtain ⟨s, p, sz, b, fl, m⟩ := other
    simp only at hsz hbuf hr1 hne
    subst hsz
    simp only [Frame.copy, Frame.assign, Frame.new, hnot, if_false, ne_eq, not_true_eq_false,
      hposI, hbuf, not_false_eq_true, and_self, if_true, toSizeT_ofNat hn, World.newArr,
      World.memcpy, hs, hr1, hr2, hlen, List.length_replicate, Nat.le_refl, Option.map_some',
      gt_iff_lt, Int.lt_irrefl, false_and]
  · simp [World.read]
  · intro q hq
    have hq2 : ¬ (w.brk + 1 = q) := fun h => hq h.symm
    have h3 : (w.brk + 1 == q) = false := by
      rw [beq_eq_false_iff_ne]; exact hq2
    unfold World.read
    simp only [List.find?_cons, h3, find?_filter_ne _ _ hq]

theorem ofBytes_fields {w w1 : World} {status pts : Int} {data : Ptr} {size flags : Nat}
    {f : Frame} (h : Frame.ofBytes w status data size pts flags = some (f, w1)) :
    f.mSize = toInt32 size ∧ f.mMediaBuffer = 0 ∧ (data = 0 ∨ size = 0 → f.mBuffer = 0) := by
  unfold Frame.ofBytes at h
  simp only at h
  split_ifs at h with g1
  · simp only [Option.map_eq_some', Prod.mk.injEq] at h
    obtain ⟨y, _, hy, _⟩ := h
    rw [← hy]
    refine ⟨rfl, rfl, ?_⟩
    intro hz
    rcases hz with hz | hz
    · exact absurd hz g1.2
    · omega
  · simp only [Option.some.injEq, Prod.mk.injEq] at h
    rw [← h.1]
    exact ⟨rfl, rfl, fun _ => rfl⟩

theorem copy_no_buffer {other f : Frame} {w w1 : World} (h : Frame.copy other w = some (f, w1))
    (hb : other.mBuffer = 0) : f.mBuffer = 0 := by
  unfold Frame.copy Frame.assign at h
  simp only [Frame.new, hb, ne_eq, not_true_eq_false, and_false, if_false] at h
  simp only [Option.some.injEq, Prod.mk.injEq] at h
  rw [← h.1]

theorem pushBack_copy {q q1 : List Frame} {f copy : Frame} {w w1 : World}
    (h : pushBack q f w = some (q1, w1, copy)) : Frame.copy f w = some (copy, w1) := by
  unfold pushBack at h
  cases hc : Frame.copy f w with
  | none => rw [hc] at h; simp at h
  | some r =>
    rw [hc] at h
    simp only [Option.map_some', Option.some.injEq, Prod.mk.injEq] at h
    rw [← h.2.1, ← h.2.2]

theorem queueReturn_world {c : Codes} {d : Decoder} {w : World} {frame : Frame} {sleep : Int}
    {result : Bool} {taken pushed : List Frame} {waits : List (List WaitTick)}
    {r : QueueResult}
    (h : queueReturn c d w frame sleep result taken pushed waits = .done r) :
    r.w = (frame.clearBuffers none w).2.2 := by
  unfold queueReturn at h
  cases waits with
  | nil => simp at h
  | cons ticks rest =>
    simp only at h
    cases hw : waitReadOrOutput c sleep ticks d.mInQueue with
    | none => rw [hw] at h; simp at h
    | some x =>
      obtain ⟨res, rc, q1, tk⟩ := x
      rw [hw] at h
      simp only [Outcome.done.injEq] at h
      rw [← h]

theorem queueAppend_copy {c : Codes} {d : Decoder} {w : World} {frame : Frame} {sleep : Int}
    {taken : List Frame} {waits : List (List WaitTick)} {r : QueueResult}
    (h : queueAppend c d w frame sleep taken waits = .done r) :
    (∀ f ∈ r.pushed, ∃ w2, Frame.copy frame w = some (f, w2) ∧
      r.w = (frame.clearBuffers none w2).2.2) ∧
    (r.pushed = [] → r.w = (frame.clearBuffers none w).2.2) := by
  unfold queueAppend at h
  by_cases h1 : toInt32 d.mInQueue.length < IN_BUFFER_COUNT
  · simp only [h1, if_true] at h
    cases hp : pushBack d.mInQueue frame w with
    | none => rw [hp] at h; simp at h
    | some x =>
      obtain ⟨q1, w1, copy⟩ := x
      rw [hp] at h
      obtain ⟨_, g2, _⟩ := queueReturn_inv h
      have g4 := queueReturn_world h
      rw [g2]
      constructor
      · intro f hf
        rw [List.mem_singleton] at hf
        rw [hf]
        exact ⟨w1, pushBack_copy hp, g4⟩
      · intro hnil
        cases hnil
  · simp only [h1, if_false] at h
    obtain ⟨_, g2, _⟩ := queueReturn_inv h
    have g4 := queueReturn_world h
    rw [g2]
    exact ⟨fun f hf => (by cases hf), fun _ => g4⟩

theorem queueSettle_copy {c : Codes} {d : Decoder} {w : World} {frame : Frame} {sleep : Int}
    {taken : List Frame} {waits : List (List WaitTick)} {r : QueueResult}
    (h : queueSettle c d w frame sleep taken waits = .done r) :
    (∀ f ∈ r.pushed, ∃ w2, Frame.copy frame w = some (f, w2) ∧
      r.w = (frame.clearBuffers none w2).2.2) ∧
    (r.pushed = [] → r.w = (frame.clearBuffers none w).2.2) := by
  unfold queueSettle at h
  by_cases h1 : toInt32 d.mInQueue.length = IN_BUFFER_COUNT
  · simp only [h1, if_true] at h
    cases waits with
    | nil => simp at h
    | cons ticks rest =>
      simp only at h
      cases hw : waitReadOrOutput c sleep ticks d.mInQueue with
      | none => rw [hw] at h; simp at h
      | some x =>
        obtain ⟨res, rc, q1, tk⟩ := x
        rw [hw] at h
        by_cases h2 : res ≠ OK ∧ rc > 0
        · simp only at h
          rw [if_pos h2] at h
          simp only [Outcome.done.injEq] at h
          rw [← h]
          exact ⟨fun f hf => (by cases hf), fun _ => rfl⟩
        · simp only at h
          rw [if_neg h2] at h
          exact queueAppend_copy h
  · simp only [h1, if_false] at h
    exact queueAppend_copy h

theorem queueInputBuffer_copy {c : Codes} {d : Decoder} {w : World} {index : Int} {data : Ptr}
    {size : Nat} {pts : Int} {flags : Nat} {waits : List (List WaitTick)} {r : QueueResult}
    (h : d.queueInputBuffer c w index data size pts flags waits = .done r) :
    ∃ (frame : Frame) (w1 : World),
      Frame.ofBytes w
        (if flags &&& c.OMX_BUFFERFLAG_ENDOFFRAME ≠ 0 then c.INFO_DISCONTINUITY else OK)
        data size pts flags = some (frame, w1) ∧
      (∀ f ∈ r.pushed, ∃ w2, Frame.copy frame w1 = some (f, w2) ∧
        r.w = (frame.clearBuffers none w2).2.2) ∧
      (r.pushed = [] → r.w = (frame.clearBuffers none w1).2.2) := by
  unfold queueInputBuffer at h
  cases hf : Frame.ofBytes w
      (if flags &&& c.OMX_BUFFERFLAG_ENDOFFRAME ≠ 0 then c.INFO_DISCONTINUITY else OK)
      data size pts flags with
  | none => simp only [hf] at h; cases h
  | some x =>
    obtain ⟨frame, w1⟩ := x
    simp only [hf] at h
    refine ⟨frame, w1, rfl, ?_⟩
    by_cases h1 : d.mDecoderSource = none
    · simp only [h1, if_true] at h
      by_cases h2 : toInt32 d.mInQueue.length < 50
      · simp only [h2, if_true] at h
        cases hp : pushBack d.mInQueue frame w1 with
        | none => rw [hp] at h; cases h
        | some y =>
          obtain ⟨q1, w2, copy⟩ := y
          rw [hp] at h
          simp only [Outcome.done.injEq] at h
          rw [← h]
          constructor
          · intro f hf1
            rw [List.mem_singleton] at hf1
            rw [hf1]
            exact ⟨w2, pushBack_copy hp, rfl⟩
          · intro hnil
            cases hnil
      · simp only [h2, if_false, Outcome.done.injEq] at h
        rw [← h]
        exact ⟨fun f hf1 => (by cases hf1), fun _ => rfl⟩
    · simp only [h1, if_false] at h
      by_cases h3 : toInt32 d.mInQueue.length > IN_BUFFER_COUNT
      · simp only [h3, if_true] at h
        cases hs : skipLoop c (2 * s_frameDisplayTimeMsec + 5) waits d.mInQueue [] with
        | waiting => rw [hs] at h; cases h
        | fault => rw [hs] at h; cases h
        | done y =>
          obtain ⟨ready, q1, taken, rest⟩ := y
          rw [hs] at h
          cases ready with
          | true =>
            simp only [if_true] at h
            cases hp : pushBack q1 frame w1 with
            | none => rw [hp] at h; cases h
            | some z =>
              obtain ⟨q2, w2, copy⟩ := z
              rw [hp] at h
              simp only [Outcome.done.injEq] at h
              rw [← h]
              constructor
              · intro f hf1
                rw [List.mem_singleton] at hf1
                rw [hf1]
                exact ⟨w2, pushBack_copy hp, rfl⟩
              · intro hnil
                cases hnil
          | false =>
            simp only [Bool.false_eq_true, if_false] at h
            exact queueSettle_copy h
      · simp only [h3, if_false] at h
        exact queueSettle_copy h

/-- C25: whenever `queueInputBuffer` returns, whatever the waits inside it
gave, it returns true exactly when it appended one frame and it appended
nothing when it returns false; what the worker took during the call followed
by the queue left is the queue found followed by the frame appended, so the
new frame went to the tail. The frame appended is the copy of the frame built
from the arguments of the call, and the world left is the one after that copy
and the destruction of the built frame: the appended frame carries the status
`INFO_DISCONTINUITY` exactly when `OMX_BUFFERFLAG_ENDOFFRAME` is set in the
flags and `OK` otherwise (the two constants being different), the pts, the
flags and the size of the call and no handle, and no array when the call gave
no data or size 0. When the call gives `size` bytes (less than 2^31) of an
array of the heap, the appended frame owns an array of its own, different
from the caller's, that holds the first `size` bytes of the caller's array,
and the caller's array is unchanged. -/
theorem queueInputBuffer_result (c : Codes) (d : Decoder) (w : World) (index : Int) (data : Ptr)
    (size : Nat) (pts : Int) (flags : Nat) (waits : List (List WaitTick)) (r : QueueResult)
    (hdisc : c.INFO_DISCONTINUITY ≠ OK)
    (h : d.queueInputBuffer c w index data size pts flags waits = .done r) :
    (r.ret = true ↔ ∃ f, r.pushed = [f]) ∧
    (r.ret = false → r.pushed = []) ∧
    r.taken ++ r.d.mInQueue = d.mInQueue ++ r.pushed ∧
    (∀ f ∈ r.pushed,
      (f.mStatus = c.INFO_DISCONTINUITY ↔ flags &&& c.OMX_BUFFERFLAG_ENDOFFRAME ≠ 0) ∧
      (flags &&& c.OMX_BUFFERFLAG_ENDOFFRAME = 0 → f.mStatus = OK)) ∧
    (∃ (frame : Frame) (w1 : World),
      Frame.ofBytes w
        (if flags &&& c.OMX_BUFFERFLAG_ENDOFFRAME ≠ 0 then c.INFO_DISCONTINUITY else OK)
        data size pts flags = some (frame, w1) ∧
      (∀ f ∈ r.pushed, ∃ w2, Frame.copy frame w1 = some (f, w2) ∧
        r.w = (frame.clearBuffers none w2).2.2) ∧
      (r.pushed = [] → r.w = (frame.clearBuffers none w1).2.2)) ∧
    (∀ f ∈ r.pushed,
      f.mPts = pts ∧ f.mFlags = flags ∧ f.mSize = toInt32 size ∧ f.mMediaBuffer = 0 ∧
      (data = 0 ∨ size = 0 → f.mBuffer = 0)) ∧
    (∀ bytes : List Nat, w.wf → w.read data = some bytes → size ≤ bytes.length → 0 < size →
      size < 2 ^ 31 →
      ∀ f ∈ r.pushed,
        f = { mStatus := if flags &&& c.OMX_BUFFERFLAG_ENDOFFRAME ≠ 0
                then c.INFO_DISCONTINUITY else OK,
              mPts := pts, mSize := (size : Int), mBuffer := w.brk + 2, mFlags := flags,
              mMediaBuffer := 0 } ∧
        f.mBuffer ≠ 0 ∧ f.mBuffer ≠ data ∧
        r.w.read f.mBuffer = some (bytes.take size) ∧ r.w.read data = some bytes) := by
  obtain ⟨g1, g2, g3⟩ := queueInputBuffer_inv h
  have g4 := queueInputBuffer_status h
  obtain ⟨frame, w1, g5, g6, g7⟩ := queueInputBuffer_copy h
  refine ⟨?_, ?_, g1, ?_, ⟨frame, w1, g5, g6, g7⟩, ?_, ?_⟩
  · rw [g3]
    exact List.length_eq_one
  · intro hf
    have hne : ¬ r.pushed.length = 1 := by
      rw [← g3, hf]
      decide
    cases hp : r.pushed with
    | nil => rfl
    | cons a l =>
      rw [hp] at g2 hne
      simp only [List.length_cons] at g2 hne
      omega
  · intro f hf
    rw [g4 f hf]
    by_cases hb : flags &&& c.OMX_BUFFERFLAG_ENDOFFRAME = 0
    · simp only [hb, ne_eq, not_true_eq_false, if_false, iff_false, implies_true, and_true]
      exact fun e => hdisc e.symm
    · simp only [ne_eq, hb, not_false_eq_true, if_true, false_implies, and_self]
  · intro f hf
    obtain ⟨w2, hc, _⟩ := g6 f hf
    obtain ⟨_, k2, k3⟩ := ofBytes_status g5
    obtain ⟨k4, k5, k6⟩ := ofBytes_fields g5
    have hc1 := hc
    unfold Frame.copy at hc1
    obtain ⟨_, a2, a3, a4, a5⟩ := assign_status hc1
    refine ⟨a2.trans k2, a3.trans k3, a4.trans k4, a5.trans k5, ?_⟩
    intro hz
    exact copy_no_buffer hc (k6 hz)
  · intro bytes hwf hdata hlen hpos hsmall f hf
    obtain ⟨w2, hc, hw⟩ := g6 f hf
    obtain ⟨e1, hd0, hdb⟩ := ofBytes_eq w
      (if flags &&& c.OMX_BUFFERFLAG_ENDOFFRAME ≠ 0 then c.INFO_DISCONTINUITY else OK)
      pts flags data bytes size hwf hdata hlen hpos
    rw [e1] at g5
    simp only [Option.some.injEq, Prod.mk.injEq] at g5
    obtain ⟨ef, ew⟩ := g5
    have hm : (0 : Nat) < (data : Nat) ∧ (data : Nat) ≤ w.brk := hwf _ (read_mem hdata)
    have hbrk : w1.brk = w.brk + 1 := by rw [← ew]
    have hfb : frame.mBuffer = w.brk + 1 := by rw [← ef]
    have hfs : frame.mSize = (size : Int) := by rw [← ef]; exact toInt32_small hsmall
    have hr1 : w1.read frame.mBuffer = some (bytes.take size) := by
      rw [hfb, ← ew]
      have := read_cons
        ({ w with
            heap := List.filter (fun c => c.1 != w.brk + 1)
              ((w.brk + 1, List.replicate size 0) :: w.heap),
            brk := w.brk + 1 } : World) (w.brk + 1) (bytes.take size) (w.brk + 1)
      simp only [if_true] at this
      exact this
    have hr2 : w1.read data = some bytes := by
      rw [← ew]
      have h1 := read_cons
        ({ w with
            heap := List.filter (fun c => c.1 != w.brk + 1)
              ((w.brk + 1, List.replicate size 0) :: w.heap),
            brk := w.brk + 1 } : World) (w.brk + 1) (bytes.take size) data
      have hne : ¬ (w.brk + 1 = data) := fun e => hdb e.symm
      simp only [hne, if_false] at h1
      rw [h1]
      have h2 := read_filter_ne
        ({ w with heap := (w.brk + 1, List.replicate size 0) :: w.heap,
                  brk := w.brk + 1 } : World) (w.brk + 1) data hdb
      rw [h2]
      have h3 := read_cons { w with brk := w.brk + 1 } (w.brk + 1) (List.replicate size 0) data
      simp only [hne, if_false] at h3
      rw [h3]
      exact hdata
    have hlen2 : size ≤ (bytes.take size).length := by
      rw [List.length_take]
      omega
    have n1 : (w.brk + 1 : Nat) ≠ 0 := by omega
    have n2 : (w.brk + 1 : Nat) ≠ w.brk + 1 + 1 := by omega
    have n3 : (w.brk + 2 : Nat) ≠ 0 := by omega
    have n4 : (w.brk + 2 : Nat) ≠ (data : Nat) := (above_brk hm.2).1
    have n5 : (w.brk + 2 : Nat) ≠ w.brk + 1 := by omega
    have n6 : (data : Nat) ≠ w.brk + 1 + 1 := (above_brk hm.2).2
    obtain ⟨w3, hc3, hr3, hr4⟩ := copy_deep w1 frame (bytes.take size) size hfs hpos
      (by omega) (by rw [hfb]; exact n1) hr1 hlen2 (by rw [hfb, hbrk]; exact n2)
    rw [hc3] at hc
    simp only [Option.some.injEq, Prod.mk.injEq] at hc
    obtain ⟨hf1, hw3⟩ := hc
    have hfbuf : f.mBuffer = w.brk + 2 := by rw [← hf1, hbrk]
    refine ⟨?_, ?_, ?_, ?_, ?_⟩
    · rw [← hf1, ← ef, hbrk, toInt32_small hsmall]
    · rw [hfbuf]; exact n3
    · rw [hfbuf]; exact n4
    · rw [hbrk] at hr3
      rw [hw, clearBuffers_read frame none w2 f.mBuffer (by rw [hfbuf, hfb]; exact n5), ← hw3,
        hfbuf]
      rw [List.take_take, Nat.min_self] at hr3
      exact hr3
    · rw [hw, clearBuffers_read frame none w2 data (by rw [hfb]; exact hdb), ← hw3,
        hr4 data (by rw [hbrk]; exact n6)]
      exact hr2

theorem queueInputBuffer_result_witness :
    (androidCodes.INFO_DISCONTINUITY ≠ OK ∧
      busyDecoder.queueInputBuffer androidCodes sourceWorld 0 50 5 9 16 busyWaits
        = .done busyResult ∧
      sourceWorld.wf ∧ sourceWorld.read 50 = some [1, 2, 3, 4, 5]) ∧
    (busyResult.ret = true ↔ ∃ f, busyResult.pushed = [f]) ∧
    (busyResult.ret = false → busyResult.pushed = []) ∧
    busyResult.taken ++ busyResult.d.mInQueue = busyDecoder.mInQueue ++ busyResult.pushed ∧
    (∀ f ∈ busyResult.pushed,
      (f.mStatus = androidCodes.INFO_DISCONTINUITY
        ↔ 16 &&& androidCodes.OMX_BUFFERFLAG_ENDOFFRAME ≠ 0) ∧
      (16 &&& androidCodes.OMX_BUFFERFLAG_ENDOFFRAME = 0 → f.mStatus = OK)) ∧
    (∀ f ∈ busyResult.pushed,
      f.mPts = 9 ∧ f.mFlags = 16 ∧ f.mSize = toInt32 5 ∧ f.mMediaBuffer = 0 ∧
      ((50 : Ptr) = 0 ∨ 5 = 0 → f.mBuffer = 0)) ∧
    (∀ f ∈ busyResult.pushed,
      f = { mStatus := -1013, mPts := 9, mSize := 5, mBuffer := 52, mFlags := 16,
            mMediaBuffer := 0 } ∧
      f.mBuffer ≠ 0 ∧ f.mBuffer ≠ 50 ∧
      busyResult.w.read f.mBuffer = some [1, 2, 3, 4, 5] ∧
      busyResult.w.read 50 = some [1, 2, 3, 4, 5]) := by
  have hwf : sourceWorld.wf := by
    intro c hc
    simp only [sourceWorld, List.mem_singleton] at hc
    rw [hc]
    decide
  obtain ⟨t1, t2, t3, t4, _, t6, t7⟩ :=
    queueInputBuffer_result androidCodes busyDecoder sourceWorld 0 50 5 9 16 busyWaits busyResult
      (by decide) (by decide)
  exact ⟨⟨by decide, by decide, hwf, by decide⟩, t1, t2, t3, t4, t6,
    t7 [1, 2, 3, 4, 5] hwf (by decide) (by decide) (by decide) (by decide)⟩

/-- C27: with `index` equal to the capacity, the range check of `pull`, `get`,
`free` and `clearBuffer` (`index > mElements.size()`) lets the call through and
the slot lookup that follows is one past the end of the slot array; only from
`capacity + 1` on, and below 0, do the four methods return without touching a
slot. -/
theorem index_capacity_passes_check (q : BufferQueue) (w : World) (data : Frame) (mb : Ptr) :
    q.pull data (q.capacity : Int) = none ∧ q.get mb (q.capacity : Int) = none ∧
    q.free w (q.capacity : Int) = none ∧ q.clearBuffer w (q.capacity : Int) = none ∧
    (∀ k : Nat,
      q.pull data ((q.capacity : Int) + 1 + k) = some (q, data) ∧
      q.get mb ((q.capacity : Int) + 1 + k) = some mb ∧
      q.free w ((q.capacity : Int) + 1 + k) = some (q, w) ∧
      q.clearBuffer w ((q.capacity : Int) + 1 + k) = some (q, w) ∧
      q.pull data (-1 - (k : Int)) = some (q, data) ∧
      q.get mb (-1 - (k : Int)) = some mb ∧
      q.free w (-1 - (k : Int)) = some (q, w) ∧
      q.clearBuffer w (-1 - (k : Int)) = some (q, w)) ∧
    (BufferQueue.new OUT_BUFFER_COUNT).capacity = 10 ∧
    (BufferQueue.new OUT_BUFFER_COUNT).free w 10 = none := by
  have hg : ¬ (((q.mElements.length : Nat) : Int) < 0 ∨
      ((q.mElements.length : Nat) : Int) > (q.mElements.length : Int)) := by omega
  have hn : q.mElements[q.mElements.length]? = none := List.getElem?_eq_none (Nat.le_refl _)
  refine ⟨?_, ?_, ?_, ?_, ?_, rfl, ?_⟩
  · simp only [BufferQueue.pull, BufferQueue.capacity, hg, if_false, Int.toNat_ofNat, hn]
  · simp only [BufferQueue.get, BufferQueue.capacity, hg, if_false, Int.toNat_ofNat, hn]
  · simp only [BufferQueue.free, BufferQueue.capacity, hg, if_false, Int.toNat_ofNat, hn]
  · simp only [BufferQueue.clearBuffer, BufferQueue.capacity, hg, if_false, Int.toNat_ofNat, hn]
  · intro k
    have h1 : ((q.mElements.length : Nat) : Int) + 1 + (k : Int) < 0 ∨
        ((q.mElements.length : Nat) : Int) + 1 + (k : Int) > (q.mElements.length : Int) := by
      omega
    have h2 : -1 - (k : Int) < 0 ∨ -1 - (k : Int) > (q.mElements.length : Int) := by omega
    simp only [BufferQueue.pull, BufferQueue.get, BufferQueue.free, BufferQueue.clearBuffer,
      BufferQueue.capacity, h1, h2, if_true, and_self]
  · simp [BufferQueue.free, BufferQueue.new, OUT_BUFFER_COUNT]

/-- C30: the configuration `0x16 0x10` (AAC LC, sampling-frequency index 12,
two channels) makes `MakeAACCodecSpecificData` read `kSamplingFreq[12]`, one
past the twelve entries of the table, and so does every index up to 15. For
the configuration `0x12 0x10` (index 4) the rate is 44100 and the last two
ESDS bytes are `config[0]` and `config[1] & 0xF8`; a config size other than 2
gives NULL without a read of `config`. -/
theorem aac_index_past_table :
    MakeAACCodecSpecificData [0x16, 0x10] 2 = .fault ∧
    ((0x16 &&& 7) <<< 1) ||| (0x10 >>> 7) = 12 ∧ kSamplingFreq.length = 12 ∧
    kSamplingFreq[12]? = none ∧
    MakeAACCodecSpecificData [0x17, 0x90] 2 = .fault ∧
    MakeAACCodecSpecificData [0x12, 0x10] 2
      = .done (some { sampleRate := 44100, channelCount := 2,
                      esds := kStaticESDS.take 22 ++ [0x12, 0x10 &&& 0xF8] }) ∧
    (∀ (config : List Nat) (config_size : Nat), config_size ≠ 2 →
      MakeAACCodecSpecificData config config_size = .done none) := by
  refine ⟨by decide, by decide, by decide, by decide, by decide, by decide, ?_⟩
  intro config config_size h
  simp only [MakeAACCodecSpecificData, h, ne_eq, not_false_eq_true, if_true]

/-- C29: whenever `setVideoDecoderFormat` returns true the decoder has a
decoder source whose format has width, height, component name and colour
format, the stride and slice height recorded are that width and height and are
positive, the crop recorded satisfies `0 <= left < right < stride` and
`0 <= top < bottom < sliceHeight`, and the width and height recorded are
`right - left + 1` and `bottom - top + 1`, hence between 2 and the stride and
between 2 and the slice height; without crop rectangle in the format the crop
recorded is `(0, 0, stride - 1, sliceHeight - 1)`; and the method returns false
without decoder source and whenever one of the four keys is missing. -/
theorem setVideoDecoderFormat_geometry (d : Decoder) :
    (d.setVideoDecoderFormat.1 = true →
      ∃ (src : MediaSource) (name : List Nat) (color : Int),
        d.mDecoderSource = some src ∧
        src.format.width = some d.setVideoDecoderFormat.2.mVideoStride ∧
        src.format.height = some d.setVideoDecoderFormat.2.mVideoSliceHeight ∧
        src.format.component = some name ∧ src.format.colorFormat = some color ∧
        0 < d.setVideoDecoderFormat.2.mVideoStride ∧
        0 < d.setVideoDecoderFormat.2.mVideoSliceHeight ∧
        0 ≤ d.setVideoDecoderFormat.2.mVideoCropLeft ∧
        d.setVideoDecoderFormat.2.mVideoCropLeft < d.setVideoDecoderFormat.2.mVideoCropRight ∧
        d.setVideoDecoderFormat.2.mVideoCropRight < d.setVideoDecoderFormat.2.mVideoStride ∧
        0 ≤ d.setVideoDecoderFormat.2.mVideoCropTop ∧
        d.setVideoDecoderFormat.2.mVideoCropTop < d.setVideoDecoderFormat.2.mVideoCropBottom ∧
        d.setVideoDecoderFormat.2.mVideoCropBottom
          < d.setVideoDecoderFormat.2.mVideoSliceHeight ∧
        d.setVideoDecoderFormat.2.mVideoWidth
          = d.setVideoDecoderFormat.2.mVideoCropRight
            - d.setVideoDecoderFormat.2.mVideoCropLeft + 1 ∧
        d.setVideoDecoderFormat.2.mVideoHeight
          = d.setVideoDecoderFormat.2.mVideoCropBottom
            - d.setVideoDecoderFormat.2.mVideoCropTop + 1 ∧
        2 ≤ d.setVideoDecoderFormat.2.mVideoWidth ∧
        d.setVideoDecoderFormat.2.mVideoWidth ≤ d.setVideoDecoderFormat.2.mVideoStride ∧
        2 ≤ d.setVideoDecoderFormat.2.mVideoHeight ∧
        d.setVideoDecoderFormat.2.mVideoHeight ≤ d.setVideoDecoderFormat.2.mVideoSliceHeight ∧
        (src.format.cropRect = none →
          d.setVideoDecoderFormat.2.mVideoCropLeft = 0 ∧
          d.setVideoDecoderFormat.2.mVideoCropTop = 0 ∧
          d.setVideoDecoderFormat.2.mVideoCropRight
            = d.setVideoDecoderFormat.2.mVideoStride - 1 ∧
          d.setVideoDecoderFormat.2.mVideoCropBottom
            = d.setVideoDecoderFormat.2.mVideoSliceHeight - 1)) ∧
    (∀ (src : MediaSource) (stride sliceHeight color : Int) (name : List Nat),
      d.mDecoderSource = some src → src.format.width = some stride →
      src.format.height = some sliceHeight → src.format.component = some name →
      src.format.colorFormat = some color → 0 < stride → 0 < sliceHeight →
      src.format.cropRect = none →
        d.setVideoDecoderFormat.2.mVideoCropLeft = 0 ∧
        d.setVideoDecoderFormat.2.mVideoCropTop = 0 ∧
        d.setVideoDecoderFormat.2.mVideoCropRight = stride - 1 ∧
        d.setVideoDecoderFormat.2.mVideoCropBottom = sliceHeight - 1) ∧
    (d.mDecoderSource = none → d.setVideoDecoderFormat.1 = false) ∧
    (∀ src : MediaSource, d.mDecoderSource = some src →
      src.format.width = none ∨ src.format.height = none ∨ src.format.component = none ∨
        src.format.colorFormat = none →
      d.setVideoDecoderFormat.1 = false) := by
  refine ⟨?_, ?_, ?_, ?_⟩
  · intro h
    unfold setVideoDecoderFormat at h ⊢
    cases hs : d.mDecoderSource with
    | none => simp [hs] at h
    | some src =>
      cases hw : src.format.width with
      | none => simp [hs, hw] at h
      | some stride =>
        cases hh : src.format.height with
        | none => simp [hs, hw, hh] at h
        | some sliceHeight =>
          cases hc : src.format.component with
          | none => simp [hs, hw, hh, hc] at h
          | some name =>
            cases hk : src.format.colorFormat with
            | none => simp [hs, hw, hh, hc, hk] at h
            | some color =>
              refine ⟨src, name, color, rfl, ?_⟩
              simp only [hs, hw, hh, hc, hk] at h ⊢
              by_cases g1 : stride ≤ 0
              · simp [g1] at h
              · by_cases g2 : sliceHeight ≤ 0
                · simp [g1, g2] at h
                · cases hr : src.format.cropRect with
                  | none =>
                    simp only [g1, g2, if_false, hr] at h ⊢
                    split_ifs at h ⊢ with g3
                    · simp only [not_or, not_lt, not_le] at g3
                      dsimp only
                      simp only [true_and, implies_true, and_true, and_self]
                      omega
                  | some rect =>
                    obtain ⟨left, top, right, bottom⟩ := rect
                    simp only [g1, g2, if_false, hr] at h ⊢
                    split_ifs at h ⊢ with g3
                    · simp only [not_or, not_lt, not_le] at g3
                      dsimp only
                      simp only [true_and, false_implies, and_true, reduceCtorEq]
                      omega
  · intro src stride sliceHeight color name hs hw hh hc hk g1 g2 hr
    unfold setVideoDecoderFormat
    have g1n : ¬ stride ≤ 0 := by omega
    have g2n : ¬ sliceHeight ≤ 0 := by omega
    simp only [hs, hw, hh, hc, hk, g1n, g2n, if_false, hr]
    split_ifs <;> exact ⟨rfl, rfl, rfl, rfl⟩
  · intro hs
    simp [setVideoDecoderFormat, hs]
  · intro src hs hm
    unfold setVideoDecoderFormat
    simp only [hs]
    rcases hm with hw | hh | hc | hk
    · simp [hw]
    · cases hw : src.format.width <;> simp [hh]
    · cases hw : src.format.width <;> cases hh : src.format.height <;> simp [hc]
    · cases hw : src.format.width <;> cases hh : src.format.height <;>
        cases hc : src.format.component <;> simp [hk]

theorem setVideoDecoderFormat_geometry_witness :
    plainDecoder.setVideoDecoderFormat.1 = true ∧
    plainSource.format.cropRect = none ∧
    0 < plainDecoder.setVideoDecoderFormat.2.mVideoStride ∧
    0 < plainDecoder.setVideoDecoderFormat.2.mVideoSliceHeight ∧
    plainDecoder.setVideoDecoderFormat.2.mVideoCropLeft
      < plainDecoder.setVideoDecoderFormat.2.mVideoCropRight ∧
    plainDecoder.setVideoDecoderFormat.2.mVideoCropRight
      < plainDecoder.setVideoDecoderFormat.2.mVideoStride ∧
    2 ≤ plainDecoder.setVideoDecoderFormat.2.mVideoWidth ∧
    2 ≤ plainDecoder.setVideoDecoderFormat.2.mVideoHeight ∧
    plainDecoder.setVideoDecoderFormat.2.mVideoWidth = 640 ∧
    plainDecoder.setVideoDecoderFormat.2.mVideoHeight = 480 ∧
    plainDecoder.setVideoDecoderFormat.2.mVideoCropRight = 639 ∧
    plainDecoder.setVideoDecoderFormat.2.mVideoCropBottom = 479 ∧
    ({ plainDecoder with mDecoderSource := none } : Decoder).setVideoDecoderFormat.1 = false := by
  obtain ⟨_, _, _, _, _, _, _, _, h1, h2, _, h3, h4, _, _, _, _, _, h5, _, h6, _, _⟩ :=
    (setVideoDecoderFormat_geometry plainDecoder).1 (by decide)
  exact ⟨by decide, rfl, h1, h2, h3, h4, h5, h6, by decide, by decide, by decide, by decide,
    (setVideoDecoderFormat_geometry { plainDecoder with mDecoderSource := none }).2.2.1 rfl⟩

theorem isFull_eq_true (l : List DataElement) (h : ∀ e ∈ l, e.mStatus ≠ FREE) :
    isFull l = true := by
  induction l with
  | nil => rfl
  | cons a as ih =>
    have ha : a.mStatus ≠ FREE := h a (List.mem_cons_self _ _)
    simp only [isFull, ha, if_false]
    exact ih (fun e he => h e (List.mem_cons_of_mem _ he))

theorem push_cases (q : BufferQueue) (f : Frame) (wait : Bool) :
    q.push f wait = .blocked ∨
    ∃ (j : Nat) (e : DataElement), q.mElements[j]? = some e ∧ e.mStatus = FREE ∧
      q.push f wait =
        (if wait then
          .parked (j : Int)
            { q with mElements := q.mElements.set j { mData := f, mStatus := q.mCount },
                     mCount := (q.mCount + 1) % 2 ^ 32 }
            e.mData
        else
          .returned (j : Int)
            { q with mElements := q.mElements.set j { mData := f, mStatus := q.mCount },
                     mCount := (q.mCount + 1) % 2 ^ 32 }
            e.mData) := by
  by_cases h : ∃ e ∈ q.mElements, e.mStatus = FREE
  · right
    obtain ⟨j, e, h1, h2, _, h4⟩ := pushLoop_spec f q.mCount q.mElements 0 h
    refine ⟨j, e, h1, h2, ?_⟩
    rw [Nat.zero_add] at h4
    simp only [push, isFull_eq_false _ h, h4]
    cases wait <;> simp
  · left
    have h1 : ∀ e ∈ q.mElements, e.mStatus ≠ FREE := fun e he hf => h ⟨e, he, hf⟩
    simp only [push, isFull_eq_true _ h1, if_true]

theorem filter_set_less (p : DataElement → Bool) (x : DataElement) (hx : p x = false)
    (l : List DataElement) :
    ∀ (j : Nat) (e : DataElement), l[j]? = some e → p e = true →
      ((l.set j x).filter p).length + 1 = (l.filter p).length := by
  induction l with
  | nil => intro j e h; simp at h
  | cons a as ih =>
    intro j e h he
    cases j with
    | zero =>
      simp at h; subst h
      simp [List.filter_cons, he, hx]
    | succ j =>
      simp at h
      have := ih j e h he
      cases ha : p a
      · simp [List.filter_cons, ha]; omega
      · simp [List.filter_cons, ha]; omega

theorem filter_set_more (p : DataElement → Bool) (x : DataElement) (hx : p x = true)
    (l : List DataElement) :
    ∀ (j : Nat) (e : DataElement), l[j]? = some e → p e = false →
      ((l.set j x).filter p).length = (l.filter p).length + 1 := by
  induction l with
  | nil => intro j e h; simp at h
  | cons a as ih =>
    intro j e h he
    cases j with
    | zero =>
      simp at h; subst h
      simp [List.filter_cons, he, hx]
    | succ j =>
      simp at h
      have := ih j e h he
      cases ha : p a
      · simp [List.filter_cons, ha]; omega
      · simp [List.filter_cons, ha]; omega

theorem getElem?_set_cases {l : List DataElement} {i j : Nat} {x b : DataElement}
    (h : (l.set i x)[j]? = some b) : (i = j ∧ b = x) ∨ (i ≠ j ∧ l[j]? = some b) := by
  by_cases hij : i = j
  · subst hij
    left
    have hlt : i < (l.set i x).length := slot_lt h
    rw [List.length_set] at hlt
    rw [List.getElem?_set_self hlt] at h
    simp only [Option.some.injEq] at h
    exact ⟨rfl, h.symm⟩
  · right
    rw [List.getElem?_set_ne hij] at h
    exact ⟨hij, h⟩

theorem numbered_keep {q q1 : BufferQueue} (hq : Numbered q) (hc : q.mCount ≤ q1.mCount)
    (h : ∀ (j : Nat) (b : DataElement), q1.mElements[j]? = some b → Sequenced b →
      ∃ a, q.mElements[j]? = some a ∧ a.mStatus = b.mStatus) : Numbered q1 := by
  constructor
  · intro e he hs
    obtain ⟨j, hj⟩ := List.getElem?_of_mem he
    obtain ⟨a, ha, hab⟩ := h j e hj hs
    have hsa : Sequenced a := by unfold Sequenced at hs ⊢; omega
    have := hq.1 a (List.getElem?_mem ha) hsa
    omega
  · intro i j a b hi hj hsa hsb hab
    obtain ⟨a0, ha0, e1⟩ := h i a hi hsa
    obtain ⟨b0, hb0, e2⟩ := h j b hj hsb
    refine hq.2 i j a0 b0 ha0 hb0 ?_ ?_ ?_
    · unfold Sequenced at hsa ⊢; omega
    · unfold Sequenced at hsb ⊢; omega
    · omega

theorem numbered_set {q q1 : BufferQueue} (hq : Numbered q) (hc : q.mCount ≤ q1.mCount)
    {i : Nat} {x : DataElement} (he : q1.mElements = q.mElements.set i x)
    (hx : ¬ Sequenced x ∨ ∃ e, q.mElements[i]? = some e ∧ e.mStatus = x.mStatus) :
    Numbered q1 := by
  refine numbered_keep hq hc ?_
  intro j b hj hs
  rw [he] at hj
  rcases getElem?_set_cases hj with ⟨hij, hb⟩ | ⟨_, hb⟩
  · subst hij
    subst hb
    rcases hx with hx | ⟨e, h1, h2⟩
    · exact absurd hs hx
    · exact ⟨e, h1, h2⟩
  · exact ⟨b, hb, rfl⟩

theorem numbered_same {q q1 : BufferQueue} (hq : Numbered q) (hc : q.mCount ≤ q1.mCount)
    (he : q1.mElements = q.mElements) : Numbered q1 := by
  refine numbered_keep hq hc ?_
  intro j b hj _
  rw [he] at hj
  exact ⟨b, hj, rfl⟩

theorem numbered_push {q q1 : BufferQueue} (hq : Numbered q) (hc : q.mCount ≤ q1.mCount)
    {j : Nat} {f : Frame}
    (h1 : q1 = { q with mElements := q.mElements.set j { mData := f, mStatus := q.mCount },
                        mCount := (q.mCount + 1) % 2 ^ 32 }) : Numbered q1 := by
  subst h1
  simp only at hc
  have hlt : q.mCount + 1 < 2 ^ 32 := by
    by_contra hge
    have h2 : (q.mCount + 1) % 2 ^ 32 < 2 ^ 32 := Nat.mod_lt _ (by decide)
    rcases Nat.lt_or_ge (q.mCount + 1) (2 ^ 32 + 1) with h3 | h3
    · have h4 : q.mCount + 1 = 2 ^ 32 := by omega
      rw [h4, Nat.mod_self] at hc
      omega
    · omega
  have hm : (q.mCount + 1) % 2 ^ 32 = q.mCount + 1 := Nat.mod_eq_of_lt hlt
  constructor
  · intro b hb hs
    simp only at hb ⊢
    rw [hm]
    obtain ⟨t, ht⟩ := List.getElem?_of_mem hb
    rcases getElem?_set_cases ht with ⟨_, hb1⟩ | ⟨_, hb1⟩
    · rw [hb1]
      exact Nat.lt_succ_self _
    · have := hq.1 b (List.getElem?_mem hb1) hs
      omega
  · intro i t a b hi ht hsa hsb hab
    simp only at hi ht
    rcases getElem?_set_cases hi with ⟨hi1, ha1⟩ | ⟨hi1, ha1⟩ <;>
      rcases getElem?_set_cases ht with ⟨ht1, hb1⟩ | ⟨ht1, hb1⟩
    · omega
    · have := hq.1 b (List.getElem?_mem hb1) hsb
      rw [ha1] at hab
      simp only at hab
      omega
    · have := hq.1 a (List.getElem?_mem ha1) hsa
      rw [hb1] at hab
      simp only at hab
      omega
    · exact hq.2 i t a b ha1 hb1 hsa hsb hab

theorem clearSlot_not_sequenced (e : DataElement) : ¬ Sequenced (clearSlot e) := by
  unfold Sequenced clearSlot
  by_cases h : e.mStatus = HOLDED
  · simp only [h, if_true]; decide
  · simp only [h, if_false]; decide

theorem numbered_step {q q1 : BufferQueue} (hq : Numbered q) (hs : Step q q1)
    (hc : q.mCount ≤ q1.mCount) : Numbered q1 := by
  rcases hs with ⟨data, d1, ret, h⟩ | ⟨data, d1, index, h⟩ | ⟨data, d1, index, h⟩ |
    ⟨w, w1, index, h⟩ | ⟨w, w1, index, h⟩ | ⟨data, wb, ws, h⟩ | ⟨w, h⟩ | ⟨w, h⟩ |
    ⟨w, w1, waitTime, periods, count, h⟩
  · rcases push_cases q data false with hb | ⟨j, e, _, _, hp⟩
    · rw [hb] at h; cases h
    · rw [hp] at h
      simp only [Bool.false_eq_true, if_false, PushResult.returned.injEq] at h
      exact numbered_push hq hc h.2.1.symm
  · rcases push_cases q data true with hb | ⟨j, e, _, _, hp⟩
    · rw [hb] at h; cases h
    · rw [hp] at h
      simp only [if_true, PushResult.parked.injEq] at h
      exact numbered_push hq hc h.2.1.symm
  · unfold pull at h
    split_ifs at h with g1
    · simp only [Option.some.injEq, Prod.mk.injEq] at h
      exact numbered_same hq hc (by rw [← h.1])
    · cases hi : q.mElements[index.toNat]? with
      | none => rw [hi] at h; cases h
      | some e =>
        rw [hi] at h
        simp only at h
        split_ifs at h with g2
        · simp only [Option.some.injEq, Prod.mk.injEq] at h
          exact numbered_same hq hc (by rw [← h.1])
        · simp only [Option.some.injEq, Prod.mk.injEq] at h
          refine numbered_set hq hc (by rw [← h.1]) (Or.inl ?_)
          exact Nat.lt_irrefl FREE
  · unfold free at h
    split_ifs at h with g1
    · simp only [Option.some.injEq, Prod.mk.injEq] at h
      exact numbered_same hq hc (by rw [← h.1])
    · cases hi : q.mElements[index.toNat]? with
      | none => rw [hi] at h; cases h
      | some e =>
        rw [hi] at h
        simp only at h
        split_ifs at h with g2
        · simp only [Option.some.injEq, Prod.mk.injEq] at h
          exact numbered_same hq hc (by rw [← h.1])
        · simp only [Option.some.injEq, Prod.mk.injEq] at h
          refine numbered_set hq hc (by rw [← h.1]) (Or.inl ?_)
          exact Nat.lt_irrefl FREE
  · unfold clearBuffer at h
    split_ifs at h with g1
    · simp only [Option.some.injEq, Prod.mk.injEq] at h
      exact numbered_same hq hc (by rw [← h.1])
    · cases hi : q.mElements[index.toNat]? with
      | none => rw [hi] at h; cases h
      | some e =>
        rw [hi] at h
        simp only [Option.some.injEq, Prod.mk.injEq] at h
        exact numbered_set hq hc (i := index.toNat)
          (x := { e with mData := (e.mData.clearBuffers (some q.mMediaQueue) w).1 })
          (by rw [← h.1]) (Or.inr ⟨e, hi, rfl⟩)
  · unfold holdNext at h
    cases hj : (holdScan q.mElements 0 FREE none).2 with
    | none =>
      rw [hj] at h
      exact numbered_same hq hc (by rw [h])
    | some j =>
      rw [hj] at h
      cases hi : q.mElements[j]? with
      | none =>
        simp only [hi] at h
        exact numbered_same hq hc (by rw [h])
      | some e =>
        simp only [hi] at h
        refine numbered_set hq hc (i := j) (x := { e with mStatus := HOLDED }) (by rw [h])
          (Or.inl ?_)
        show ¬ (HOLDED < FREE)
        decide
  · refine numbered_keep hq hc ?_
    intro j b hj hsb
    rw [h] at hj
    simp only [clearAll, (clearAllLoop_spec q.mElements q.mMediaQueue w).1] at hj
    rw [List.getElem?_map] at hj
    cases ha : q.mElements[j]? with
    | none => rw [ha] at hj; cases hj
    | some a =>
      rw [ha] at hj
      simp only [Option.map_some', Option.some.injEq] at hj
      rw [← hj] at hsb
      exact absurd hsb (clearSlot_not_sequenced a)
  · exact numbered_same hq hc (by rw [h]; rfl)
  · unfold waitRelease at h
    cases hl : waitReleaseLoop q waitTime periods q.filledCount with
    | none => rw [hl] at h; cases h
    | some n =>
      rw [hl] at h
      simp only [Option.map_some', Option.some.injEq, Prod.mk.injEq] at h
      exact numbered_same hq hc (by rw [← h.2.1])

theorem unwrapped_numbered {capacity : Int} {q : BufferQueue} (h : Unwrapped capacity q) :
    Numbered q := by
  induction h with
  | init =>
    constructor
    · intro e he hs
      simp only [BufferQueue.new, List.mem_replicate] at he
      rw [he.2] at hs
      exact absurd hs (by unfold Sequenced DataElement.new; decide)
    · intro i j a b hi hj hsa _ _
      have ha := List.getElem?_mem hi
      simp only [BufferQueue.new, List.mem_replicate] at ha
      rw [ha.2] at hsa
      exact absurd hsa (by unfold Sequenced DataElement.new; decide)
  | step _ hs hc ih => exact numbered_step ih hs hc

theorem holdNth_reaches (n : Nat) :
    ∀ (q : BufferQueue) (j : Nat) (e : DataElement),
      (q.mElements.filter (fun x => decide (x.mStatus < FREE))).length ≤ n + 1 →
      q.mElements[j]? = some e → Sequenced e → ∃ k, k ≤ n ∧ q.holdNth k = (j : Int) := by
  induction n with
  | zero =>
    intro q j e hlen hj hs
    obtain ⟨j1, e1, h1, h2, _, _, h5⟩ := holdNext_eq q Frame.new false false
      ⟨e, List.getElem?_mem hj, hs⟩
    by_cases hjj : j1 = j
    · exact ⟨0, Nat.le_refl _, by simp only [holdNth, h5, hjj]⟩
    · exfalso
      have hc := filter_set_less (fun x => decide (x.mStatus < FREE)) { e1 with mStatus := HOLDED }
        (decide_eq_false (by decide : ¬ HOLDED < FREE)) q.mElements j1 e1 h1 (by simpa using h2)
      have hj2 : (q.mElements.set j1 { e1 with mStatus := HOLDED })[j]? = some e := by
        rw [List.getElem?_set_ne hjj]; exact hj
      have hm : e ∈ (q.mElements.set j1 { e1 with mStatus := HOLDED }).filter
          (fun x => decide (x.mStatus < FREE)) :=
        List.mem_filter.mpr ⟨List.getElem?_mem hj2, by simpa using hs⟩
      have hp := List.length_pos_of_mem hm
      omega
  | succ m ih =>
    intro q j e hlen hj hs
    obtain ⟨j1, e1, h1, h2, _, _, h5⟩ := holdNext_eq q Frame.new false false
      ⟨e, List.getElem?_mem hj, hs⟩
    by_cases hjj : j1 = j
    · exact ⟨0, Nat.zero_le _, by simp only [holdNth, h5, hjj]⟩
    · have hc := filter_set_less (fun x => decide (x.mStatus < FREE)) { e1 with mStatus := HOLDED }
        (decide_eq_false (by decide : ¬ HOLDED < FREE)) q.mElements j1 e1 h1 (by simpa using h2)
      have hj2 : (q.mElements.set j1 { e1 with mStatus := HOLDED })[j]? = some e := by
        rw [List.getElem?_set_ne hjj]; exact hj
      obtain ⟨k, hk, hr⟩ := ih
        { q with mElements := q.mElements.set j1 { e1 with mStatus := HOLDED } } j e
        (by simp only; omega) hj2 hs
      refine ⟨k + 1, by omega, ?_⟩
      simp only [holdNth, h5]
      exact hr

theorem holdNth_capacity (q : BufferQueue) (j : Nat) (e : DataElement)
    (hj : q.mElements[j]? = some e) (hs : Sequenced e) :
    ∃ k, k < q.capacity ∧ q.holdNth k = (j : Int) := by
  have hpos : 0 < q.mElements.length := by have := slot_lt hj; omega
  have hle := List.length_filter_le (fun x => decide (x.mStatus < FREE)) q.mElements
  obtain ⟨k, hk, hr⟩ := holdNth_reaches (q.mElements.length - 1) q j e (by omega) hj hs
  exact ⟨k, by unfold capacity; omega, hr⟩

/-- C28, as the code has it: when the arrival counter is below `FREE`, a `push`
that fills a slot (whether it returns at once or waits to be held) leaves that
slot with the counter's value as its state, which is neither `FREE` nor
`HOLDED`; the slot is sequenced, `readyCount()` grows by one, and one of the
next `capacity` calls of `holdNext` returns its index. And in every state the
pool reaches before the counter wraps around, the sequenced slots carry
arrival numbers below the counter, no two of them the same. -/
theorem arrival_numbers (q : BufferQueue) :
    (∀ (data : Frame) (wait : Bool) (index : Int) (q1 : BufferQueue) (d1 : Frame),
      q.mCount < FREE →
      q.push data wait = .returned index q1 d1 ∨ q.push data wait = .parked index q1 d1 →
      ∃ (j : Nat) (e : DataElement), index = (j : Int) ∧ q1.mElements[j]? = some e ∧
        e.mData = data ∧ e.mStatus = q.mCount ∧ e.mStatus ≠ FREE ∧ e.mStatus ≠ HOLDED ∧
        Sequenced e ∧ q1.readyCount = q.readyCount + 1 ∧
        ∃ k, k < q1.capacity ∧ q1.holdNth k = index) ∧
    (∀ capacity : Int, Unwrapped capacity q → Numbered q) := by
  refine ⟨?_, fun _ h => unwrapped_numbered h⟩
  intro data wait index q1 d1 hn hp
  rcases push_cases q data wait with hb | ⟨j, e0, hj, hfree, he⟩
  · rw [hb] at hp
    rcases hp with hp | hp <;> cases hp
  · have hq1 : index = (j : Int) ∧
        q1 = { q with mElements := q.mElements.set j { mData := data, mStatus := q.mCount },
                      mCount := (q.mCount + 1) % 2 ^ 32 } := by
      rw [he] at hp
      cases wait with
      | true =>
        simp only [if_true] at hp
        rcases hp with hp | hp
        · cases hp
        · simp only [PushResult.parked.injEq] at hp
          exact ⟨hp.1.symm, hp.2.1.symm⟩
      | false =>
        simp only [Bool.false_eq_true, if_false] at hp
        rcases hp with hp | hp
        · simp only [PushResult.returned.injEq] at hp
          exact ⟨hp.1.symm, hp.2.1.symm⟩
        · cases hp
    obtain ⟨hidx, hq⟩ := hq1
    have hlt : j < q.mElements.length := slot_lt hj
    have hslot : q1.mElements[j]? = some { mData := data, mStatus := q.mCount } := by
      rw [hq]
      exact List.getElem?_set_self hlt
    have hseq : Sequenced { mData := data, mStatus := q.mCount } := hn
    have hF : q.mCount ≠ FREE := Nat.ne_of_lt hn
    have hH : q.mCount ≠ HOLDED := by
      have : FREE < HOLDED := by decide
      omega
    refine ⟨j, _, hidx, hslot, rfl, rfl, hF, hH, hseq, ?_, ?_⟩
    · rw [hq]
      unfold readyCount
      exact filter_set_more (fun e => e.mStatus != FREE && e.mStatus != HOLDED)
        { mData := data, mStatus := q.mCount } (by simp [hF, hH]) q.mElements j e0 hj
        (by simp [hfree])
    · rw [hidx]
      exact holdNth_capacity q1 j _ hslot hseq

theorem arrival_numbers_witness :
    (twoReadyQueue.mCount < FREE ∧
      twoReadyQueue.push handleFrame false = .returned 1 threeReadyQueue Frame.new) ∧
    (∃ (j : Nat) (e : DataElement), (1 : Int) = (j : Int) ∧
      threeReadyQueue.mElements[j]? = some e ∧
      e.mData = handleFrame ∧ e.mStatus = twoReadyQueue.mCount ∧ e.mStatus ≠ FREE ∧
      e.mStatus ≠ HOLDED ∧ Sequenced e ∧
      threeReadyQueue.readyCount = twoReadyQueue.readyCount + 1 ∧
      ∃ k, k < threeReadyQueue.capacity ∧ threeReadyQueue.holdNth k = 1) ∧
    threeReadyQueue.holdNth 2 = 1 ∧
    Unwrapped 3 (BufferQueue.new 3) ∧ Numbered (BufferQueue.new 3) :=
  ⟨⟨by decide, by decide⟩,
    (arrival_numbers twoReadyQueue).1 handleFrame false 1 threeReadyQueue Frame.new (by decide)
      (Or.inl (by decide)),
    by decide, Unwrapped.init,
    (arrival_numbers (BufferQueue.new 3)).2 3 Unwrapped.init⟩

/-- C28 fails as stated: with the arrival counter at the value of `HOLDED`,
`push` returns the slot index 0 and leaves the slot with the state `HOLDED`,
so it is not counted by `readyCount()` and `holdNext` returns
`INFO_TRY_AGAIN_LATER`; with the counter one higher the slot's state is
neither `FREE` nor `HOLDED` and `readyCount()` counts it, but `holdNext`, which
only looks below `FREE`, never returns it. -/
theorem push_counter_at_held :
    Reachable 1 heldCountQueue ∧ Reachable 1 pastCountQueue ∧
    heldCountQueue.push handleFrame false = .returned 0 heldCountPushed Frame.new ∧
    heldCountPushed.mElements = [{ mData := handleFrame, mStatus := HOLDED }] ∧
    heldCountPushed.readyCount = 0 ∧
    (heldCountPushed.holdNext Frame.new false false).ret = INFO_TRY_AGAIN_LATER ∧
    pastCountQueue.push handleFrame false = .returned 0 pastCountPushed Frame.new ∧
    pastCountPushed.mElements = [{ mData := handleFrame, mStatus := HOLDED + 1 }] ∧
    pastCountPushed.readyCount = 1 ∧
    ∀ k, pastCountPushed.holdNth k = INFO_TRY_AGAIN_LATER := by
  refine ⟨reachable_count 0 HOLDED, reachable_count 0 (HOLDED + 1), by decide, rfl, by decide,
    by decide, by decide, rfl, by decide, ?_⟩
  intro k
  induction k with
  | zero => decide
  | succ n ih =>
    have hq : (pastCountPushed.holdNext Frame.new false false).q = pastCountPushed := by decide
    simp only [holdNth, hq]
    exact ih

/-- C24: without renderer the slot that `dequeueOutputBuffer` takes is left in
the state `HOLDED` whatever its frame's status, so the number of held slots
grows by one also when the call returns `INFO_OUTPUT_FORMAT_CHANGED` or
`INFO_OUTPUT_END_OF_STREAM`. After the creation of a decoder without renderer
the first call returns `INFO_OUTPUT_FORMAT_CHANGED` and slot 0 stays held; with
a renderer an end-of-stream frame leaves its slot held as well; only a
format-changed frame with a renderer has its slot pulled back to `FREE`. -/
theorem sentinel_slot_stays_held :
    pushFormatChanged androidCodes Decoder.new World.empty = .done (formatDecoder, World.empty) ∧
    formatDecoder.mRenderer = none ∧ formatDecoder.mOutQueue.heldCount = 0 ∧
    (∃ r, formatDecoder.dequeueOutputBuffer androidCodes World.empty = some r ∧
      r.ret = INFO_OUTPUT_FORMAT_CHANGED ∧ r.d.mOutQueue.heldCount = 1 ∧
      (r.d.mOutQueue.mElements[0]?).map (fun e => e.mStatus) = some HOLDED) ∧
    eosWindowDecoder.mOutQueue.heldCount = 0 ∧
    (∃ r, eosWindowDecoder.dequeueOutputBuffer androidCodes World.empty = some r ∧
      r.ret = INFO_OUTPUT_END_OF_STREAM ∧ r.d.mOutQueue.heldCount = 1 ∧
      (r.d.mOutQueue.mElements[0]?).map (fun e => e.mStatus) = some HOLDED) ∧
    (∃ r, formatWindowDecoder.dequeueOutputBuffer androidCodes World.empty = some r ∧
      r.ret = INFO_OUTPUT_FORMAT_CHANGED ∧ r.d.mOutQueue.heldCount = 0) ∧
    (∀ (c : Codes) (d : Decoder) (w : World), d.mRenderer = none →
      (∃ e ∈ d.mOutQueue.mElements, Sequenced e) →
      ∃ r, d.dequeueOutputBuffer c w = some r ∧
        r.d.mOutQueue.heldCount = d.mOutQueue.heldCount + 1) := by
  refine ⟨by decide, rfl, by decide, ⟨_, rfl, by decide, by decide, by decide⟩, by decide,
    ⟨_, rfl, by decide, by decide, by decide⟩, ⟨_, rfl, by decide, by decide⟩, ?_⟩
  intro c d w hr hs
  obtain ⟨j, e, h1, h2, _, _, h5⟩ := holdNext_eq d.mOutQueue Frame.new true true hs
  refine ⟨_, by
    simp only [dequeueOutputBuffer, hr, Option.isSome_none, Bool.false_eq_true, if_false]
    rfl, ?_⟩
  simp only [h5, heldCount]
  exact filter_set_more (fun e => e.mStatus == HOLDED) { e with mStatus := HOLDED }
    (by simp) d.mOutQueue.mElements j e h1
    (by
      have : e.mStatus ≠ HOLDED := by
        have : FREE < HOLDED := by decide
        omega
      simpa using this)

theorem clearSlot_status (e : DataElement) :
    (clearSlot e).mStatus = if e.mStatus = HOLDED then HOLDED else FREE := rfl

theorem clearSlot_idem (e : DataElement) : clearSlot (clearSlot e) = clearSlot e := by
  unfold clearSlot
  by_cases h : e.mStatus = HOLDED
  · simp [h]
  · have : FREE ≠ HOLDED := by decide
    simp [h, this]

theorem clearBuffers_of_empty (f : Frame) (h1 : f.mBuffer = 0) (h2 : f.mMediaBuffer = 0)
    (mq : Option (List Ptr)) (w : World) : f.clearBuffers mq w = (f, mq, w) := by
  simp [Frame.clearBuffers, h1, h2]

theorem clearAllLoop_cleared (l : List DataElement) :
    ∀ (mq : List Ptr) (w : World),
      clearAllLoop (l.map clearSlot) mq w = (l.map clearSlot, mq, w) := by
  induction l with
  | nil => intro mq w; rfl
  | cons a as ih =>
    intro mq w
    have hb : (clearSlot a).mData.clearBuffers (some mq) w = ((clearSlot a).mData, some mq, w) :=
      clearBuffers_of_empty _ rfl rfl _ _
    simp only [List.map_cons, clearAllLoop, hb, Option.getD_some, ih]
    have hs : (if (clearSlot a).mStatus ≠ HOLDED then FREE else (clearSlot a).mStatus)
        = (clearSlot a).mStatus := by
      rw [clearSlot_status]
      by_cases h : a.mStatus = HOLDED
      · simp [h]
      · simp [h]
    rw [hs]

theorem clearAll_eq (q : BufferQueue) (w : World) :
    (q.clearAll w).1 = { q with mElements := q.mElements.map clearSlot, mMediaQueue := [] } := by
  simp only [clearAll, (clearAllLoop_spec q.mElements q.mMediaQueue w).1]

theorem clearAll_cleared (q : BufferQueue) (l : List DataElement) (w : World)
    (h1 : q.mElements = l.map clearSlot) (h2 : q.mMediaQueue = []) : q.clearAll w = (q, w) := by
  obtain ⟨mq, es, n⟩ := q
  simp only at h1 h2
  subst h1
  subst h2
  simp only [clearAll, clearAllLoop_cleared, releaseMediaBufferQueue]

theorem clearAll_twice (q : BufferQueue) (w : World) :
    (q.clearAll w).1.clearAll (q.clearAll w).2 = q.clearAll w :=
  clearAll_cleared _ q.mElements _ (by rw [clearAll_eq]) (by rw [clearAll_eq])

theorem clearAll_not_sequenced (q : BufferQueue) (w : World) :
    ∀ e ∈ (q.clearAll w).1.mElements, ¬ e.mStatus < FREE := by
  intro e he
  rw [clearAll_eq] at he
  simp only [List.mem_map] at he
  obtain ⟨a, _, ha⟩ := he
  rw [← ha]
  exact clearSlot_not_sequenced a

theorem decodeRead_error (c : Codes) (d : Decoder) (w : World) (skipEnabled : Bool)
    (ev : ReadEvent) (hi : d.mInterrupted = false) (h1 : ev.status ≠ OK)
    (h2 : ev.status ≠ c.INFO_FORMAT_CHANGED) (h3 : ev.status ≠ c.ERROR_END_OF_STREAM)
    (h4 : ev.status ≠ c.INFO_DISCONTINUITY) :
    ∃ w1, decodeRead c d w skipEnabled ev
      = .done ({ d with mOutQueue := { d.mOutQueue with
                   mElements := d.mOutQueue.mElements.map clearSlot, mMediaQueue := [] } },
               w1, .reading skipEnabled) := by
  constructor
  simp only [decodeRead, hi, h1, h2, h3, h4, Bool.false_eq_true, if_false, decodeCond,
    Bool.not_false, Bool.and_self, if_true, decodeTop, releaseBuffers, clearAll_eq]
  rfl

/-- C22, as the code has it: after `clearAll` no slot is ready, every slot
that was held is still held, `size()` is the number of slots that were held
and the deferred list is empty; a second and a third `clearAll` change neither
the pool nor the world; the worker's pass for a read status that is none of
`OK`, `INFO_FORMAT_CHANGED`, `ERROR_END_OF_STREAM` and `INFO_DISCONTINUITY`
leaves the pool so cleared and the worker back in `read`. When some slot was
not held and the arrival counter is below `FREE`, a following `push` returns
the index of a slot that now carries the frame, and the next `holdNext`
returns that index with the frame's status and pts; when every slot was held
the `push` waits for a free slot. -/
theorem clearAll_idle (q : BufferQueue) (w : World) :
    (q.clearAll w).1.readyCount = 0 ∧
    (∀ (j : Nat) (e : DataElement), q.mElements[j]? = some e → e.mStatus = HOLDED →
      ((q.clearAll w).1.mElements[j]?).map (fun e1 => e1.mStatus) = some HOLDED) ∧
    (q.clearAll w).1.size = q.heldCount ∧
    (q.clearAll w).1.mMediaQueue = [] ∧
    (q.clearAll w).1.clearAll (q.clearAll w).2 = q.clearAll w ∧
    ((q.clearAll w).1.clearAll (q.clearAll w).2).1.clearAll
        ((q.clearAll w).1.clearAll (q.clearAll w).2).2 = q.clearAll w ∧
    (∀ (c : Codes) (d : Decoder) (w0 : World) (skipEnabled : Bool) (ev : ReadEvent),
      d.mOutQueue = q → d.mInterrupted = false → ev.status ≠ OK →
      ev.status ≠ c.INFO_FORMAT_CHANGED → ev.status ≠ c.ERROR_END_OF_STREAM →
      ev.status ≠ c.INFO_DISCONTINUITY →
      ∃ w1, decodeRead c d w0 skipEnabled ev
        = .done ({ d with mOutQueue := (q.clearAll w).1 }, w1, .reading skipEnabled)) ∧
    (∀ f out : Frame, (∃ e ∈ q.mElements, e.mStatus ≠ HOLDED) → q.mCount < FREE →
      ∃ (j : Nat) (q2 : BufferQueue) (d1 : Frame),
        (q.clearAll w).1.push f false = .returned (j : Int) q2 d1 ∧
        q2.mElements[j]? = some { mData := f, mStatus := q.mCount } ∧
        q2.holdNext out false false
          = { ret := (j : Int),
              q := { q2 with mElements := q2.mElements.set j { mData := f, mStatus := HOLDED } },
              data := { out with mStatus := f.mStatus, mPts := f.mPts },
              buffer := none, size := none }) ∧
    ((∀ e ∈ q.mElements, e.mStatus = HOLDED) →
      ∀ (f : Frame) (wait : Bool), (q.clearAll w).1.push f wait = .blocked) := by
  have hFH : FREE ≠ HOLDED := by decide
  refine ⟨?_, ?_, ?_, ?_, clearAll_twice q w, ?_, ?_, ?_, ?_⟩
  · rw [clearAll_eq]
    simp only [readyCount, List.length_eq_zero, List.filter_eq_nil_iff, List.mem_map]
    rintro e ⟨a, _, rfl⟩
    rw [clearSlot_status]
    by_cases h : a.mStatus = HOLDED <;> simp [h]
  · intro j e hj hs
    rw [clearAll_eq]
    simp only [List.getElem?_map, hj, Option.map_some', clearSlot_status, hs, if_true]
  · rw [clearAll_eq]
    simp only [size, heldCount, List.filter_map, List.length_map]
    congr 1
    apply List.filter_congr
    intro e _
    simp only [Function.comp, clearSlot_status]
    by_cases h : e.mStatus = HOLDED
    · simp [h, hFH.symm]
    · simp [h]
  · rw [clearAll_eq]
  · rw [clearAll_twice, clearAll_twice]
  · intro c d w0 skipEnabled ev hq hi h1 h2 h3 h4
    obtain ⟨w1, h⟩ := decodeRead_error c d w0 skipEnabled ev hi h1 h2 h3 h4
    refine ⟨w1, ?_⟩
    rw [h, clearAll_eq, hq]
  · intro f out ⟨e, he, hne⟩ hn
    have hfree : ∃ x ∈ (q.clearAll w).1.mElements, x.mStatus = FREE := by
      refine ⟨clearSlot e, ?_, by simp [clearSlot_status, hne]⟩
      rw [clearAll_eq]
      exact List.mem_map_of_mem _ he
    obtain ⟨j, e0, h1, _, _, h4⟩ := push_eq (q.clearAll w).1 f hfree
    have hc : (q.clearAll w).1.mCount = q.mCount := by rw [clearAll_eq]
    have hlt : j < (q.clearAll w).1.mElements.length := slot_lt h1
    have hslot : ((q.clearAll w).1.mElements.set j { mData := f, mStatus := q.mCount })[j]?
        = some { mData := f, mStatus := q.mCount } := List.getElem?_set_self hlt
    refine ⟨j, _, _, h4, by simp only [hc]; exact hslot, ?_⟩
    simp only [hc]
    obtain ⟨j1, e1, g1, g2, _, _, g5⟩ := holdNext_eq
      { (q.clearAll w).1 with
        mElements := (q.clearAll w).1.mElements.set j { mData := f, mStatus := q.mCount },
        mCount := (q.mCount + 1) % 2 ^ 32 } out false false
      ⟨_, List.getElem?_mem hslot, hn⟩
    simp only at g1
    rcases getElem?_set_cases g1 with ⟨hj, hb⟩ | ⟨_, hb⟩
    · subst hj
      subst hb
      rw [g5]
      simp
    · exact absurd g2 (clearAll_not_sequenced q w e1 (List.getElem?_mem hb))
  · intro hall f wait
    have hfull : ∀ x ∈ (q.clearAll w).1.mElements, x.mStatus ≠ FREE := by
      intro x hx
      rw [clearAll_eq] at hx
      simp only [List.mem_map] at hx
      obtain ⟨a, ha, rfl⟩ := hx
      simp [clearSlot_status, hall a ha, hFH.symm]
    simp only [push, isFull_eq_true _ hfull, if_true]

theorem clearAll_idle_witness :
    (idleQueue.mElements[1]? = some { mData := handleFrame, mStatus := HOLDED } ∧
      (∃ e ∈ idleQueue.mElements, e.mStatus ≠ HOLDED) ∧ idleQueue.mCount < FREE ∧
      ({ plainDecoder with mOutQueue := idleQueue } : Decoder).mInterrupted = false ∧
      errorEvent.status ≠ OK ∧ errorEvent.status ≠ androidCodes.INFO_FORMAT_CHANGED ∧
      errorEvent.status ≠ androidCodes.ERROR_END_OF_STREAM ∧
      errorEvent.status ≠ androidCodes.INFO_DISCONTINUITY) ∧
    (idleQueue.clearAll World.empty).1.readyCount = 0 ∧
    ((idleQueue.clearAll World.empty).1.mElements[1]?).map (fun e1 => e1.mStatus) = some HOLDED ∧
    (idleQueue.clearAll World.empty).1.size = 1 ∧
    (∃ w1, decodeRead androidCodes { plainDecoder with mOutQueue := idleQueue } World.empty true
        errorEvent
      = .done ({ plainDecoder with mOutQueue := (idleQueue.clearAll World.empty).1 }, w1,
          .reading true)) ∧
    (∃ (j : Nat) (q2 : BufferQueue) (d1 : Frame),
      (idleQueue.clearAll World.empty).1.push (bytesFrame 3) false = .returned (j : Int) q2 d1 ∧
      q2.mElements[j]? = some { mData := bytesFrame 3, mStatus := idleQueue.mCount } ∧
      q2.holdNext Frame.new false false
        = { ret := (j : Int),
            q := { q2 with
                   mElements := q2.mElements.set j { mData := bytesFrame 3, mStatus := HOLDED } },
            data := { Frame.new with mStatus := (bytesFrame 3).mStatus,
                                     mPts := (bytesFrame 3).mPts },
            buffer := none, size := none }) :=
  ⟨⟨rfl, by decide, by decide, rfl, by decide, by decide, by decide, by decide⟩,
    (clearAll_idle idleQueue World.empty).1,
    (clearAll_idle idleQueue World.empty).2.1 1 _ rfl rfl,
    (clearAll_idle idleQueue World.empty).2.2.1,
    (clearAll_idle idleQueue World.empty).2.2.2.2.2.2.1 androidCodes
      { plainDecoder with mOutQueue := idleQueue } World.empty true errorEvent rfl rfl
      (by decide) (by decide) (by decide) (by decide),
    (clearAll_idle idleQueue World.empty).2.2.2.2.2.2.2.1 (bytesFrame 3) Frame.new (by decide)
      (by decide)⟩

/-- C22 fails as stated: the one slot of `heldQueue` is held, `clearAll` leaves
it held, and a following `push` finds no free slot and waits; and in
`reservedQueue`, whose arrival counter has the value of `FREE`, a `push` after
`clearAll` returns index 0 but the next `holdNext` returns
`INFO_TRY_AGAIN_LATER`. -/
theorem clearAll_then_push_waits :
    heldQueue.mElements = [{ mData := handleFrame, mStatus := HOLDED }] ∧
    (heldQueue.clearAll World.empty).1.mElements
      = [{ mData := { handleFrame with mMediaBuffer := 0 }, mStatus := HOLDED }] ∧
    (heldQueue.clearAll World.empty).1.push (bytesFrame 3) false = .blocked ∧
    (bytesFrame 3).mStatus = OK ∧
    (∃ q2 d1, (reservedQueue.clearAll World.empty).1.push (bytesFrame 3) false
        = .returned 0 q2 d1 ∧
      (q2.holdNext Frame.new false false).ret = INFO_TRY_AGAIN_LATER) := by
  refine ⟨rfl, by decide, by decide, rfl, _, _, rfl, by decide⟩

theorem decodeTail_eq (d : Decoder) (w : World) (mediaBuffer : Ptr) :
    ∃ w1, decodeTail d w mediaBuffer
      = ({ d with mOutQueue := { d.mOutQueue with
             mElements := d.mOutQueue.mElements.map clearSlot, mMediaQueue := [] } },
         w1, .exited) := by
  constructor
  simp only [decodeTail, clearAll_eq]
  rfl

theorem dequeue_cleared (c : Codes) (d : Decoder) (w : World) (l : List DataElement)
    (h1 : c.ERROR_END_OF_STREAM ≠ OK) (h2 : c.INFO_FORMAT_CHANGED ≠ OK)
    (hl : d.mOutQueue.mElements = l.map clearSlot) :
    ∃ r, d.dequeueOutputBuffer c w = some r ∧ r.ret = INFO_TRY_AGAIN_LATER := by
  have hs : ∀ e ∈ d.mOutQueue.mElements, ¬ e.mStatus < FREE := by
    intro e he
    rw [hl] at he
    simp only [List.mem_map] at he
    obtain ⟨a, _, ha⟩ := he
    rw [← ha]
    exact clearSlot_not_sequenced a
  obtain ⟨r, g1, g2, _, _⟩ := dequeue_none c d w h1 h2 hs
  exact ⟨r, g1, g2⟩

theorem decodeRead_leaves (c : Codes) (d : Decoder) (w : World) (skipEnabled : Bool)
    (ev : ReadEvent) (hs : ev.status = c.ERROR_END_OF_STREAM) (h1 : c.ERROR_END_OF_STREAM ≠ OK)
    (h3 : c.ERROR_END_OF_STREAM ≠ c.INFO_FORMAT_CHANGED)
    (h : d.mInterrupted = true ∨ d.mFlushNeeded = false) :
    ∃ w1, decodeRead c d w skipEnabled ev
      = .done ({ d with mOutQueue := { d.mOutQueue with
                   mElements := d.mOutQueue.mElements.map clearSlot, mMediaQueue := [] } },
               w1, .exited) := by
  by_cases hi : d.mInterrupted = true
  · constructor
    simp only [decodeRead, hi, if_true, decodeTail, clearAll_eq, releaseBuffers]
    rfl
  · have hf : d.mFlushNeeded = false := by
      rcases h with h | h
      · exact absurd h hi
      · exact h
    have hi2 : d.mInterrupted = false := by simpa using hi
    constructor
    simp only [decodeRead, hi2, hs, h1, h3, hf, Bool.false_eq_true, if_false, if_true, decodeCond,
      Bool.not_true, Bool.false_and, decodeTail, clearAll_eq, releaseBuffers]
    rfl

theorem push_free (q : BufferQueue) (f : Frame) (wait : Bool)
    (h : ∃ e ∈ q.mElements, e.mStatus = FREE) :
    ∃ (j : Nat) (e : DataElement), q.mElements[j]? = some e ∧ e.mStatus = FREE ∧
      q.push f wait =
        (if wait then
          .parked (j : Int)
            { q with mElements := q.mElements.set j { mData := f, mStatus := q.mCount },
                     mCount := (q.mCount + 1) % 2 ^ 32 }
            e.mData
        else
          .returned (j : Int)
            { q with mElements := q.mElements.set j { mData := f, mStatus := q.mCount },
                     mCount := (q.mCount + 1) % 2 ^ 32 }
            e.mData) := by
  obtain ⟨j, e, h1, h2, _, h4⟩ := pushLoop_spec f q.mCount q.mElements 0 h
  refine ⟨j, e, h1, h2, ?_⟩
  rw [Nat.zero_add] at h4
  simp only [push, isFull_eq_false _ h, h4]
  cases wait <;> simp

theorem decodeRead_flush (c : Codes) (d : Decoder) (w : World) (skipEnabled : Bool)
    (ev : ReadEvent) (hs : ev.status = c.ERROR_END_OF_STREAM) (h1 : c.ERROR_END_OF_STREAM ≠ OK)
    (h3 : c.ERROR_END_OF_STREAM ≠ c.INFO_FORMAT_CHANGED)
    (hi : d.mInterrupted = false) (hf : d.mFlushNeeded = true) :
    ((∀ e ∈ d.mOutQueue.mElements, e.mStatus ≠ FREE) →
      decodeRead c d w skipEnabled ev = .waiting) ∧
    ((∃ e ∈ d.mOutQueue.mElements, e.mStatus = FREE) →
      ∃ (j : Nat) (e0 : DataElement) (w1 : World),
        d.mOutQueue.mElements[j]? = some e0 ∧ e0.mStatus = FREE ∧
        decodeRead c d w skipEnabled ev
          = .done ({ d with mOutQueue :=
                      { mMediaQueue := [],
                        mElements := d.mOutQueue.mElements.set j
                          { mData := { Frame.new with mStatus := c.ERROR_END_OF_STREAM },
                            mStatus := d.mOutQueue.mCount },
                        mCount := (d.mOutQueue.mCount + 1) % 2 ^ 32 } },
                   w1, .parkedEos (j : Int) e0.mData)) := by
  constructor
  · intro hfull
    have hp : ({ d.mOutQueue with mMediaQueue := [] } : BufferQueue).push
        { Frame.new with mStatus := c.ERROR_END_OF_STREAM } true = .blocked := by
      simp only [push, isFull_eq_true _ hfull, if_true]
    simp only [decodeRead, hi, hs, h1, h3, hf, Bool.false_eq_true, if_false, if_true,
      releaseBuffers, hp]
  · intro hfree
    obtain ⟨j, e0, g1, g2, g3⟩ := push_free { d.mOutQueue with mMediaQueue := [] }
      { Frame.new with mStatus := c.ERROR_END_OF_STREAM } true hfree
    refine ⟨j, e0, ?w1, g1, g2, ?_⟩
    case w1 => exact (releaseMediaBuffer ev.mediaBuffer (d.mOutQueue.releaseBuffers w).2).2
    simp only [if_true] at g3
    simp only [decodeRead, hi, hs, h1, h3, hf, Bool.false_eq_true, if_false, if_true,
      releaseBuffers, g3]

/-- C21, as the code has it, for a pass of `decode()` whose `read` returns
`ERROR_END_OF_STREAM` (the three status constants being pairwise different).
When the decoder is interrupted (as `release()` makes it before its
`signalEOF`) or no flush is pending, the worker publishes nothing: it leaves
the loop, clears the pool and returns, and the next `dequeueOutputBuffer`
returns `INFO_TRY_AGAIN_LATER`. When a flush is pending and the decoder is not
interrupted, the worker waits for a free slot if there is none; otherwise it
puts an end-of-stream frame into a free slot under the next arrival number and
waits in `push` until a slot is held; once woken it leaves the loop and
returns; and if no other slot is sequenced and the arrival counter is below
`FREE`, the next `dequeueOutputBuffer` returns `INFO_OUTPUT_END_OF_STREAM`. -/
theorem eos_pass (c : Codes) (d : Decoder) (w : World) (skipEnabled : Bool) (ev : ReadEvent)
    (hs : ev.status = c.ERROR_END_OF_STREAM) (h1 : c.ERROR_END_OF_STREAM ≠ OK)
    (h2 : c.INFO_FORMAT_CHANGED ≠ OK) (h3 : c.ERROR_END_OF_STREAM ≠ c.INFO_FORMAT_CHANGED) :
    (d.mInterrupted = true ∨ d.mFlushNeeded = false →
      ∃ (d1 : Decoder) (w1 : World),
        decodeRead c d w skipEnabled ev = .done (d1, w1, .exited) ∧
        d1.mOutQueue.mElements = d.mOutQueue.mElements.map clearSlot ∧
        ∃ r, d1.dequeueOutputBuffer c w1 = some r ∧ r.ret = INFO_TRY_AGAIN_LATER) ∧
    (d.mInterrupted = false → d.mFlushNeeded = true →
      ((∀ e ∈ d.mOutQueue.mElements, e.mStatus ≠ FREE) →
        decodeRead c d w skipEnabled ev = .waiting) ∧
      ((∃ e ∈ d.mOutQueue.mElements, e.mStatus = FREE) →
        ∃ (j : Nat) (d1 : Decoder) (w1 : World) (frame : Frame),
          decodeRead c d w skipEnabled ev = .done (d1, w1, .parkedEos (j : Int) frame) ∧
          d1.mOutQueue.mElements
            = d.mOutQueue.mElements.set j
                { mData := { Frame.new with mStatus := c.ERROR_END_OF_STREAM },
                  mStatus := d.mOutQueue.mCount } ∧
          (∀ (d2 : Decoder) (w2 : World) (e2 : ReadEvent) (p : List Int),
            ∃ (d3 : Decoder) (w3 : World),
              workerStep c d2 w2 (.parkedEos (j : Int) frame) e2 p = .done (d3, w3, .exited) ∧
              d3.mOutQueue.mElements = d2.mOutQueue.mElements.map clearSlot) ∧
          ((∀ e ∈ d.mOutQueue.mElements, ¬ Sequenced e) → d.mOutQueue.mCount < FREE →
            ∃ r, d1.dequeueOutputBuffer c w1 = some r ∧
              r.ret = INFO_OUTPUT_END_OF_STREAM))) := by
  constructor
  · intro h
    obtain ⟨w1, hr⟩ := decodeRead_leaves c d w skipEnabled ev hs h1 h3 h
    exact ⟨_, w1, hr, rfl, dequeue_cleared c _ w1 d.mOutQueue.mElements h1 h2 rfl⟩
  · intro hi hf
    obtain ⟨g1, g2⟩ := decodeRead_flush c d w skipEnabled ev hs h1 h3 hi hf
    refine ⟨g1, ?_⟩
    intro hfree
    obtain ⟨j, e0, w1, k1, _, k3⟩ := g2 hfree
    refine ⟨j, _, w1, e0.mData, k3, rfl, ?_, ?_⟩
    · intro d2 w2 e2 p
      obtain ⟨w3, ht⟩ := decodeTail_eq d2 (e0.mData.clearBuffers none w2).2.2 0
      refine ⟨{ d2 with mOutQueue := { d2.mOutQueue with
        mElements := d2.mOutQueue.mElements.map clearSlot, mMediaQueue := [] } }, w3, ?_, rfl⟩
      simp only [workerStep, decodeEos, decodeCond, Bool.not_true, Bool.false_and,
        Bool.false_eq_true, if_false, ht]
    · intro hseq hn
      have hlt : j < d.mOutQueue.mElements.length := slot_lt k1
      have hslot : (d.mOutQueue.mElements.set j
          { mData := { Frame.new with mStatus := c.ERROR_END_OF_STREAM },
            mStatus := d.mOutQueue.mCount })[j]?
          = some { mData := { Frame.new with mStatus := c.ERROR_END_OF_STREAM },
                   mStatus := d.mOutQueue.mCount } := List.getElem?_set_self hlt
      obtain ⟨j1, e1, r, m1, m2, _, _, m5, m6, _⟩ := dequeue_some c
        { d with mOutQueue :=
            { mMediaQueue := [],
              mElements := d.mOutQueue.mElements.set j
                { mData := { Frame.new with mStatus := c.ERROR_END_OF_STREAM },
                  mStatus := d.mOutQueue.mCount },
              mCount := (d.mOutQueue.mCount + 1) % 2 ^ 32 } } w1
        ⟨_, List.getElem?_mem hslot, hn⟩
      refine ⟨r, m5, ?_⟩
      simp only at m1
      rcases getElem?_set_cases m1 with ⟨_, hb⟩ | ⟨_, hb⟩
      · rw [m6, hb]
        simp only [if_true]
      · exact absurd m2 (hseq e1 (List.getElem?_mem hb))

theorem eos_pass_witness :
    (eosEvent.status = androidCodes.ERROR_END_OF_STREAM ∧ androidCodes.ERROR_END_OF_STREAM ≠ OK ∧
      androidCodes.INFO_FORMAT_CHANGED ≠ OK ∧
      androidCodes.ERROR_END_OF_STREAM ≠ androidCodes.INFO_FORMAT_CHANGED ∧
      plainDecoder.mFlushNeeded = false ∧ flushDecoder.mInterrupted = false ∧
      flushDecoder.mFlushNeeded = true ∧
      (∃ e ∈ flushDecoder.mOutQueue.mElements, e.mStatus = FREE) ∧
      (∀ e ∈ flushDecoder.mOutQueue.mElements, ¬ Sequenced e) ∧
      flushDecoder.mOutQueue.mCount < FREE) ∧
    (∃ (d1 : Decoder) (w1 : World),
      decodeRead androidCodes plainDecoder World.empty false eosEvent = .done (d1, w1, .exited) ∧
      ∃ r, d1.dequeueOutputBuffer androidCodes w1 = some r ∧ r.ret = INFO_TRY_AGAIN_LATER) ∧
    (∃ (j : Nat) (d1 : Decoder) (w1 : World) (frame : Frame),
      decodeRead androidCodes flushDecoder World.empty false eosEvent
        = .done (d1, w1, .parkedEos (j : Int) frame) ∧
      ∃ r, d1.dequeueOutputBuffer androidCodes w1 = some r ∧
        r.ret = INFO_OUTPUT_END_OF_STREAM) := by
  refine ⟨⟨rfl, by decide, by decide, by decide, rfl, rfl, rfl, by decide, by decide,
    by decide⟩, ?_, ?_⟩
  · obtain ⟨d1, w1, k1, _, k3⟩ :=
      (eos_pass androidCodes plainDecoder World.empty false eosEvent rfl (by decide) (by decide)
        (by decide)).1 (Or.inr rfl)
    exact ⟨d1, w1, k1, k3⟩
  · obtain ⟨j, d1, w1, frame, k1, _, _, k4⟩ :=
      ((eos_pass androidCodes flushDecoder World.empty false eosEvent rfl (by decide) (by decide)
        (by decide)).2 rfl rfl).2 (by decide)
    exact ⟨j, d1, w1, frame, k1, k4 (by decide) (by decide)⟩

/-- C21 fails as stated. With no flush pending, a pass that sees
`ERROR_END_OF_STREAM` ends `decode()` and the next `dequeueOutputBuffer`
returns `INFO_TRY_AGAIN_LATER`; so does the pass of the decoder that
`release()` has interrupted. With a flush pending and two older frames ready
in the pool, the end-of-stream frame goes to slot 1 behind them: the next
`dequeueOutputBuffer` returns the index 2 of the oldest frame, this wakes the
worker, which returns clearing the pool, and the call after that returns
`INFO_TRY_AGAIN_LATER`. -/
theorem eos_not_next_event :
    plainDecoder.mInterrupted = false ∧ plainDecoder.mFlushNeeded = false ∧
    teardownDecoder.mInterrupted = true ∧ flushBusyDecoder.mFlushNeeded = true ∧
    eosEvent.status = androidCodes.ERROR_END_OF_STREAM ∧
    (∃ (d1 : Decoder) (w1 : World) (r : DequeueResult),
      decodeRead androidCodes plainDecoder World.empty false eosEvent = .done (d1, w1, .exited) ∧
      d1.dequeueOutputBuffer androidCodes w1 = some r ∧ r.ret = INFO_TRY_AGAIN_LATER) ∧
    (∃ (d1 : Decoder) (w1 : World) (r : DequeueResult),
      decodeRead androidCodes teardownDecoder World.empty false eosEvent
        = .done (d1, w1, .exited) ∧
      d1.dequeueOutputBuffer androidCodes w1 = some r ∧ r.ret = INFO_TRY_AGAIN_LATER) ∧
    (∃ (d1 : Decoder) (w1 : World) (frame : Frame) (r : DequeueResult) (d2 : Decoder)
        (w2 : World) (r2 : DequeueResult),
      decodeRead androidCodes flushBusyDecoder World.empty false eosEvent
        = .done (d1, w1, .parkedEos 1 frame) ∧
      d1.dequeueOutputBuffer androidCodes w1 = some r ∧ r.ret = 2 ∧
      workerStep androidCodes r.d r.w (.parkedEos 1 frame) eosEvent [] = .done (d2, w2, .exited) ∧
      d2.dequeueOutputBuffer androidCodes w2 = some r2 ∧ r2.ret = INFO_TRY_AGAIN_LATER) := by
  refine ⟨rfl, rfl, rfl, rfl, rfl, ⟨_, _, _, rfl, rfl, by decide⟩, ⟨_, _, _, rfl, rfl, by decide⟩,
    ⟨_, _, _, _, _, _, _, rfl, rfl, by decide, rfl, rfl, by decide⟩⟩

theorem waitRelease_eq {q q1 : BufferQueue} {w w1 : World} {waitTime : Int} {periods : List Int}
    {count : Nat} (h : q.waitRelease w waitTime periods = some (count, q1, w1)) :
    q1 = { q with mMediaQueue := [] } ∧ w1 = releaseMediaBufferQueue q.mMediaQueue w := by
  unfold waitRelease at h
  cases hl : waitReleaseLoop q waitTime periods q.filledCount with
  | none => rw [hl] at h; cases h
  | some n =>
    rw [hl] at h
    simp only [Option.map_some', Option.some.injEq, Prod.mk.injEq] at h
    exact ⟨h.2.1.symm, h.2.2.symm⟩

theorem releaseMediaBuffer_released (buffer : Ptr) (w : World) :
    (releaseMediaBuffer buffer w).2.released
      = w.released ++ (if buffer ≠ 0 then [buffer] else []) := by
  unfold releaseMediaBuffer
  by_cases h : buffer = 0
  · simp [h]
  · simp [h, World.release]

theorem clearBuffers_released_sub (f : Frame) (l : Option (List Ptr)) (w : World) (h : Ptr)
    (hh : h ∈ w.released) : h ∈ (f.clearBuffers l w).2.2.released := by
  unfold Frame.clearBuffers
  by_cases h1 : f.mBuffer = 0 <;> by_cases h2 : f.mMediaBuffer = 0 <;> cases l <;>
    simp [h1, h2, World.deleteArr, World.release, hh]

theorem decodeGraphic_saturated (d : Decoder) (w : World) (ev : ReadEvent) (timeUs filled : Int)
    (count : Nat) (q1 : BufferQueue) (w1 : World)
    (hf : filled ≥ (MAX_HOLDED_FRAMES : Int)) (hi : d.mInterrupted = false)
    (hw : d.mOutQueue.waitRelease w (2 * s_frameDisplayTimeMsec) ev.periods = some (count, q1, w1))
    (hc : toInt32 count ≥ (MAX_HOLDED_FRAMES : Int))
    (hfree : ∃ e ∈ d.mOutQueue.mElements, e.mStatus = FREE) :
    ∃ (j : Nat) (e0 : DataElement),
      d.mOutQueue.mElements[j]? = some e0 ∧ e0.mStatus = FREE ∧
      decodeGraphic d w ev timeUs filled
        = .done ({ d with mOutQueue :=
                    { mMediaQueue := [],
                      mElements := d.mOutQueue.mElements.set j
                        { mData := Frame.ofMedia ev.status 0 timeUs 0,
                          mStatus := d.mOutQueue.mCount },
                      mCount := (d.mOutQueue.mCount + 1) % 2 ^ 32 } },
                 (releaseMediaBuffer ev.mediaBuffer w1).2,
                 .parkedFrame (j : Int) e0.mData (toInt32 count)) := by
  obtain ⟨hq1, _⟩ := waitRelease_eq hw
  have hmb : (releaseMediaBuffer ev.mediaBuffer w1).1 = 0 := by
    unfold releaseMediaBuffer
    by_cases h : ev.mediaBuffer = 0
    · simp [h]
    · simp [h]
  obtain ⟨j, e0, g1, g2, g3⟩ := push_free { d.mOutQueue with mMediaQueue := [] }
    (Frame.ofMedia ev.status 0 timeUs 0) true hfree
  refine ⟨j, e0, g1, g2, ?_⟩
  simp only [if_true] at g3
  have hcond : filled ≥ (MAX_HOLDED_FRAMES : Int) ∧ ¬ d.mInterrupted = true := by
    refine ⟨hf, ?_⟩
    rw [hi]
    decide
  simp only [decodeGraphic, if_pos hcond, hw, if_pos hc, hmb, hq1, g3]

theorem clearBuffers_frame (f : Frame) (l : Option (List Ptr)) (w : World) :
    (f.clearBuffers l w).1
      = { f with mBuffer := 0, mMediaBuffer := 0,
                 mSize := if f.mBuffer ≠ 0 then 0 else f.mSize } := by
  obtain ⟨s, p, n, b, fl, m⟩ := f
  unfold Frame.clearBuffers
  by_cases h1 : b = 0 <;> by_cases h2 : m = 0 <;> cases l <;> simp [h1, h2]

theorem decodeHeld_saturated (d : Decoder) (w : World) (j : Nat) (e : DataElement)
    (frame : Frame) (filled : Int) (periods : List Int) (count : Nat) (q1 : BufferQueue)
    (w1 : World)
    (hf : wrap32 (filled + 1) ≥ (MAX_HOLDED_FRAMES : Int)) (hi : d.mInterrupted = false)
    (hw : d.mOutQueue.waitRelease w
        (if d.mFlushNeeded then OUT_BUFFER_COUNT * s_frameDisplayTimeMsec
         else 2 * s_frameDisplayTimeMsec) periods = some (count, q1, w1))
    (hc : toInt32 count ≥ (MAX_HOLDED_FRAMES : Int))
    (hj : d.mOutQueue.mElements[j]? = some e) :
    ∃ w2, decodeHeld d w (j : Int) frame filled periods
        = .done ({ d with mOutQueue :=
                    { mMediaQueue := [],
                      mElements := d.mOutQueue.mElements.set j
                        { mData := { e.mData with
                                     mBuffer := 0, mMediaBuffer := 0,
                                     mSize := if e.mData.mBuffer ≠ 0 then 0 else e.mData.mSize },
                          mStatus := e.mStatus },
                      mCount := d.mOutQueue.mCount } },
                 w2, .reading false) ∧
      (e.mData.mMediaBuffer ≠ 0 → e.mData.mMediaBuffer ∈ w2.released) := by
  obtain ⟨hq1, _⟩ := waitRelease_eq hw
  have hcond : wrap32 (filled + 1) ≥ (MAX_HOLDED_FRAMES : Int) ∧ ¬ d.mInterrupted = true := by
    refine ⟨hf, ?_⟩
    rw [hi]
    decide
  have hlt : j < d.mOutQueue.mElements.length := slot_lt hj
  have hg := index_guard d.mOutQueue.mElements j hlt
  have hcb : q1.clearBuffer w1 (j : Int)
      = some ({ mMediaQueue := [],
                mElements := d.mOutQueue.mElements.set j
                  { mData := { e.mData with
                               mBuffer := 0, mMediaBuffer := 0,
                               mSize := if e.mData.mBuffer ≠ 0 then 0 else e.mData.mSize },
                    mStatus := e.mStatus },
                mCount := d.mOutQueue.mCount },
              releaseMediaBufferQueue
                (([] : List Ptr) ++ if e.mData.mMediaBuffer ≠ 0 then [e.mData.mMediaBuffer] else [])
                (e.mData.clearBuffers (some []) w1).2.2) := by
    rw [hq1]
    simp only [clearBuffer, hg, if_false, Int.toNat_ofNat, hj, clearBuffers_frame,
      (clearBuffers_deferred e.mData [] w1).2.2.2.2.1, Option.getD_some]
  have hdnot : (!false && !d.mInterrupted) = true := by rw [hi]; rfl
  refine ⟨(frame.clearBuffers none
    (releaseMediaBufferQueue
      (([] : List Ptr) ++ if e.mData.mMediaBuffer ≠ 0 then [e.mData.mMediaBuffer] else [])
      (e.mData.clearBuffers (some []) w1).2.2)).2.2, ?_, ?_⟩
  · simp only [decodeHeld, if_pos hcond, hw, if_pos hc, hcb, decodeCond, hdnot, if_true, decodeTop,
      releaseBuffers]
    rfl
  · intro hne
    apply clearBuffers_released_sub
    rw [(releaseMediaBufferQueue_released _ _).1]
    simp [hne]

/-- C23, as the code has it, for a decoder that is not interrupted and a
`waitRelease` that returns a count of at least `MAX_HOLDED_FRAMES`. Before the
push (pool already at the mark), the worker releases the buffer it has just
decoded and publishes a frame without buffer in a free slot; after the push,
it clears the payload of the slot it has just filled, `clearBuffer(index)`,
which releases the handle in it. In both cases every other slot, the oldest
sequenced one included, keeps its state and payload, `mNeedSkip` is not
written, and after the second case the worker is back in `read` with
`skipEnabled` false. -/
theorem saturated_discards_new (d : Decoder) (w : World) (count : Nat) (q1 : BufferQueue)
    (w1 : World) (periods : List Int) (hi : d.mInterrupted = false)
    (hc : toInt32 count ≥ (MAX_HOLDED_FRAMES : Int)) :
    (∀ (ev : ReadEvent) (timeUs filled : Int), filled ≥ (MAX_HOLDED_FRAMES : Int) →
      d.mOutQueue.waitRelease w (2 * s_frameDisplayTimeMsec) ev.periods = some (count, q1, w1) →
      (∃ e ∈ d.mOutQueue.mElements, e.mStatus = FREE) →
      ∃ (j : Nat) (d1 : Decoder) (frame : Frame),
        decodeGraphic d w ev timeUs filled
          = .done (d1, (releaseMediaBuffer ev.mediaBuffer w1).2,
              .parkedFrame (j : Int) frame (toInt32 count)) ∧
        d1.mOutQueue.mElements[j]?
          = some { mData := Frame.ofMedia ev.status 0 timeUs 0,
                   mStatus := d.mOutQueue.mCount } ∧
        (∀ t, t ≠ j → d1.mOutQueue.mElements[t]? = d.mOutQueue.mElements[t]?) ∧
        (ev.mediaBuffer ≠ 0 →
          ev.mediaBuffer ∈ (releaseMediaBuffer ev.mediaBuffer w1).2.released) ∧
        d1.mNeedSkip = d.mNeedSkip) ∧
    (∀ (j : Nat) (e : DataElement) (frame : Frame) (filled : Int),
      wrap32 (filled + 1) ≥ (MAX_HOLDED_FRAMES : Int) →
      d.mOutQueue.waitRelease w
          (if d.mFlushNeeded then OUT_BUFFER_COUNT * s_frameDisplayTimeMsec
           else 2 * s_frameDisplayTimeMsec) periods = some (count, q1, w1) →
      d.mOutQueue.mElements[j]? = some e →
      ∃ (d1 : Decoder) (w2 : World) (e1 : DataElement),
        decodeHeld d w (j : Int) frame filled periods = .done (d1, w2, .reading false) ∧
        d1.mOutQueue.mElements[j]? = some e1 ∧ e1.mData.empty = true ∧
        e1.mStatus = e.mStatus ∧ e1.mData.mPts = e.mData.mPts ∧
        (∀ t, t ≠ j → d1.mOutQueue.mElements[t]? = d.mOutQueue.mElements[t]?) ∧
        (e.mData.mMediaBuffer ≠ 0 → e.mData.mMediaBuffer ∈ w2.released) ∧
        d1.mNeedSkip = d.mNeedSkip) := by
  constructor
  · intro ev timeUs filled hf hw hfree
    obtain ⟨j, e0, g1, _, g3⟩ := decodeGraphic_saturated d w ev timeUs filled count q1 w1 hf hi hw
      hc hfree
    have hlt : j < d.mOutQueue.mElements.length := slot_lt g1
    refine ⟨j, _, e0.mData, g3, List.getElem?_set_self hlt, ?_, ?_, rfl⟩
    · intro t ht
      exact List.getElem?_set_ne (Ne.symm ht)
    · intro hne
      rw [releaseMediaBuffer_released]
      simp [hne]
  · intro j e frame filled hf hw hj
    obtain ⟨w2, g1, g2⟩ := decodeHeld_saturated d w j e frame filled periods count q1 w1 hf hi hw
      hc hj
    have hlt : j < d.mOutQueue.mElements.length := slot_lt hj
    refine ⟨_, w2, _, g1, List.getElem?_set_self hlt, rfl, rfl, rfl, ?_, g2, rfl⟩
    intro t ht
    exact List.getElem?_set_ne (Ne.symm ht)

theorem saturated_discards_new_witness :
    (threeGraphicDecoder.mInterrupted = false ∧ twoGraphicHeld.mInterrupted = false ∧
      toInt32 3 ≥ (MAX_HOLDED_FRAMES : Int) ∧ (3 : Int) ≥ (MAX_HOLDED_FRAMES : Int) ∧
      threeGraphicDecoder.mOutQueue.waitRelease World.empty (2 * s_frameDisplayTimeMsec)
        graphicEvent.periods = some (3, threeGraphicPool, World.empty) ∧
      (∃ e ∈ threeGraphicDecoder.mOutQueue.mElements, e.mStatus = FREE) ∧
      wrap32 (2 + 1) ≥ (MAX_HOLDED_FRAMES : Int) ∧
      twoGraphicHeld.mOutQueue.waitRelease World.empty
        (if twoGraphicHeld.mFlushNeeded then OUT_BUFFER_COUNT * s_frameDisplayTimeMsec
         else 2 * s_frameDisplayTimeMsec) [100]
        = some (3, twoGraphicHeld.mOutQueue, World.empty) ∧
      twoGraphicHeld.mOutQueue.mElements[2]? = some { mData := graphicFrame 14, mStatus := 2 }) ∧
    (∃ (j : Nat) (d1 : Decoder) (frame : Frame),
      decodeGraphic threeGraphicDecoder World.empty graphicEvent 14 3
        = .done (d1, (releaseMediaBuffer graphicEvent.mediaBuffer World.empty).2,
            .parkedFrame (j : Int) frame (toInt32 3)) ∧
      d1.mOutQueue.mElements[j]?
        = some { mData := Frame.ofMedia graphicEvent.status 0 14 0,
                 mStatus := threeGraphicDecoder.mOutQueue.mCount } ∧
      (graphicEvent.mediaBuffer ≠ 0 →
        graphicEvent.mediaBuffer
          ∈ (releaseMediaBuffer graphicEvent.mediaBuffer World.empty).2.released)) ∧
    (∃ (d1 : Decoder) (w2 : World) (e1 : DataElement),
      decodeHeld twoGraphicHeld World.empty ((2 : Nat) : Int) Frame.new 2 [100]
        = .done (d1, w2, .reading false) ∧
      d1.mOutQueue.mElements[2]? = some e1 ∧ e1.mData.empty = true ∧
      ((graphicFrame 14).mMediaBuffer ≠ 0 → (graphicFrame 14).mMediaBuffer ∈ w2.released) ∧
      d1.mNeedSkip = twoGraphicHeld.mNeedSkip) := by
  refine ⟨⟨rfl, rfl, by decide, by decide, by decide, by decide, by decide, by decide, rfl⟩,
    ?_, ?_⟩
  · obtain ⟨j, d1, frame, k1, k2, _, k4, _⟩ :=
      (saturated_discards_new threeGraphicDecoder World.empty 3 threeGraphicPool World.empty [100]
        rfl (by decide)).1 graphicEvent 14 3 (by decide) (by decide) (by decide)
    exact ⟨j, d1, frame, k1, k2, k4⟩
  · obtain ⟨d1, w2, e1, k1, k2, k3, _, _, _, k7, k8⟩ :=
      (saturated_discards_new twoGraphicHeld World.empty 3 twoGraphicHeld.mOutQueue World.empty
        [100] rfl (by decide)).2 2 { mData := graphicFrame 14, mStatus := 2 } Frame.new 2
        (by decide) (by decide) rfl
    exact ⟨d1, w2, e1, k1, k2, k3, k7, k8⟩

/-- C23 fails as stated. With the frames 11 and 12 ready in the pool, the
worker publishes the buffer 14 in slot 2; the consumer takes the oldest frame;
the worker then finds three slots filled after its wait and clears slot 2, the
one it has just filled: the buffer released is 14, the frames 11 and 12 keep
their buffers, the worker goes on with `skipEnabled` false and `mNeedSkip` is
false as before. With the frames 11, 12 and 13 ready, the buffer 14 is released
before the push and a frame without buffer is published. -/
theorem newest_buffer_discarded :
    twoGraphicDecoder.mOutQueue = twoGraphicPool ∧ twoGraphicDecoder.mNeedSkip = false ∧
    twoGraphicPool.mElements[0]? = some { mData := graphicFrame 11, mStatus := 0 } ∧
    (graphicFrame 11).mMediaBuffer = 11 ∧
    (∃ (d1 : Decoder) (w1 : World) (r : DequeueResult) (d2 : Decoder) (w2 : World),
      decodeRead androidCodes twoGraphicDecoder World.empty false graphicEvent
        = .done (d1, w1, .parkedFrame 2 Frame.new 2) ∧
      d1.dequeueOutputBuffer androidCodes w1 = some r ∧ r.ret = 0 ∧
      workerStep androidCodes r.d r.w (.parkedFrame 2 Frame.new 2) graphicEvent [100]
        = .done (d2, w2, .reading false) ∧
      d2.mOutQueue = twoGraphicAfter ∧ w2.released = [14] ∧ d2.mNeedSkip = false) ∧
    (∃ (d1 : Decoder) (w1 : World) (r : DequeueResult) (d2 : Decoder) (w2 : World),
      decodeRead androidCodes threeGraphicDecoder World.empty false graphicEvent
        = .done (d1, w1, .parkedFrame 3 Frame.new 3) ∧ w1.released = [14] ∧
      d1.dequeueOutputBuffer androidCodes w1 = some r ∧ r.ret = 0 ∧
      workerStep androidCodes r.d r.w (.parkedFrame 3 Frame.new 3) graphicEvent [100]
        = .done (d2, w2, .reading false) ∧
      d2.mOutQueue = threeGraphicAfter ∧ w2.released = [14] ∧ d2.mNeedSkip = false) := by
  refine ⟨rfl, rfl, rfl, rfl, ⟨_, _, _, _, _, rfl, rfl, by decide, rfl, by decide, by decide,
    by decide⟩, ⟨_, _, _, _, _, rfl, by decide, rfl, by decide, rfl, by decide, by decide,
    by decide⟩⟩

end Stagefright
